import Mathlib

/-!
# Pod generation for multi-stage tests (`pkg/steps/multi_stage/gen.go`)

A shallow embedding of the pod compiler of the multi-stage test step and
theorems about it.

Modelling conventions

* Go structs become Lean structures with the same field names; a Go pointer
  or a nil-able value becomes an `Option`; a Go slice becomes a `List`
  (`nil` and the empty slice are both `[]`).
* A Go `map[string]T` becomes an association list with distinct keys.
  The order in which a `range` statement visits a map is not fixed by the
  language, so it is an explicit parameter (`Collaborators.rangeMap`).
* A run-time panic (index out of range) is the value `none` of `Option`.
  The label and annotation maps of a generated base pod and the decoration
  config of the job spec are taken to be non-nil, so writes to them succeed.
* Code of other packages (the base pod generator, the image digest lookup,
  configuration look-ups, constants of `pkg/api` and `pkg/steps`) is not
  part of the embedded file; it is collected in `Collaborators` and every
  theorem holds for all of its values.
* `time.Duration` is an integer number of nanoseconds and
  `resource.Quantity` an integer number of base units.
-/

namespace MultiStage

/-! ## Kubernetes core API objects (the fields this file touches) -/

/-- Go `time.Duration`: nanoseconds. -/
abbrev Duration := Int

/-- Go `resource.Quantity`, by its value. -/
abbrev Quantity := Int

/-- Go `map[string]string`. -/
abbrev StringMap := List (String × String)

/-- Go `coreapi.ResourceList`. -/
abbrev ResourceList := List (String × Quantity)

structure EnvVar where
  Name : String
  Value : String
deriving DecidableEq, Repr

structure VolumeMount where
  Name : String
  MountPath : String
deriving DecidableEq, Repr

structure Capabilities where
  Add : List String
  Drop : List String
deriving DecidableEq, Repr

structure SELinuxOptions where
  User : String
  Role : String
  Type_ : String
  Level : String
deriving DecidableEq, Repr

structure SecurityContext where
  Capabilities : Option Capabilities := none
  SELinuxOptions : Option SELinuxOptions := none
  RunAsUser : Option Int := none
  RunAsNonRoot : Option Bool := none
deriving DecidableEq, Repr

structure ResourceRequirements where
  Limits : ResourceList := []
  Requests : ResourceList := []
deriving DecidableEq, Repr

structure Container where
  Name : String := ""
  Image : String := ""
  Command : List String := []
  Args : List String := []
  WorkingDir : String := ""
  Env : List EnvVar := []
  Resources : ResourceRequirements := {}
  VolumeMounts : List VolumeMount := []
  TerminationMessagePolicy : String := ""
  SecurityContext : Option SecurityContext := none
deriving DecidableEq, Repr

/-- Go `coreapi.VolumeSource`: the variants this file creates, and `other`
for any source a base pod may carry. -/
inductive VolumeSource where
  | EmptyDir (Medium : String) (SizeLimit : Option Quantity)
  | Secret (SecretName : String)
  | HostPath (Path : String) (Type_ : Option String)
  | CSI (Driver : String) (ReadOnly : Option Bool) (VolumeAttributes : StringMap)
  | ConfigMap (Name : String) (DefaultMode : Option Nat)
  | other (tag : String)
deriving DecidableEq, Repr

structure Volume where
  Name : String
  VolumeSource : VolumeSource
deriving DecidableEq, Repr

structure PodDNSConfig where
  Nameservers : List String := []
  Searches : List String := []
deriving DecidableEq, Repr

structure OwnerReference where
  APIVersion : String
  Kind : String
  Name : String
  UID : String
deriving DecidableEq, Repr

structure PodSpec where
  Volumes : List Volume := []
  InitContainers : List Container := []
  Containers : List Container := []
  TerminationGracePeriodSeconds : Option Int := none
  DNSPolicy : String := ""
  NodeSelector : Option StringMap := none
  ServiceAccountName : String := ""
  AutomountServiceAccountToken : Option Bool := none
  DNSConfig : Option PodDNSConfig := none
deriving DecidableEq, Repr

structure Pod where
  Name : String := ""
  Namespace : String := ""
  Labels : StringMap := []
  Annotations : StringMap := []
  OwnerReferences : List OwnerReference := []
  Spec : PodSpec := {}
deriving DecidableEq, Repr

/-! ## Security contexts -/

/-- The closure `f` of `setSecurityContexts`: one pass over a container list. -/
def setSecurityContextsOn (root : String) (uid : Int)
    (capabilities : Option Capabilities) (seLinuxOpts : Option SELinuxOptions)
    (l : List Container) : List Container :=
  l.map fun c =>
    if c.Name = root then
      { c with SecurityContext := some (
          { RunAsUser := some 0,
            Capabilities := capabilities,
            SELinuxOptions := seLinuxOpts } : SecurityContext) }
    else
      { c with SecurityContext := some (
          { RunAsNonRoot := some true,
            RunAsUser := some uid } : SecurityContext) }

/-- Go `setSecurityContexts`: configures the context of all containers in a
pod; `root` runs as UID 0 with `capabilities` and `seLinuxOpts`, all others
as non-root with `uid`. -/
def setSecurityContexts (pod : Pod) (root : String) (uid : Int)
    (capabilities : Option Capabilities) (seLinuxOpts : Option SELinuxOptions) : Pod :=
  { pod with Spec := { pod.Spec with
      InitContainers := setSecurityContextsOn root uid capabilities seLinuxOpts pod.Spec.InitContainers,
      Containers := setSecurityContextsOn root uid capabilities seLinuxOpts pod.Spec.Containers } }

/-! ## Step descriptors (`pkg/api`, declarations only) -/

/-- Go `error`: a message (`fmt.Errorf` without `%w`, or any error of a
collaborator), a wrapped error (`fmt.Errorf` with `%w`), or the aggregate
built by `utilerrors.NewAggregate`. -/
inductive Error where
  | errorf (msg : String)
  | wrapf (msg : String) (err : Error)
  | aggregate (errs : List Error)
deriving Repr

structure ImageStreamTagReference where
  Namespace : String
  Name : String
  Tag : String
deriving DecidableEq, Repr

structure StepParameter where
  Name : String
  Default : Option String
deriving DecidableEq, Repr

structure StepDependency where
  Name : String := ""
  Env : String := ""
  PullSpec : String := ""
deriving DecidableEq, Repr

structure CredentialReference where
  Namespace : String := ""
  Name : String := ""
  Collection : String := ""
  MountPath : String := ""
deriving DecidableEq, Repr

structure StepDNSConfig where
  Nameservers : List String := []
  Searches : List String := []
deriving DecidableEq, Repr

/-- Go `api.ResourceRequirements`: unparsed quantities. -/
structure StepResources where
  Requests : StringMap := []
  Limits : StringMap := []
deriving DecidableEq, Repr

structure LiteralTestStep where
  As : String := ""
  From : String := ""
  FromImage : Option ImageStreamTagReference := none
  Commands : String := ""
  Resources : StepResources := {}
  Timeout : Option Duration := none
  GracePeriod : Option Duration := none
  Credentials : List CredentialReference := []
  Environment : List StepParameter := []
  Dependencies : List StepDependency := []
  DNSConfig : Option StepDNSConfig := none
  OptionalOnSuccess : Option Bool := none
  BestEffort : Option Bool := none
  NoKubeconfig : Option Bool := none
  Cli : String := ""
  RunAsScript : Option Bool := none
  NodeArchitecture : Option String := none
deriving DecidableEq, Repr

structure Observer where
  Name : String := ""
  From : String := ""
  FromImage : Option ImageStreamTagReference := none
  Commands : String := ""
  Resources : StepResources := {}
  Timeout : Option Duration := none
  GracePeriod : Option Duration := none
  Environment : List StepParameter := []
deriving DecidableEq, Repr

/-- Go `api.ClusterClaim`; only its presence matters in this file. -/
structure ClusterClaim where
  Product : String := ""
  Version : String := ""
  Architecture : String := ""
  Cloud : String := ""
  Owner : String := ""
deriving DecidableEq, Repr

/-- Go `api.ClaimRelease`; only handed on to `DependencyParts`. -/
structure ClaimRelease where
  ReleaseName : String := ""
  OverrideName : String := ""
deriving DecidableEq, Repr

/-- Go `prowapi.DecorationConfig`: the two fields written by `generatePods`;
`Rest` stands for all the others. -/
structure DecorationConfig where
  Timeout : Option Duration := none
  GracePeriod : Option Duration := none
  Rest : String := ""
deriving DecidableEq, Repr

/-- Go `api.JobSpec`: the decoration config, and the values of the accessors
`Namespace()`, `JobNameHash()`, `UniqueHash()`, `Owner()` and `RawSpec()`. -/
structure JobSpec where
  DecorationConfig : DecorationConfig := {}
  Namespace : String := ""
  JobNameHash : String := ""
  UniqueHash : String := ""
  Owner : Option OwnerReference := none
  RawSpec : String := ""
deriving DecidableEq, Repr

structure vpnConf where
  Image : String := ""
  Commands : String := ""
  WaitTimeout : Option String := none
  namespaceUID : Int := 0
deriving DecidableEq, Repr

/-- Go `multiStageTestStep`: the fields read by this file (`config` and
`client` are reached through `Collaborators`). -/
structure multiStageTestStep where
  name : String := ""
  nodeName : String := ""
  profile : String := ""
  flags : Nat := 0
  vpnConf : Option vpnConf := none
  clusterClaim : Option ClusterClaim := none
  env : StringMap := []
  jobSpec : JobSpec := {}
deriving DecidableEq, Repr

structure generatePodOptions where
  IsObserver : Bool := false
  enableSecretsStoreCSIDriver : Bool := false
deriving DecidableEq, Repr

/-- Go `map[string][]api.CredentialReference`. -/
abbrev CredentialGroups := List (String × List CredentialReference)

/-- Everything `gen.go` uses from other files and packages: constants,
configuration look-ups, the base pod generator and the digest lookup. -/
structure Collaborators where
  /-- The bit of `stepFlag` of the same name. -/
  allowSkipOnSuccess : Nat
  /-- The bit of `stepFlag` of the same name. -/
  allowBestEffortPostSteps : Nat
  /-- The bit of `stepFlag` of the same name. -/
  hasPrevErrs : Nat
  PipelineImageStream : String
  ShmResource : String
  QCIAPPCIDomain : String
  CliEnv : String
  HiveAdminKubeconfigSecret : String
  HiveAdminPasswordSecret : String
  HiveAdminKubeconfigSecretKey : String
  HiveAdminPasswordSecretKey : String
  LabelMetadataStep : String
  ProwJobIdLabel : String
  AnnotationSaveContainerLogs : String
  MultiStageTestLabel : String
  homeVolumeName : String
  SecretMountPath : String
  SecretMountEnv : String
  ClusterProfileMountPath : String
  ClusterProfileMountEnv : String
  CliMountPath : String
  CommandScriptMountPath : String
  CommandPrefix : String
  /-- Constant `entrypoint.DefaultTimeout`. -/
  DefaultTimeout : Duration
  /-- Constant `entrypoint.DefaultGracePeriod`. -/
  DefaultGracePeriod : Duration
  /-- Method `step.FromImageTag()`: `some link` for `(link, true)`. -/
  FromImageTag : LiteralTestStep → Option String
  /-- Method `s.config.DependencyParts`. -/
  DependencyParts : StepDependency → Option ClaimRelease → String × String × Bool
  /-- Method `s.clusterClaim.ClaimRelease`. -/
  ClaimRelease : ClusterClaim → String → ClaimRelease
  /-- Function `base_steps.ResourcesFor`. -/
  ResourcesFor : StepResources → Except Error ResourceRequirements
  /-- Function `base_steps.GenerateBasePod`; the last argument is
  `GeneratePodOptions.PropagateExitCode`. -/
  GenerateBasePod : JobSpec → StringMap → String → String → String → List String →
    String → ResourceRequirements → String → DecorationConfig → String →
    List VolumeMount → Bool → Except Error Pod
  /-- The call `utils.ImageDigestFor(s.client, namespace, imageStream, name)()`. -/
  ImageDigestFor : String → String → String → Except Error String
  /-- Function `api.ReleaseStreamFor`. -/
  ReleaseStreamFor : String → String
  /-- Method `api.ClusterProfile.Name`. -/
  profileName : String → String
  /-- Method `api.ClusterProfile.ClusterType`. -/
  profileClusterType : String → String
  /-- Method `s.profileSecretName`. -/
  profileSecretName : multiStageTestStep → String
  getMountPath : String → String
  NamePerTest : String → String → String
  volumeName : String → String → String
  getCSIVolumeName : String → String → String → String
  getSPCName : String → String → String → List CredentialReference → String
  /-- Function `filepath.Join` on two elements. -/
  filepathJoin : String → String → String
  /-- The order in which `range` visits the entries of a map. -/
  rangeMap : CredentialGroups → CredentialGroups

/-! ## Constants -/

def containerName : String := "test"
def profileVolumeName : String := "cluster-profile"
def vpnContainerName : String := "vpn-client"

/-- Constant `coreapi.DNSNone`. -/
def DNSNone : String := "None"
/-- Constant `coreapi.LabelArchStable`. -/
def LabelArchStable : String := "kubernetes.io/arch"
/-- Constant `coreapi.StorageMediumMemory`. -/
def StorageMediumMemory : String := "Memory"
/-- Constant `coreapi.HostPathCharDev`. -/
def HostPathCharDev : String := "CharDevice"
/-- Constant `coreapi.TerminationMessageFallbackToLogsOnError`. -/
def TerminationMessageFallbackToLogsOnError : String := "FallbackToLogsOnError"
/-- Constant `time.Second`. -/
def Second : Duration := 1000000000

/-! ## Helpers for Go built-ins -/

/-- Go `m[k] = v` on a non-nil map. -/
def mapSet {α : Type} (m : List (String × α)) (k : String) (v : α) : List (String × α) :=
  if m.any (fun e => e.1 == k) then
    m.map fun e => if e.1 == k then (k, v) else e
  else m ++ [(k, v)]

/-- Go `delete(m, k)`. -/
def mapDelete {α : Type} (m : List (String × α)) (k : String) : List (String × α) :=
  m.filter fun e => e.1 != k

/-- Go `ResourceList.Name(name, format)`: the quantity, or zero if absent. -/
def ResourceList.Name (l : ResourceList) (name : String) : Quantity :=
  (l.lookup name).getD 0

/-- Go `utilerrors.NewAggregate`: nil for an empty list. -/
def NewAggregate (errlist : List Error) : Option Error :=
  if errlist.isEmpty then none else some (Error.aggregate errlist)

/-- Go `Aggregate.Errors()`, on the error returned by `NewAggregate`. -/
def aggregateErrors : Option Error → List Error
  | some (Error.aggregate errs) => errs
  | some e => [e]
  | none => []

/-- Go `pod.Spec.Containers[0]` updated in place; out of range panics. -/
def updateContainer0 (pod : Pod) (f : Container → Container) : Option Pod :=
  match pod.Spec.Containers with
  | [] => none
  | c :: cs => some { pod with Spec := { pod.Spec with Containers := f c :: cs } }

/-- Go `pod.Spec.Volumes = append(pod.Spec.Volumes, vs...)`. -/
def addVolumes (pod : Pod) (vs : List Volume) : Pod :=
  { pod with Spec := { pod.Spec with Volumes := pod.Spec.Volumes ++ vs } }

/-- Go `pod.Spec.InitContainers = append(pod.Spec.InitContainers, c)`. -/
def addInitContainer (pod : Pod) (c : Container) : Pod :=
  { pod with Spec := { pod.Spec with InitContainers := pod.Spec.InitContainers ++ [c] } }

/-! ## The decorators of `gen.go` -/

def defaultGeneratePodOptions : generatePodOptions :=
  { IsObserver := false }

def isKubeconfigNeeded (step : LiteralTestStep) (opts : generatePodOptions) : Bool :=
  let needsKubeconfig := step.NoKubeconfig == none || step.NoKubeconfig == some false
  needsKubeconfig || opts.IsObserver

def addSecretWrapper (c : Collaborators) (pod : Pod) (vpn : Option vpnConf)
    (skipKubeconfig : Bool) (genPodOpts : generatePodOptions) : Option Pod :=
  let volume := "entrypoint-wrapper"
  let dir := "/tmp/entrypoint-wrapper"
  let bin := c.filepathJoin dir "entrypoint-wrapper"
  let pod := addVolumes pod [{ Name := volume, VolumeSource := VolumeSource.EmptyDir "" none }]
  let mount : VolumeMount := { Name := volume, MountPath := dir }
  let pod := addInitContainer pod
    { Image := c.QCIAPPCIDomain ++ "/" ++ "openshift" ++ "/ci:ci_entrypoint-wrapper_latest"
      Name := "cp-entrypoint-wrapper"
      Command := ["cp"]
      Args := ["/bin/entrypoint-wrapper", bin]
      VolumeMounts := [mount]
      TerminationMessagePolicy := TerminationMessageFallbackToLogsOnError }
  updateContainer0 pod fun container =>
    let args := container.Args
    let newArgs : List String := []
    let newArgs := match vpn with
      | some v => match v.WaitTimeout with
        | some t => newArgs ++ ["--wait-for-file", "/tmp/vpn/up", "--wait-timeout", t]
        | none => newArgs
      | none => newArgs
    let newArgs := if skipKubeconfig then newArgs ++ ["--mode=skip-kubeconfig"] else newArgs
    let newArgs := if genPodOpts.IsObserver then newArgs ++ ["--mode=observer"] else newArgs
    let newArgs := newArgs ++ container.Command
    let newArgs := newArgs ++ args
    { container with
      Args := newArgs
      Command := [bin]
      VolumeMounts := container.VolumeMounts ++ [mount] }

def addVPNClient (vpn : vpnConf) (pod : Pod) : Option Pod :=
  let profileMount := "/tmp/profile"
  let vpnVolMount : VolumeMount := { Name := "vpn", MountPath := "/tmp/vpn" }
  let container : Container :=
    { Name := vpnContainerName
      Image := vpn.Image
      Command := ["bash", "-c", vpn.Commands]
      WorkingDir := profileMount
      VolumeMounts :=
        [ { Name := "tun", MountPath := "/dev/net/tun" },
          vpnVolMount,
          { Name := "logs", MountPath := "/logs" },
          { Name := profileVolumeName, MountPath := profileMount } ] }
  let pod := { pod with Spec := { pod.Spec with Containers := pod.Spec.Containers ++ [container] } }
  let pod := addVolumes pod [{ Name := "vpn", VolumeSource := VolumeSource.EmptyDir "" none }]
  let pod := addVolumes pod
    [{ Name := "tun", VolumeSource := VolumeSource.HostPath "/dev/net/tun" (some HostPathCharDev) }]
  updateContainer0 pod fun k => { k with VolumeMounts := k.VolumeMounts ++ [vpnVolMount] }

def generateParams (s : multiStageTestStep) (env : List StepParameter) : List EnvVar :=
  env.map fun e =>
    let value := ""
    let value := match e.Default with
      | some d => d
      | none => value
    let value := match s.env.lookup e.Name with
      | some v => v
      | none => value
    { Name := e.Name, Value := value }

/-- The `claimRelease` computed at the top of `generatePods` and of
`envForDependencies`. -/
def claimReleaseOf (c : Collaborators) (s : multiStageTestStep) : Option ClaimRelease :=
  match s.clusterClaim with
  | some claim => some (c.ClaimRelease claim s.name)
  | none => none

def envForDependencies (c : Collaborators) (s : multiStageTestStep)
    (step : LiteralTestStep) : List EnvVar × List Error :=
  let claimRelease := claimReleaseOf c s
  step.Dependencies.foldl (fun (acc : List EnvVar × List Error) dependency =>
    if dependency.PullSpec ≠ "" then
      (acc.1 ++ [{ Name := dependency.Env, Value := dependency.PullSpec }], acc.2)
    else
      let parts := c.DependencyParts dependency claimRelease
      match c.ImageDigestFor s.jobSpec.Namespace parts.1 parts.2.1 with
      | Except.error _ =>
        (acc.1, acc.2 ++ [Error.errorf ("could not determine image pull spec for image "
          ++ dependency.Name ++ " on step " ++ step.As)])
      | Except.ok depRef =>
        (acc.1 ++ [{ Name := dependency.Env, Value := depRef }], acc.2)) ([], [])

def getClusterClaimPodParams (c : Collaborators) (secretVolumeMounts : List VolumeMount)
    (testName : String) : Except Error (List EnvVar × List VolumeMount) :=
  let r := [c.HiveAdminKubeconfigSecret, c.HiveAdminPasswordSecret].foldl
    (fun (acc : List EnvVar × List VolumeMount × List Error) secretName =>
      let mountPath := c.getMountPath (c.NamePerTest secretName testName)
      match secretVolumeMounts.find? (fun m => m.MountPath == mountPath) with
      | some secretVolumeMount =>
        let retMount := acc.2.1 ++ [secretVolumeMount]
        let retEnv := acc.1
        let retEnv := if secretName = c.HiveAdminKubeconfigSecret then
            retEnv ++ [{ Name := "KUBECONFIG",
                         Value := c.filepathJoin secretVolumeMount.MountPath c.HiveAdminKubeconfigSecretKey }]
          else retEnv
        let retEnv := if secretName = c.HiveAdminPasswordSecret then
            retEnv ++ [{ Name := "KUBEADMIN_PASSWORD_FILE",
                         Value := c.filepathJoin secretVolumeMount.MountPath c.HiveAdminPasswordSecretKey }]
          else retEnv
        (retEnv, retMount, acc.2.2)
      | none =>
        (acc.1, acc.2.1, acc.2.2 ++ [Error.errorf ("failed to find foundMountPath " ++ mountPath
          ++ " to create secret " ++ c.NamePerTest secretName testName)]))
    ([], [], [])
  if r.2.2.length > 0 then
    Except.error (Error.aggregate r.2.2)
  else
    Except.ok (r.1, r.2.1)

/-- Go `addDshmVolume`; `container` is `&pod.Spec.Containers[0]` at its only
call site. -/
def addDshmVolume (shmSize : Quantity) (pod : Pod) : Option Pod :=
  let pod := addVolumes pod
    [{ Name := "dshm", VolumeSource := VolumeSource.EmptyDir StorageMediumMemory (some shmSize) }]
  updateContainer0 pod fun k =>
    { k with VolumeMounts := k.VolumeMounts ++ [{ Name := "dshm", MountPath := "/dev/shm" }] }

def addProfile (c : Collaborators) (name : String) (profile : String) (pod : Pod) : Option Pod :=
  let pod := addVolumes pod [{ Name := profileVolumeName, VolumeSource := VolumeSource.Secret name }]
  updateContainer0 pod fun k =>
    { k with
      VolumeMounts := k.VolumeMounts ++
        [{ Name := profileVolumeName, MountPath := c.ClusterProfileMountPath }]
      Env := k.Env ++
        [ { Name := "CLUSTER_PROFILE_NAME", Value := c.profileName profile },
          { Name := "CLUSTER_TYPE", Value := c.profileClusterType profile },
          { Name := c.ClusterProfileMountEnv, Value := c.ClusterProfileMountPath } ] }

def addCliInjector (c : Collaborators) (imagestream : String) (pod : Pod) : Option Pod :=
  let volumeName := "cli"
  let pod := addVolumes pod [{ Name := volumeName, VolumeSource := VolumeSource.EmptyDir "" none }]
  let pod := addInitContainer pod
    { Name := "inject-cli"
      Image := imagestream ++ ":cli-artifacts"
      Command := ["/bin/sh"]
      Args := ["-c", "ARCH=$(uname -m | sed 's/x86_64/amd64/;s/aarch64/arm64/'); if [[ -e /usr/share/openshift/linux_$\x7bARCH\x7d/oc.rhel8 ]]; then /bin/cp /usr/share/openshift/linux_$\x7bARCH\x7d/oc.rhel8 "
        ++ c.filepathJoin c.CliMountPath "oc"
        ++ "; else /bin/cp /usr/share/openshift/linux_$\x7bARCH\x7d/oc "
        ++ c.CliMountPath ++ "; fi"]
      VolumeMounts := [{ Name := volumeName, MountPath := c.CliMountPath }] }
  updateContainer0 pod fun k =>
    { k with
      VolumeMounts := k.VolumeMounts ++ [{ Name := volumeName, MountPath := c.CliMountPath }]
      Env := k.Env ++ [{ Name := c.CliEnv, Value := c.CliMountPath }] }

def addSharedDirSecret (c : Collaborators) (secret : String) (pod : Pod) : Option Pod :=
  let pod := addVolumes pod [{ Name := secret, VolumeSource := VolumeSource.Secret secret }]
  updateContainer0 pod fun k =>
    { k with
      VolumeMounts := k.VolumeMounts ++ [{ Name := secret, MountPath := c.SecretMountPath }]
      Env := k.Env ++ [{ Name := c.SecretMountEnv, Value := c.SecretMountPath }] }

/-- Modelled from the spec: `groupCredentialsByCollectionAndMountPath`, whose
file (`csi_utils.go`) is not among the sources, only its test is. It
partitions the credentials by the composite key `collection:mountPath`,
preserving first-seen order of groups and of members within a group. -/
def groupCredentialsByCollectionAndMountPath
    (credentials : List CredentialReference) : CredentialGroups :=
  credentials.foldl (fun mountGroups credential =>
    let key := credential.Collection ++ ":" ++ credential.MountPath
    mapSet mountGroups key ((mountGroups.lookup key).getD [] ++ [credential])) []

/-- The body of the CSI loop of `addCredentials`, for one group. -/
def addCSICredentialGroup (c : Collaborators) (pod : Pod)
    (credentials : List CredentialReference) : Option Pod :=
  match credentials with
  | [] => none
  | first :: _ =>
    let collection := first.Collection
    let mountPath := first.MountPath
    let csiVolumeName := c.getCSIVolumeName pod.Namespace collection mountPath
    let readOnly := true
    let csiVolume : Volume :=
      { Name := csiVolumeName
        VolumeSource := VolumeSource.CSI "secrets-store.csi.k8s.io" (some readOnly)
          [("secretProviderClass", c.getSPCName pod.Namespace collection mountPath credentials)] }
    let pod := addVolumes pod [csiVolume]
    updateContainer0 pod fun k =>
      { k with VolumeMounts := k.VolumeMounts ++ [{ Name := csiVolumeName, MountPath := mountPath }] }

/-- The body of the legacy loop of `addCredentials`, for one credential. -/
def addLegacyCredential (c : Collaborators) (pod : Pod)
    (credential : CredentialReference) : Option Pod :=
  let name := credential.Namespace ++ "-" ++ credential.Name
  let volumeName := c.volumeName credential.Namespace credential.Name
  let pod := addVolumes pod [{ Name := volumeName, VolumeSource := VolumeSource.Secret name }]
  updateContainer0 pod fun k =>
    { k with VolumeMounts := k.VolumeMounts ++
        [{ Name := volumeName, MountPath := credential.MountPath }] }

def addCredentials (c : Collaborators) (credentials : List CredentialReference)
    (pod : Pod) (useCSI : Bool) : Option Pod :=
  if useCSI then
    let collectionMountGroups := groupCredentialsByCollectionAndMountPath credentials
    (c.rangeMap collectionMountGroups).foldlM
      (fun pod entry => addCSICredentialGroup c pod entry.2) pod
  else
    credentials.foldlM (addLegacyCredential c) pod

def commandConfigMapForTest (testName : String) : String :=
  testName ++ "-commands"

def addCommandScript (c : Collaborators) (name : String) (pod : Pod) : Option Pod :=
  let volumeName := "commands-script"
  let mode : Nat := 0o777
  let pod := addVolumes pod
    [{ Name := volumeName, VolumeSource := VolumeSource.ConfigMap name (some mode) }]
  updateContainer0 pod fun k =>
    { k with VolumeMounts := k.VolumeMounts ++
        [{ Name := volumeName, MountPath := c.CommandScriptMountPath }] }

/-! ## `generatePods` -/

/-- The loop of lines 175 to 183: the first container named `test` gets the
home mount. -/
def mountHome (homeVolumeName : String) : List Container → List Container
  | [] => []
  | k :: ks =>
    if k.Name = containerName then
      { k with VolumeMounts := k.VolumeMounts ++
          [{ Name := homeVolumeName, MountPath := "/alabama" }] } :: ks
    else k :: mountHome homeVolumeName ks

/-- The skip test of `generatePods` (line 85). -/
def skipsStep (c : Collaborators) (s : multiStageTestStep) (step : LiteralTestStep) : Bool :=
  step.OptionalOnSuccess == some true
    && s.flags &&& c.allowSkipOnSuccess != 0
    && s.flags &&& c.hasPrevErrs == 0

/-- Lines 145 to 197 of `generatePods`: from the base pod to the injection of
the step parameters. -/
def decoratePod (c : Collaborators) (s : multiStageTestStep) (env : List EnvVar)
    (secretVolumes : List Volume) (genPodOpts : generatePodOptions)
    (step : LiteralTestStep) (terminationGracePeriodSeconds : Int) (pod : Pod) : Option Pod := do
  let pod := { pod with Labels := mapDelete pod.Labels c.ProwJobIdLabel }
  let pod := { pod with Annotations := mapSet pod.Annotations c.AnnotationSaveContainerLogs "true" }
  let pod := { pod with Labels := mapSet pod.Labels c.MultiStageTestLabel s.name }
  let needsKubeConfig := isKubeconfigNeeded step genPodOpts
  let pod :=
    if needsKubeConfig then
      { pod with Spec := { pod.Spec with ServiceAccountName := s.name } }
    else
      { pod with Spec := { pod.Spec with
          ServiceAccountName := "", AutomountServiceAccountToken := some false } }
  let pod := { pod with Spec := { pod.Spec with
      TerminationGracePeriodSeconds := some terminationGracePeriodSeconds } }
  let pod :=
    match step.DNSConfig with
    | some stepDNS =>
      let dns := pod.Spec.DNSConfig.getD {}
      let dns : PodDNSConfig :=
        { Nameservers := dns.Nameservers ++ stepDNS.Nameservers
          Searches := dns.Searches ++ stepDNS.Searches }
      let pod := { pod with Spec := { pod.Spec with DNSConfig := some dns } }
      if dns.Nameservers.length > 0 then
        { pod with Spec := { pod.Spec with DNSPolicy := DNSNone } }
      else pod
    | none => pod
  let pod :=
    match step.NodeArchitecture with
    | some arch =>
      { pod with Spec := { pod.Spec with
          NodeSelector := some (mapSet (pod.Spec.NodeSelector.getD []) LabelArchStable arch) } }
    | none => pod
  let pod := addVolumes pod
    [{ Name := c.homeVolumeName, VolumeSource := VolumeSource.EmptyDir "" none }]
  let pod := addVolumes pod secretVolumes
  let pod := { pod with Spec := { pod.Spec with
      Containers := mountHome c.homeVolumeName pod.Spec.Containers } }
  let pod ← addSecretWrapper c pod s.vpnConf (!needsKubeConfig) genPodOpts
  let pod ← (match s.vpnConf with
    | some vpn => addVPNClient vpn pod
    | none => some pod)
  let pod ← updateContainer0 pod fun container =>
    { container with Env := container.Env ++
        [ { Name := "NAMESPACE", Value := s.jobSpec.Namespace },
          { Name := "JOB_NAME_SAFE", Value := s.name.replace "_" "-" },
          { Name := "JOB_NAME_HASH", Value := s.jobSpec.JobNameHash },
          { Name := "UNIQUE_HASH", Value := s.jobSpec.UniqueHash } ] }
  let pod ← updateContainer0 pod fun container => { container with Env := container.Env ++ env }
  updateContainer0 pod fun container =>
    { container with Env := container.Env ++ generateParams s step.Environment }

/-- Lines 207 to 227 of `generatePods`: the exclusivity check, then the
cluster claim parameters or the kubeconfig variables. -/
def clusterAccess (c : Collaborators) (s : multiStageTestStep)
    (secretVolumeMounts : List VolumeMount) (needsKubeConfig : Bool)
    (pod : Pod) : Option (Pod × List Error) :=
  let errs : List Error :=
    if s.profile ≠ "" ∧ s.clusterClaim.isSome then
      [Error.errorf "cannot set both cluster_profile and cluster_claim in a test"]
    else []
  if s.clusterClaim.isSome then
    match getClusterClaimPodParams c secretVolumeMounts s.name with
    | Except.error err =>
      some (pod, errs ++ [Error.wrapf "failed to get cluster claim pod params: " err])
    | Except.ok (clusterClaimEnv, clusterClaimMount) =>
      (updateContainer0 pod fun container =>
        { container with
          Env := container.Env ++ clusterClaimEnv
          VolumeMounts := container.VolumeMounts ++ clusterClaimMount }).map fun pod => (pod, errs)
  else if needsKubeConfig then
    (updateContainer0 pod fun container =>
      { container with Env := container.Env ++
          [ { Name := "KUBECONFIG", Value := c.filepathJoin c.SecretMountPath "kubeconfig" },
            { Name := "KUBECONFIGMINIMAL",
              Value := c.filepathJoin c.SecretMountPath "kubeconfig-minimal" },
            { Name := "KUBEADMIN_PASSWORD_FILE",
              Value := c.filepathJoin c.SecretMountPath "kubeadmin-password" } ] }).map
      fun pod => (pod, errs)
  else some (pod, errs)

/-- Lines 228 to 261 of `generatePods`: shared memory, profile, CLI, shared
directory, credentials, command script and the VPN security contexts. -/
def attachResources (c : Collaborators) (s : multiStageTestStep)
    (genPodOpts : generatePodOptions) (step : LiteralTestStep)
    (allResources : ResourceRequirements) (claimRelease : Option ClaimRelease)
    (pod : Pod) : Option Pod := do
  let shmSize := allResources.Requests.Name c.ShmResource
  let pod ← (if shmSize ≠ 0 then addDshmVolume shmSize pod else some pod)
  let pod ← (if s.profile ≠ "" then addProfile c (c.profileSecretName s) s.profile pod
    else some pod)
  let pod ←
    (if step.Cli ≠ "" then
      let dependency : StepDependency := { Name := c.ReleaseStreamFor step.Cli ++ ":cli" }
      let imagestream := (c.DependencyParts dependency claimRelease).1
      addCliInjector c imagestream pod
    else some pod)
  let pod ← addSharedDirSecret c s.name pod
  let pod ← addCredentials c step.Credentials pod genPodOpts.enableSecretsStoreCSIDriver
  let pod ←
    (if step.RunAsScript = some true then
      addCommandScript c (commandConfigMapForTest s.name) pod
    else some pod)
  match s.vpnConf with
  | some vpn =>
    let caps : Capabilities := { Add := ["NET_ADMIN"], Drop := ["ALL"] }
    let seLinuxOpts : SELinuxOptions :=
      { User := "system_u", Role := "system_r", Type_ := "container_runtime_t", Level := "s0" }
    some (setSecurityContexts pod vpnContainerName vpn.namespaceUID (some caps) (some seLinuxOpts))
  | none => some pod

/-- The variables of `generatePods` that live across iterations; `jobSpec`
is `s.jobSpec`, whose decoration config every iteration overwrites. -/
structure LoopState where
  ret : List Pod
  errs : List Error
  bestEffortSteps : Option (Finset String)
  jobSpec : JobSpec

/-- Go `int64(gracePeriod.Seconds() * 5 / 4)` (line 130); the floating point
product is taken to be exact, the conversion truncates toward zero. -/
def terminationGracePeriodSeconds (gracePeriod : Duration) : Int :=
  Int.tdiv (gracePeriod * 5) (Second * 4)

/-- Lines 131 to 140 of `generatePods`: the commands and labels of the step
and the call of the base pod generator. -/
def basePodFor (c : Collaborators) (s : multiStageTestStep)
    (secretVolumeMounts : List VolumeMount) (genPodOpts : generatePodOptions)
    (step : LiteralTestStep) (name image artifactDir : String)
    (resources : ResourceRequirements) : Except Error Pod :=
  let commands :=
    if step.RunAsScript = some true then [c.CommandScriptMountPath ++ "/" ++ step.As]
    else ["/bin/bash", "-c", c.CommandPrefix ++ step.Commands]
  let labels : StringMap := [(c.LabelMetadataStep, step.As)]
  c.GenerateBasePod s.jobSpec labels name s.nodeName containerName commands image
    resources artifactDir s.jobSpec.DecorationConfig s.jobSpec.RawSpec secretVolumeMounts
    genPodOpts.IsObserver

/-- Lines 203 to 261 of `generatePods`: the rest of the iteration once the
dependencies are resolved to `depEnv`; `none` is a panic, otherwise the pod
appended to `ret` and the errors appended to `errs`. -/
def finishPod (c : Collaborators) (s : multiStageTestStep)
    (secretVolumeMounts : List VolumeMount) (genPodOpts : generatePodOptions)
    (claimRelease : Option ClaimRelease) (step : LiteralTestStep)
    (allResources : ResourceRequirements) (depEnv : List EnvVar) (pod : Pod) :
    Option (Pod × List Error) :=
  match updateContainer0 pod fun container =>
      { container with Env := container.Env ++ depEnv } with
  | none => none
  | some pod =>
    let pod := match s.jobSpec.Owner with
      | some owner => { pod with OwnerReferences := pod.OwnerReferences ++ [owner] }
      | none => pod
    match clusterAccess c s secretVolumeMounts (isKubeconfigNeeded step genPodOpts) pod with
    | none => none
    | some (pod, stepErrs) =>
      match attachResources c s genPodOpts step allResources claimRelease pod with
      | none => none
      | some pod => some (pod, stepErrs)

/-- Lines 131 to 261 of `generatePods`, with `s.jobSpec` already carrying the
timeout and grace period of the step: `none` is a panic; otherwise the pod
appended to `ret`, if the iteration reaches line 262 (it is `none` when a
`continue` ends the iteration), and the errors appended to `errs`. -/
def buildStepPod (c : Collaborators) (s : multiStageTestStep) (env : List EnvVar)
    (secretVolumes : List Volume) (secretVolumeMounts : List VolumeMount)
    (genPodOpts : generatePodOptions) (claimRelease : Option ClaimRelease)
    (step : LiteralTestStep) (name image artifactDir : String) (gracePeriod : Duration)
    (resources allResources : ResourceRequirements) : Option (Option Pod × List Error) :=
  match basePodFor c s secretVolumeMounts genPodOpts step name image artifactDir resources with
  | Except.error err => some (none, [err])
  | Except.ok pod =>
    match decoratePod c s env secretVolumes genPodOpts step
        (terminationGracePeriodSeconds gracePeriod) pod with
    | none => none
    | some pod =>
      let dep := envForDependencies c s step
      if dep.2.length ≠ 0 then some (none, dep.2)
      else
        (finishPod c s secretVolumeMounts genPodOpts claimRelease step allResources dep.1 pod).map
          fun built => (some built.1, built.2)

/-- Lines 89 to 96 of `generatePods`: the image of the step. -/
def stepImage (c : Collaborators) (claimRelease : Option ClaimRelease)
    (step : LiteralTestStep) : String :=
  match c.FromImageTag step with
  | some link => c.PipelineImageStream ++ ":" ++ link
  | none =>
    let dep : StepDependency := { Name := step.From }
    let parts := c.DependencyParts dep claimRelease
    parts.1 ++ ":" ++ parts.2.1

/-- Lines 102 to 109 of `generatePods`: the resources of the container, with
the shared memory removed from requests and limits when it is requested. -/
def stripShm (c : Collaborators) (resources : ResourceRequirements) : ResourceRequirements :=
  if resources.Requests.Name c.ShmResource ≠ 0 then
    { Requests := mapDelete resources.Requests c.ShmResource
      Limits := mapDelete resources.Limits c.ShmResource }
  else resources

/-- Lines 121 and 126 of `generatePods`: the writes to
`s.jobSpec.DecorationConfig`. -/
def JobSpec.setDecoration (jobSpec : JobSpec) (timeout gracePeriod : Duration) : JobSpec :=
  { jobSpec with
    DecorationConfig := { jobSpec.DecorationConfig with
      Timeout := some timeout, GracePeriod := some gracePeriod } }

/-- One iteration of the loop of `generatePods` (lines 83 to 263). -/
def generatePodsStep (c : Collaborators) (s : multiStageTestStep) (env : List EnvVar)
    (secretVolumes : List Volume) (secretVolumeMounts : List VolumeMount)
    (genPodOpts : generatePodOptions) (claimRelease : Option ClaimRelease)
    (st : LoopState) (step : LiteralTestStep) : Option LoopState :=
  let name := s.name ++ "-" ++ step.As
  if skipsStep c s step then some st
  else
    let image := stepImage c claimRelease step
    match c.ResourcesFor step.Resources with
    | Except.error err => some { st with errs := st.errs ++ [err] }
    | Except.ok resources =>
      let allResources := resources
      let resources := stripShm c resources
      let bestEffortSteps := match st.bestEffortSteps with
        | some set => if step.BestEffort = some true then some (insert name set) else some set
        | none => none
      let artifactDir := s.name ++ "/" ++ step.As
      let timeout := match step.Timeout with
        | some t => t
        | none => c.DefaultTimeout
      let gracePeriod := match step.GracePeriod with
        | some g => g
        | none => c.DefaultGracePeriod
      let jobSpec := st.jobSpec.setDecoration timeout gracePeriod
      (buildStepPod c { s with jobSpec := jobSpec } env secretVolumes secretVolumeMounts
          genPodOpts claimRelease step name image artifactDir gracePeriod resources
          allResources).map fun built =>
        { ret := st.ret ++ built.1.toList, errs := st.errs ++ built.2,
          bestEffortSteps := bestEffortSteps, jobSpec := jobSpec }

/-- What `generatePods` returns: the pods, the best effort steps and the
aggregated error. -/
structure PodsResult where
  pods : List Pod
  bestEffortSteps : Option (Finset String)
  err : Option Error

def generatePods (c : Collaborators) (s : multiStageTestStep) (steps : List LiteralTestStep)
    (env : List EnvVar) (secretVolumes : List Volume) (secretVolumeMounts : List VolumeMount)
    (genPodOpts : Option generatePodOptions) : Option PodsResult :=
  let genPodOpts := match genPodOpts with
    | some o => o
    | none => defaultGeneratePodOptions
  let bestEffortSteps : Option (Finset String) :=
    if s.flags &&& c.allowBestEffortPostSteps ≠ 0 then some ∅ else none
  let claimRelease := claimReleaseOf c s
  let init : LoopState :=
    { ret := [], errs := [], bestEffortSteps := bestEffortSteps, jobSpec := s.jobSpec }
  (steps.foldlM
      (generatePodsStep c s env secretVolumes secretVolumeMounts genPodOpts claimRelease) init).map
    fun st => { pods := st.ret, bestEffortSteps := st.bestEffortSteps, err := NewAggregate st.errs }

def generateObservers (c : Collaborators) (s : multiStageTestStep) (observers : List Observer)
    (secretVolumes : List Volume) (secretVolumeMounts : List VolumeMount)
    (genPodOpts : Option generatePodOptions) : Option (List Pod × Option Error) :=
  let adapted : List LiteralTestStep := observers.map fun observer =>
    { As := observer.Name
      From := observer.From
      FromImage := observer.FromImage
      Commands := observer.Commands
      Resources := observer.Resources
      Timeout := observer.Timeout
      GracePeriod := observer.GracePeriod
      Environment := observer.Environment }
  (generatePods c s adapted [] secretVolumes secretVolumeMounts genPodOpts).map
    fun r => (r.pods, r.err)

/-! ## Vocabulary of the properties -/

/-- All containers of a pod: the init containers, then the containers. -/
def Pod.allContainers (pod : Pod) : List Container :=
  pod.Spec.InitContainers ++ pod.Spec.Containers

/-- A container runs as UID 0 with the capabilities `capabilities`. -/
def runsAsRootWith (capabilities : Option Capabilities) (k : Container) : Bool :=
  match k.SecurityContext with
  | some sc => sc.RunAsUser == some 0 && sc.Capabilities == capabilities
  | none => false

/-- The security context given to the container named `root`. -/
def rootContext (capabilities : Option Capabilities)
    (seLinuxOpts : Option SELinuxOptions) : SecurityContext :=
  { RunAsUser := some 0, Capabilities := capabilities, SELinuxOptions := seLinuxOpts }

/-- The security context given to every other container. -/
def nonRootContext (uid : Int) : SecurityContext :=
  { RunAsNonRoot := some true, RunAsUser := some uid }

/-- The digest lookup `envForDependencies` makes for a dependency without a
pull spec. -/
def digestLookup (c : Collaborators) (s : multiStageTestStep)
    (d : StepDependency) : Except Error String :=
  c.ImageDigestFor s.jobSpec.Namespace
    (c.DependencyParts d (claimReleaseOf c s)).1 (c.DependencyParts d (claimReleaseOf c s)).2.1

/-- The environment binding a dependency is expected to yield: its explicit
pull spec, else the looked-up reference, else nothing. -/
def dependencyBinding (c : Collaborators) (s : multiStageTestStep)
    (d : StepDependency) : Option EnvVar :=
  if d.PullSpec ≠ "" then some { Name := d.Env, Value := d.PullSpec }
  else match digestLookup c s d with
    | Except.ok ref => some { Name := d.Env, Value := ref }
    | Except.error _ => none

/-- The error a dependency is expected to yield: one naming the dependency
and the step when it has no pull spec and its lookup fails. -/
def dependencyError (c : Collaborators) (s : multiStageTestStep) (stepAs : String)
    (d : StepDependency) : Option Error :=
  if d.PullSpec ≠ "" then none
  else match digestLookup c s d with
    | Except.ok _ => none
    | Except.error _ => some (Error.errorf
        ("could not determine image pull spec for image " ++ d.Name ++ " on step " ++ stepAs))

/-- The collection of a credential group: that of its first member. -/
def groupCollection (group : List CredentialReference) : String :=
  match group with
  | first :: _ => first.Collection
  | [] => ""

/-- The mount path of a credential group: that of its first member. -/
def groupMountPath (group : List CredentialReference) : String :=
  match group with
  | first :: _ => first.MountPath
  | [] => ""

/-- The CSI volume expected for a credential group in the namespace `ns`. -/
def csiVolumeFor (c : Collaborators) (ns : String) (group : List CredentialReference) : Volume :=
  { Name := c.getCSIVolumeName ns (groupCollection group) (groupMountPath group)
    VolumeSource := VolumeSource.CSI "secrets-store.csi.k8s.io" (some true)
      [("secretProviderClass",
        c.getSPCName ns (groupCollection group) (groupMountPath group) group)] }

/-- The volume mount expected for a credential group in the namespace `ns`. -/
def csiMountFor (c : Collaborators) (ns : String) (group : List CredentialReference) :
    VolumeMount :=
  { Name := c.getCSIVolumeName ns (groupCollection group) (groupMountPath group)
    MountPath := groupMountPath group }

/-- The pod `pod` with `volumes` appended to its volumes and `mounts` to the
mounts of its first container `k`. -/
def Pod.withMounted (pod : Pod) (k : Container) (ks : List Container)
    (volumes : List Volume) (mounts : List VolumeMount) : Pod :=
  { pod with Spec := { pod.Spec with
      Volumes := pod.Spec.Volumes ++ volumes
      Containers := { k with VolumeMounts := k.VolumeMounts ++ mounts } :: ks } }

/-- Two job specs that differ at most in the timeout and grace period of
their decoration config. -/
def JobSpec.sameBase (a b : JobSpec) : Prop :=
  a.Namespace = b.Namespace ∧ a.JobNameHash = b.JobNameHash ∧ a.UniqueHash = b.UniqueHash ∧
  a.Owner = b.Owner ∧ a.RawSpec = b.RawSpec ∧ a.DecorationConfig.Rest = b.DecorationConfig.Rest

/-- What one iteration of the loop of `generatePods` adds to `ret`, to `errs`
and to the best effort steps, read off a run of the iteration on empty loop
variables; `none` is a panic. -/
def stepContribution (c : Collaborators) (s : multiStageTestStep) (env : List EnvVar)
    (secretVolumes : List Volume) (secretVolumeMounts : List VolumeMount)
    (genPodOpts : generatePodOptions) (step : LiteralTestStep) :
    Option (List Pod × List Error × Finset String) :=
  (generatePodsStep c s env secretVolumes secretVolumeMounts genPodOpts (claimReleaseOf c s)
      { ret := [], errs := [], bestEffortSteps := some ∅, jobSpec := s.jobSpec } step).map
    fun st => (st.ret, st.errs, st.bestEffortSteps.getD ∅)

/-- The error recorded when a test has both a cluster profile and a cluster
claim. -/
def exclusivityError : Error :=
  Error.errorf "cannot set both cluster_profile and cluster_claim in a test"

/-- The timeout of a step (lines 117 to 120 of `generatePods`). -/
def stepTimeout (c : Collaborators) (step : LiteralTestStep) : Duration :=
  match step.Timeout with
  | some t => t
  | none => c.DefaultTimeout

/-- The grace period of a step (lines 122 to 125 of `generatePods`). -/
def stepGracePeriod (c : Collaborators) (step : LiteralTestStep) : Duration :=
  match step.GracePeriod with
  | some g => g
  | none => c.DefaultGracePeriod

/-- The test step as an iteration on `step` sees it after line 126. -/
def stepContext (c : Collaborators) (s : multiStageTestStep) (step : LiteralTestStep) :
    multiStageTestStep :=
  { s with jobSpec := s.jobSpec.setDecoration (stepTimeout c step) (stepGracePeriod c step) }

/-- The call of `buildStepPod` an iteration makes for a step whose resources
parsed to `allResources`. -/
def stepBuild (c : Collaborators) (s : multiStageTestStep) (env : List EnvVar)
    (secretVolumes : List Volume) (secretVolumeMounts : List VolumeMount)
    (genPodOpts : generatePodOptions) (step : LiteralTestStep)
    (allResources : ResourceRequirements) : Option (Option Pod × List Error) :=
  buildStepPod c (stepContext c s step) env secretVolumes secretVolumeMounts genPodOpts
    (claimReleaseOf c s) step (s.name ++ "-" ++ step.As) (stepImage c (claimReleaseOf c s) step)
    (s.name ++ "/" ++ step.As) (stepGracePeriod c step) (stripShm c allResources) allResources

/-- The call of the base pod generator an iteration makes for a step whose
resources parsed to `allResources`. -/
def stepBasePod (c : Collaborators) (s : multiStageTestStep)
    (secretVolumeMounts : List VolumeMount) (genPodOpts : generatePodOptions)
    (step : LiteralTestStep) (allResources : ResourceRequirements) : Except Error Pod :=
  basePodFor c (stepContext c s step) secretVolumeMounts genPodOpts step
    (s.name ++ "-" ++ step.As) (stepImage c (claimReleaseOf c s) step)
    (s.name ++ "/" ++ step.As) (stripShm c allResources)

/-- The step is not skipped and passes the stages whose failure ends the
iteration: its resources parse, the base pod is generated and its
dependencies resolve. -/
structure ReachesClusterAccess (c : Collaborators) (s : multiStageTestStep)
    (secretVolumeMounts : List VolumeMount) (genPodOpts : generatePodOptions)
    (step : LiteralTestStep) : Prop where
  notSkipped : skipsStep c s step = false
  basePod : ∃ res pod, c.ResourcesFor step.Resources = Except.ok res ∧
    stepBasePod c s secretVolumeMounts genPodOpts step res = Except.ok pod
  dependencies : (envForDependencies c s step).2 = []

/-- The errors lines 207 to 220 of `generatePods` record for every step that
reaches them. -/
def clusterErrors (c : Collaborators) (s : multiStageTestStep)
    (secretVolumeMounts : List VolumeMount) : List Error :=
  (if s.profile ≠ "" ∧ s.clusterClaim.isSome then [exclusivityError] else []) ++
  (if s.clusterClaim.isSome then
    match getClusterClaimPodParams c secretVolumeMounts s.name with
    | Except.error err => [Error.wrapf "failed to get cluster claim pod params: " err]
    | Except.ok _ => []
   else [])

/-- The contributions of the steps of a list, one after the other. -/
def contributions (c : Collaborators) (s : multiStageTestStep) (env : List EnvVar)
    (secretVolumes : List Volume) (secretVolumeMounts : List VolumeMount)
    (genPodOpts : generatePodOptions) :
    List LiteralTestStep → Option (List Pod × List Error × Finset String)
  | [] => some ([], [], ∅)
  | step :: rest =>
    match stepContribution c s env secretVolumes secretVolumeMounts genPodOpts step,
        contributions c s env secretVolumes secretVolumeMounts genPodOpts rest with
    | some d, some ds => some (d.1 ++ ds.1, d.2.1 ++ ds.2.1, d.2.2 ∪ ds.2.2)
    | _, _ => none

/-- The loop variables after contributions `d`, the job spec apart. -/
def LoopState.plus (st : LoopState) (d : List Pod × List Error × Finset String) :
    List Pod × List Error × Option (Finset String) :=
  (st.ret ++ d.1, st.errs ++ d.2.1, st.bestEffortSteps.map fun set => set ∪ d.2.2)

/-- The loop variables, the job spec apart. -/
def LoopState.out (st : LoopState) : List Pod × List Error × Option (Finset String) :=
  (st.ret, st.errs, st.bestEffortSteps)

/-- The best effort sets of two runs under the same flags, joined. -/
def unionBestEffort : Option (Finset String) → Option (Finset String) → Option (Finset String)
  | some a, some b => some (a ∪ b)
  | _, _ => none

/-- The result of `generatePods` on a list, put together from the results
on its two halves; a panic in either half is a panic. -/
def PodsResult.append (ra rb : Option PodsResult) : Option PodsResult :=
  match ra, rb with
  | some a, some b =>
    some { pods := a.pods ++ b.pods
           bestEffortSteps := unionBestEffort a.bestEffortSteps b.bestEffortSteps
           err := NewAggregate (aggregateErrors a.err ++ aggregateErrors b.err) }
  | _, _ => none

/-- Assumptions on the collaborators under which `generatePods` cannot
panic: a generated base pod has at least one container, and `range` visits
every entry of a map exactly once. -/
structure Collaborators.WellBehaved (c : Collaborators) : Prop where
  basePodHasContainer : ∀ js labels name nodeName cn cmds image res dir dc raw mounts obs pod,
    c.GenerateBasePod js labels name nodeName cn cmds image res dir dc raw mounts obs
      = Except.ok pod → pod.Spec.Containers ≠ []
  rangeMapPerm : ∀ m, (c.rangeMap m).Perm m

/-- Sample collaborators, for instantiating the theorems. -/
def sampleCollaborators : Collaborators :=
  { allowSkipOnSuccess := 1, allowBestEffortPostSteps := 2, hasPrevErrs := 4,
    PipelineImageStream := "pipeline", ShmResource := "ci-operator.openshift.io/shm",
    QCIAPPCIDomain := "quay-proxy.ci.openshift.org", CliEnv := "CLI_DIR",
    HiveAdminKubeconfigSecret := "hive-admin-kubeconfig",
    HiveAdminPasswordSecret := "hive-admin-password",
    HiveAdminKubeconfigSecretKey := "kubeconfig", HiveAdminPasswordSecretKey := "password",
    LabelMetadataStep := "ci.openshift.io/metadata.step",
    ProwJobIdLabel := "prow.k8s.io/id",
    AnnotationSaveContainerLogs := "ci-operator.openshift.io/save-container-logs",
    MultiStageTestLabel := "ci.openshift.io/multi-stage-test",
    homeVolumeName := "home", SecretMountPath := "/var/run/secrets/ci.openshift.io/multi-stage",
    SecretMountEnv := "SHARED_DIR",
    ClusterProfileMountPath := "/var/run/secrets/ci.openshift.io/cluster-profile",
    ClusterProfileMountEnv := "CLUSTER_PROFILE_DIR", CliMountPath := "/cli",
    CommandScriptMountPath := "/var/run/configmaps/ci.openshift.io/multi-stage",
    CommandPrefix := "#!/bin/bash\n", DefaultTimeout := 7200000000000,
    DefaultGracePeriod := 15000000000,
    FromImageTag := fun _ => none,
    DependencyParts := fun d _ => ("stable", d.Name, false),
    ClaimRelease := fun _ _ => {},
    ResourcesFor := fun _ => Except.ok {},
    GenerateBasePod := fun _ _ name _ cn cmds image res _ _ _ mounts _ =>
      Except.ok { Name := name, Spec := { Containers :=
        [{ Name := cn, Image := image, Command := cmds, Resources := res,
           VolumeMounts := mounts }] } },
    ImageDigestFor := fun _ _ _ => Except.error (Error.errorf "not found"),
    ReleaseStreamFor := fun r => r, profileName := fun p => p,
    profileClusterType := fun p => p, profileSecretName := fun s => s.name,
    getMountPath := fun n => "/secrets/" ++ n, NamePerTest := fun n t => t ++ "-" ++ n,
    volumeName := fun n m => n ++ "-" ++ m,
    getCSIVolumeName := fun n k m => n ++ "-" ++ k ++ m,
    getSPCName := fun n k m _ => n ++ "-" ++ k ++ m ++ "-spc",
    filepathJoin := fun a b => a ++ "/" ++ b,
    rangeMap := fun m => m }

/-- The result `generatePods` makes of the contributions of its steps. -/
def PodsResult.ofContribution (c : Collaborators) (s : multiStageTestStep)
    (d : List Pod × List Error × Finset String) : PodsResult :=
  { pods := d.1
    bestEffortSteps := if s.flags &&& c.allowBestEffortPostSteps ≠ 0 then some d.2.2 else none
    err := NewAggregate d.2.1 }

/-- A sample test with both a cluster profile and a cluster claim. -/
def sampleBothSet : multiStageTestStep :=
  { name := "e2e", profile := "aws", clusterClaim := some {} }

/-- A sample test with a cluster claim and no cluster profile. -/
def sampleClaimOnly : multiStageTestStep :=
  { name := "e2e", clusterClaim := some {} }

/-- The mounts of the two Hive secrets of the sample tests, as
`sampleCollaborators` names them. -/
def sampleHiveMounts : List VolumeMount :=
  [ { Name := "hive-kubeconfig", MountPath := "/secrets/e2e-hive-admin-kubeconfig" },
    { Name := "hive-password", MountPath := "/secrets/e2e-hive-admin-password" } ]

/-- The mount path at which `getClusterClaimPodParams` expects a Hive secret
of a test. -/
def hiveMountPath (c : Collaborators) (secretName testName : String) : String :=
  c.getMountPath (c.NamePerTest secretName testName)

/-! ### Vocabulary: legacy credentials and step parameters -/

/-- The secret volume expected for one credential in legacy mode. -/
def legacyVolumeFor (c : Collaborators) (credential : CredentialReference) : Volume :=
  { Name := c.volumeName credential.Namespace credential.Name
    VolumeSource := VolumeSource.Secret (credential.Namespace ++ "-" ++ credential.Name) }

/-- The volume mount expected for one credential in legacy mode. -/
def legacyMountFor (c : Collaborators) (credential : CredentialReference) : VolumeMount :=
  { Name := c.volumeName credential.Namespace credential.Name
    MountPath := credential.MountPath }

/-- The value a step parameter is expected to get: the entry of the override
map when there is one, else the default when there is one, else the empty
string. -/
def parameterValue (overrides : StringMap) (parameter : StepParameter) : String :=
  match overrides.lookup parameter.Name with
  | some v => v
  | none =>
    match parameter.Default with
    | some d => d
    | none => ""

/-! ### Vocabulary: what the later decorators keep -/

/-- The pod `p` has everything of `pod` that the steps after the decoration
of the base pod must keep: the termination grace period, the service account
fields, every volume, and every mount of the primary container. -/
structure Pod.Keeps (pod p : Pod) : Prop where
  grace : p.Spec.TerminationGracePeriodSeconds = pod.Spec.TerminationGracePeriodSeconds
  account : p.Spec.ServiceAccountName = pod.Spec.ServiceAccountName
  automount : p.Spec.AutomountServiceAccountToken = pod.Spec.AutomountServiceAccountToken
  volumes : ∀ v ∈ pod.Spec.Volumes, v ∈ p.Spec.Volumes
  mounts : ∀ k ks, pod.Spec.Containers = k :: ks →
    ∃ k1 ks1, p.Spec.Containers = k1 :: ks1 ∧ ∀ m ∈ k.VolumeMounts, m ∈ k1.VolumeMounts

/-- The volume `addDshmVolume` adds for a shared memory request. -/
def dshmVolume (shmSize : Quantity) : Volume :=
  { Name := "dshm", VolumeSource := VolumeSource.EmptyDir StorageMediumMemory (some shmSize) }

/-- The mount `addDshmVolume` adds to the primary container. -/
def dshmMount : VolumeMount :=
  { Name := "dshm", MountPath := "/dev/shm" }

/-! ### Vocabulary: grouping -/

/-- The composite key `collection:mountPath` of a credential. -/
def credentialKey (credential : CredentialReference) : String :=
  credential.Collection ++ ":" ++ credential.MountPath

/-- The distinct elements of a list in the order of their first occurrence. -/
def firstSeen (keys : List String) : List String :=
  keys.foldl (fun seen k => if k ∈ seen then seen else seen ++ [k]) []

/-- The groups expected for a credential list: one per distinct key, in
first-seen order of the keys, each holding the credentials with that key in
input order. -/
def expectedGroups (credentials : List CredentialReference) : CredentialGroups :=
  (firstSeen (credentials.map credentialKey)).map fun k =>
    (k, credentials.filter fun credential => credentialKey credential = k)

/-- Sample collaborators under which `range` visits a map in the reverse of
its first-seen order. -/
def sampleReversedRange : Collaborators :=
  { sampleCollaborators with rangeMap := List.reverse }

/-! ### The naming engine -/

/-- The UTF-8 encoding of a character: the bytes a Go string holds for it. -/
def utf8Bytes (ch : Char) : List Nat :=
  let n := ch.toNat
  if n < 0x80 then [n]
  else if n < 0x800 then [0xC0 + n / 64, 0x80 + n % 64]
  else if n < 0x10000 then [0xE0 + n / 4096, 0x80 + n / 64 % 64, 0x80 + n % 64]
  else [0xF0 + n / 262144, 0x80 + n / 4096 % 64, 0x80 + n / 64 % 64, 0x80 + n % 64]

/-- Go `[]byte(s)`. -/
def stringBytes (s : String) : List Nat := s.toList.flatMap utf8Bytes

/-- The round constants of SHA-256 (FIPS 180-4, 4.2.2). -/
def sha256Constants : List Nat :=
  [0x428a2f98, 0x71374491, 0xb5c0fbcf, 0xe9b5dba5, 0x3956c25b, 0x59f111f1, 0x923f82a4, 0xab1c5ed5,
   0xd807aa98, 0x12835b01, 0x243185be, 0x550c7dc3, 0x72be5d74, 0x80deb1fe, 0x9bdc06a7, 0xc19bf174,
   0xe49b69c1, 0xefbe4786, 0x0fc19dc6, 0x240ca1cc, 0x2de92c6f, 0x4a7484aa, 0x5cb0a9dc, 0x76f988da,
   0x983e5152, 0xa831c66d, 0xb00327c8, 0xbf597fc7, 0xc6e00bf3, 0xd5a79147, 0x06ca6351, 0x14292967,
   0x27b70a85, 0x2e1b2138, 0x4d2c6dfc, 0x53380d13, 0x650a7354, 0x766a0abb, 0x81c2c92e, 0x92722c85,
   0xa2bfe8a1, 0xa81a664b, 0xc24b8b70, 0xc76c51a3, 0xd192e819, 0xd6990624, 0xf40e3585, 0x106aa070,
   0x19a4c116, 0x1e376c08, 0x2748774c, 0x34b0bcb5, 0x391c0cb3, 0x4ed8aa4a, 0x5b9cca4f, 0x682e6ff3,
   0x748f82ee, 0x78a5636f, 0x84c87814, 0x8cc70208, 0x90befffa, 0xa4506ceb, 0xbef9a3f7, 0xc67178f2]

/-- Truncation to a 32-bit word. -/
def word32 (x : Nat) : Nat := x % 4294967296

/-- Rotation of a 32-bit word to the right. -/
def rotateRight32 (x n : Nat) : Nat := word32 ((x >>> n) ||| (x <<< (32 - n)))

/-- SHA-256 padding: a `0x80` byte, zeros up to 56 modulo 64, and the length
of the message in bits as eight big-endian bytes. -/
def sha256Pad (bytes : List Nat) : List Nat :=
  let len := bytes.length
  bytes ++ [0x80] ++ List.replicate ((119 - len % 64) % 64) 0
    ++ (List.range 8).map (fun i => (len * 8) >>> (8 * (7 - i)) % 256)

/-- Big-endian 32-bit words of a byte sequence. -/
def bigEndianWords : List Nat → List Nat
  | a :: b :: c :: d :: rest => (((a * 256 + b) * 256 + c) * 256 + d) :: bigEndianWords rest
  | _ => []

/-- The message schedule of SHA-256, most recent word first: `n` more words
are computed from the sixteen before them. -/
def sha256Schedule : Nat → List Nat → List Nat
  | 0, w => w
  | n + 1, w =>
    let w2 := w.getD 1 0
    let w7 := w.getD 6 0
    let w15 := w.getD 14 0
    let w16 := w.getD 15 0
    let s0 := (rotateRight32 w15 7) ^^^ (rotateRight32 w15 18) ^^^ (w15 >>> 3)
    let s1 := (rotateRight32 w2 17) ^^^ (rotateRight32 w2 19) ^^^ (w2 >>> 10)
    sha256Schedule n (word32 (w16 + s0 + w7 + s1) :: w)

/-- The eight working variables of SHA-256. -/
structure Sha256State where
  a : Nat
  b : Nat
  c : Nat
  d : Nat
  e : Nat
  f : Nat
  g : Nat
  h : Nat
deriving DecidableEq, Repr

/-- One round of the SHA-256 compression function, for a round constant and a
word of the message schedule. -/
def sha256Round (st : Sha256State) (kw : Nat × Nat) : Sha256State :=
  let s1 := (rotateRight32 st.e 6) ^^^ (rotateRight32 st.e 11) ^^^ (rotateRight32 st.e 25)
  let ch := (st.e &&& st.f) ^^^ ((4294967295 - st.e) &&& st.g)
  let t1 := word32 (st.h + s1 + ch + kw.1 + kw.2)
  let s0 := (rotateRight32 st.a 2) ^^^ (rotateRight32 st.a 13) ^^^ (rotateRight32 st.a 22)
  let maj := (st.a &&& st.b) ^^^ (st.a &&& st.c) ^^^ (st.b &&& st.c)
  let t2 := word32 (s0 + maj)
  { a := word32 (t1 + t2), b := st.a, c := st.b, d := st.c, e := word32 (st.d + t1),
    f := st.e, g := st.f, h := st.g }

/-- The SHA-256 compression function on one block of sixteen words. -/
def sha256Compress (h : Sha256State) (block : List Nat) : Sha256State :=
  let w := (sha256Schedule 48 block.reverse).reverse
  let r := (sha256Constants.zip w).foldl sha256Round h
  { a := word32 (h.a + r.a), b := word32 (h.b + r.b), c := word32 (h.c + r.c),
    d := word32 (h.d + r.d), e := word32 (h.e + r.e), f := word32 (h.f + r.f),
    g := word32 (h.g + r.g), h := word32 (h.h + r.h) }

/-- The compression function over `n` consecutive blocks. -/
def sha256Blocks : Nat → List Nat → Sha256State → Sha256State
  | 0, _, h => h
  | n + 1, ws, h => sha256Blocks n (ws.drop 16) (sha256Compress h (ws.take 16))

/-- Go `sha256.Sum256([]byte(s))`, read as one 256-bit big-endian number. -/
def sha256 (s : String) : Nat :=
  let ws := bigEndianWords (sha256Pad (stringBytes s))
  let r := sha256Blocks (ws.length / 16) ws
    { a := 0x6a09e667, b := 0xbb67ae85, c := 0x3c6ef372, d := 0xa54ff53a,
      e := 0x510e527f, f := 0x9b05688c, g := 0x1f83d9ab, h := 0x5be0cd19 }
  ((((((r.a * 4294967296 + r.b) * 4294967296 + r.c) * 4294967296 + r.d) * 4294967296 + r.e)
    * 4294967296 + r.f) * 4294967296 + r.g) * 4294967296 + r.h

/-- The `width` lowest hexadecimal digits of a number, most significant first,
in lower case: Go `hex.EncodeToString`. -/
def hexString : Nat → Nat → List Char
  | 0, _ => []
  | width + 1, n => hexString width (n / 16) ++ [Nat.digitChar (n % 16)]

/-- Modelled from the spec: the hex-encoded truncated digest of the Naming
Engine, the first `width` hexadecimal digits of a 256-bit digest. -/
def hexDigits (width digest : Nat) : String :=
  ⟨hexString width (digest / 16 ^ (64 - width) % 16 ^ width)⟩

/-- Go `strings.ToLower`, on ASCII letters. -/
def toLower (s : String) : String := ⟨s.toList.map Char.toLower⟩

/-- The length limit of a generated name. -/
def nameLimit : Nat := 63

/-- Modelled from the spec: the algorithm of the Naming Engine (spec 4.1),
whose file (`csi_utils.go`) is not among the sources. The canonical string
`key` is hashed, sixteen hexadecimal digits of the digest are appended to the
lowercased namespace and a hyphen, and the fixed suffix follows; when that
name is longer than the limit, the namespace is dropped and the name is
thirty-two digits of the digest alone. The spec leaves the digest open, so it
is an argument; the widths are those of `TestCSIVolumeName`. -/
def generatedName (digest : String → Nat) (suffix ns key : String) : String :=
  let name := toLower ns ++ "-" ++ hexDigits 16 (digest key) ++ suffix
  if name.length ≤ nameLimit then name else hexDigits 32 (digest key)

/-- Modelled from the spec: the canonical string of a CSI volume name, the
collection and the mount path. -/
def csiVolumeKey (collection mountPath : String) : String :=
  collection ++ "-" ++ mountPath

/-- Modelled from the spec: the canonical string of a secret-provider-class
name, the collection, the mount path and the names of the credentials in the
order of the list. -/
def spcKey (collection mountPath : String) (credentials : List CredentialReference) : String :=
  String.intercalate "-" (collection :: mountPath :: credentials.map fun credential => credential.Name)

/-- Modelled from the spec: `getCSIVolumeName` of `csi_utils.go`, for a given
digest. With `sha256` it returns the names `TestCSIVolumeName` expects. -/
def getCSIVolumeName (digest : String → Nat) (ns collection mountPath : String) : String :=
  generatedName digest "" ns (csiVolumeKey collection mountPath)

/-- Modelled from the spec: `getSPCName` of `csi_utils.go`, for a given
digest. -/
def getSPCName (digest : String → Nat) (ns collection mountPath : String)
    (credentials : List CredentialReference) : String :=
  generatedName digest "-spc" ns (spcKey collection mountPath credentials)

/-- The hexadecimal digits, in lower case. -/
def hexChars : List Char := "0123456789abcdef".toList

/-- The characters of a DNS label: lower-case letters, digits and the hyphen. -/
def labelChars : List Char := "abcdefghijklmnopqrstuvwxyz0123456789-".toList

/-- The ASCII letters of either case, the digits and the hyphen. -/
def namespaceChars : List Char :=
  "abcdefghijklmnopqrstuvwxyzABCDEFGHIJKLMNOPQRSTUVWXYZ0123456789-".toList

/-- The DNS-label rules of the spec: at most 63 characters, all of them
lower-case letters, digits or hyphens, and no hyphen first or last. -/
def IsDNSLabel (s : String) : Prop :=
  s.length ≤ 63 ∧ (∀ ch ∈ s.toList, ch ∈ labelChars) ∧
    s.toList.head? ≠ some '-' ∧ s.toList.getLast? ≠ some '-'

instance (s : String) : Decidable (IsDNSLabel s) := by
  unfold IsDNSLabel; infer_instance

/-! ### Vocabulary: cluster claim parameters and the entrypoint wrapper -/

/-- The first mount of `secretVolumeMounts` at the path expected for a Hive
secret of a test, if there is one. -/
def hiveMount (c : Collaborators) (secretVolumeMounts : List VolumeMount)
    (secretName testName : String) : Option VolumeMount :=
  secretVolumeMounts.find? fun m => m.MountPath == hiveMountPath c secretName testName

/-- The error recorded for a Hive secret of a test that has no mount: it names
the expected mount path and the secret. -/
def hiveMissingError (c : Collaborators) (secretName testName : String) : Error :=
  Error.errorf ("failed to find foundMountPath " ++ hiveMountPath c secretName testName
    ++ " to create secret " ++ c.NamePerTest secretName testName)

/-- What `getClusterClaimPodParams` is expected to return: with both mounts
found, the variables `KUBECONFIG` and `KUBEADMIN_PASSWORD_FILE` and the two
mounts; otherwise the aggregate of one error per missing secret (the error
case carries no lists: Go returns `nil, nil` next to the error). -/
def expectedClusterClaimPodParams (c : Collaborators) (secretVolumeMounts : List VolumeMount)
    (testName : String) : Except Error (List EnvVar × List VolumeMount) :=
  match hiveMount c secretVolumeMounts c.HiveAdminKubeconfigSecret testName,
      hiveMount c secretVolumeMounts c.HiveAdminPasswordSecret testName with
  | some kubeconfig, some password =>
    Except.ok
      ([ { Name := "KUBECONFIG",
           Value := c.filepathJoin kubeconfig.MountPath c.HiveAdminKubeconfigSecretKey },
         { Name := "KUBEADMIN_PASSWORD_FILE",
           Value := c.filepathJoin password.MountPath c.HiveAdminPasswordSecretKey } ],
       [kubeconfig, password])
  | none, some _ =>
    Except.error (Error.aggregate [hiveMissingError c c.HiveAdminKubeconfigSecret testName])
  | some _, none =>
    Except.error (Error.aggregate [hiveMissingError c c.HiveAdminPasswordSecret testName])
  | none, none =>
    Except.error (Error.aggregate
      [ hiveMissingError c c.HiveAdminKubeconfigSecret testName,
        hiveMissingError c c.HiveAdminPasswordSecret testName ])

/-- The flags that make the wrapper wait for the VPN, present when the VPN
configuration has a wait timeout. -/
def waitFlags (vpn : Option vpnConf) : List String :=
  match vpn with
  | some v =>
    match v.WaitTimeout with
    | some t => ["--wait-for-file", "/tmp/vpn/up", "--wait-timeout", t]
    | none => []
  | none => []

/-- The mode flags of the wrapper: `--mode=skip-kubeconfig`, then
`--mode=observer`, each when asked for. -/
def modeFlags (skipKubeconfig : Bool) (genPodOpts : generatePodOptions) : List String :=
  (if skipKubeconfig then ["--mode=skip-kubeconfig"] else [])
    ++ (if genPodOpts.IsObserver then ["--mode=observer"] else [])

/-- The volume `addSecretWrapper` adds. -/
def entrypointWrapperVolume : Volume :=
  { Name := "entrypoint-wrapper", VolumeSource := VolumeSource.EmptyDir "" none }

/-- The mount of the wrapper volume. -/
def entrypointWrapperMount : VolumeMount :=
  { Name := "entrypoint-wrapper", MountPath := "/tmp/entrypoint-wrapper" }

/-- The init container `addSecretWrapper` adds: it copies the wrapper binary
to the wrapper volume. -/
def cpEntrypointWrapper (c : Collaborators) : Container :=
  { Image := c.QCIAPPCIDomain ++ "/" ++ "openshift" ++ "/ci:ci_entrypoint-wrapper_latest"
    Name := "cp-entrypoint-wrapper"
    Command := ["cp"]
    Args := ["/bin/entrypoint-wrapper", c.filepathJoin "/tmp/entrypoint-wrapper" "entrypoint-wrapper"]
    VolumeMounts := [entrypointWrapperMount]
    TerminationMessagePolicy := TerminationMessageFallbackToLogsOnError }

/-- A sample primary container that runs `make all`. -/
def sampleMakeContainer : Container :=
  { Name := "test", Command := ["/bin/bash", "-c", "make"], Args := ["all"] }

/-- A sample pod whose only container is `sampleMakeContainer`. -/
def sampleMakePod : Pod :=
  { Namespace := "ci-op-1", Spec := { Containers := [sampleMakeContainer] } }

/-! ### Vocabulary: decorators that only append -/

/-- The pod `pod`, whose containers are `k :: ks`, with the volumes `vs` and
the init containers `inits` appended, and with the variables `es` and the
mounts `ms` appended on the primary container. -/
def Pod.decorated (pod : Pod) (k : Container) (ks : List Container) (vs : List Volume)
    (inits : List Container) (es : List EnvVar) (ms : List VolumeMount) : Pod :=
  { pod with Spec := { pod.Spec with
      Volumes := pod.Spec.Volumes ++ vs
      InitContainers := pod.Spec.InitContainers ++ inits
      Containers := { k with Env := k.Env ++ es, VolumeMounts := k.VolumeMounts ++ ms } :: ks } }

/-- Every volume mount of every container and init container of the pod names
a volume of the pod. -/
def Pod.MountsResolve (pod : Pod) : Prop :=
  ∀ k ∈ pod.allContainers, ∀ m ∈ k.VolumeMounts, ∃ v ∈ pod.Spec.Volumes, v.Name = m.Name

/-- The pod `p` is `pod`, whose containers are `k :: ks`, with only appended
volumes, init containers, variables and mounts, and every appended mount, on
the primary container or on an appended init container, names an appended
volume; `cmd` and `args` are the command and the arguments of the primary
container of `p`. -/
def Pod.OnlyAppends (pod p : Pod) (k : Container) (ks : List Container)
    (cmd args : List String) : Prop :=
  ∃ vs inits es ms,
    p = pod.decorated { k with Command := cmd, Args := args } ks vs inits es ms ∧
    (∀ m ∈ ms, ∃ v ∈ vs, v.Name = m.Name) ∧
    (∀ i ∈ inits, ∀ m ∈ i.VolumeMounts, ∃ v ∈ vs, v.Name = m.Name)

/-- The init container `addCliInjector` adds: it copies the `oc` binary of the
release image stream to the `cli` volume. -/
def injectCli (c : Collaborators) (imagestream : String) : Container :=
  { Name := "inject-cli"
    Image := imagestream ++ ":cli-artifacts"
    Command := ["/bin/sh"]
    Args := ["-c", "ARCH=$(uname -m | sed 's/x86_64/amd64/;s/aarch64/arm64/'); if [[ -e /usr/share/openshift/linux_$\x7bARCH\x7d/oc.rhel8 ]]; then /bin/cp /usr/share/openshift/linux_$\x7bARCH\x7d/oc.rhel8 "
      ++ c.filepathJoin c.CliMountPath "oc"
      ++ "; else /bin/cp /usr/share/openshift/linux_$\x7bARCH\x7d/oc "
      ++ c.CliMountPath ++ "; fi"]
    VolumeMounts := [{ Name := "cli", MountPath := c.CliMountPath }] }


/-! ### Vocabulary: best effort steps, the VPN sidecar -/

/-- The step counts for the best effort set: it is marked `BestEffort`, it is
not skipped and its resources parse. -/
def countsAsBestEffort (c : Collaborators) (s : multiStageTestStep)
    (step : LiteralTestStep) : Prop :=
  step.BestEffort = some true ∧ skipsStep c s step = false ∧
    ∃ res, c.ResourcesFor step.Resources = Except.ok res

/-- A sample test that allows best effort post steps. -/
def sampleBestEffort : multiStageTestStep :=
  { name := "e2e", flags := 2 }

/-- A sample best effort step whose dependency cannot be resolved by
`sampleCollaborators`, so that no pod is built for it. -/
def sampleFailingPostStep : LiteralTestStep :=
  { As := "post", BestEffort := some true, Dependencies := [{ Name := "x", Env := "X" }] }

/-- The sidecar container `addVPNClient` adds for a VPN configuration. -/
def vpnSidecar (vpn : vpnConf) : Container :=
  { Name := vpnContainerName
    Image := vpn.Image
    Command := ["bash", "-c", vpn.Commands]
    WorkingDir := "/tmp/profile"
    VolumeMounts :=
      [ { Name := "tun", MountPath := "/dev/net/tun" },
        { Name := "vpn", MountPath := "/tmp/vpn" },
        { Name := "logs", MountPath := "/logs" },
        { Name := profileVolumeName, MountPath := "/tmp/profile" } ] }

/-- The volume `vpn` that `addVPNClient` adds. -/
def vpnVolume : Volume :=
  { Name := "vpn", VolumeSource := VolumeSource.EmptyDir "" none }

/-- The volume `tun` that `addVPNClient` adds. -/
def tunVolume : Volume :=
  { Name := "tun", VolumeSource := VolumeSource.HostPath "/dev/net/tun" (some HostPathCharDev) }

/-- The capabilities `generatePods` gives to the VPN sidecar. -/
def vpnCapabilities : Capabilities :=
  { Add := ["NET_ADMIN"], Drop := ["ALL"] }

/-- The SELinux options `generatePods` gives to the VPN sidecar. -/
def vpnSELinuxOptions : SELinuxOptions :=
  { User := "system_u", Role := "system_r", Type_ := "container_runtime_t", Level := "s0" }

/-- Lines 145 to 183 of `generatePods`: the edits of the base pod that come
before the entrypoint wrapper (the first part of `decoratePod`). -/
def preparePod (c : Collaborators) (s : multiStageTestStep)
    (secretVolumes : List Volume) (genPodOpts : generatePodOptions)
    (step : LiteralTestStep) (terminationGracePeriodSeconds : Int) (pod : Pod) : Pod :=
  let pod := { pod with Labels := mapDelete pod.Labels c.ProwJobIdLabel }
  let pod := { pod with Annotations := mapSet pod.Annotations c.AnnotationSaveContainerLogs "true" }
  let pod := { pod with Labels := mapSet pod.Labels c.MultiStageTestLabel s.name }
  let needsKubeConfig := isKubeconfigNeeded step genPodOpts
  let pod :=
    if needsKubeConfig then
      { pod with Spec := { pod.Spec with ServiceAccountName := s.name } }
    else
      { pod with Spec := { pod.Spec with
          ServiceAccountName := "", AutomountServiceAccountToken := some false } }
  let pod := { pod with Spec := { pod.Spec with
      TerminationGracePeriodSeconds := some terminationGracePeriodSeconds } }
  let pod :=
    match step.DNSConfig with
    | some stepDNS =>
      let dns := pod.Spec.DNSConfig.getD {}
      let dns : PodDNSConfig :=
        { Nameservers := dns.Nameservers ++ stepDNS.Nameservers
          Searches := dns.Searches ++ stepDNS.Searches }
      let pod := { pod with Spec := { pod.Spec with DNSConfig := some dns } }
      if dns.Nameservers.length > 0 then
        { pod with Spec := { pod.Spec with DNSPolicy := DNSNone } }
      else pod
    | none => pod
  let pod :=
    match step.NodeArchitecture with
    | some arch =>
      { pod with Spec := { pod.Spec with
          NodeSelector := some (mapSet (pod.Spec.NodeSelector.getD []) LabelArchStable arch) } }
    | none => pod
  let pod := addVolumes pod
    [{ Name := c.homeVolumeName, VolumeSource := VolumeSource.EmptyDir "" none }]
  let pod := addVolumes pod secretVolumes
  { pod with Spec := { pod.Spec with
      Containers := mountHome c.homeVolumeName pod.Spec.Containers } }

/-- The pod `p` has the init containers of `pod` as a prefix of its own, and
its containers are those of `pod` with the first one possibly changed in
fields other than its name, command and arguments. -/
structure Pod.KeepsContainers (pod p : Pod) : Prop where
  inits : pod.Spec.InitContainers <+: p.Spec.InitContainers
  containers : ∀ k ks, pod.Spec.Containers = k :: ks →
    ∃ k1, p.Spec.Containers = k1 :: ks ∧ k1.Name = k.Name ∧ k1.Command = k.Command ∧
      k1.Args = k.Args

/-- Sample collaborators whose base pod carries a `logs` volume. -/
def sampleWithLogs : Collaborators :=
  { sampleCollaborators with
    GenerateBasePod := fun _ _ name _ cn cmds image res _ _ _ mounts _ =>
      Except.ok { Name := name, Spec := {
        Volumes := [{ Name := "logs", VolumeSource := VolumeSource.EmptyDir "" none }],
        Containers := [{ Name := cn, Image := image, Command := cmds, Resources := res,
                         VolumeMounts := mounts }] } } }

/-- A sample test with a VPN configuration and no cluster profile. -/
def sampleVPNNoProfile : multiStageTestStep :=
  { name := "e2e", vpnConf := some { Image := "vpn", namespaceUID := 1000 } }

/-- A sample test with a VPN configuration and a cluster profile. -/
def sampleVPNProfile : multiStageTestStep :=
  { name := "e2e", profile := "aws", vpnConf := some { Image := "vpn", namespaceUID := 1000 } }

/-- The pod has no volume named `dshm`, and no container of it has a mount
named `dshm`. -/
def Pod.LacksDshm (pod : Pod) : Prop :=
  (∀ v ∈ pod.Spec.Volumes, v.Name ≠ "dshm") ∧
  ∀ k ∈ pod.Spec.Containers, ∀ m ∈ k.VolumeMounts, m.Name ≠ "dshm"

/-- Nothing that `generatePods` is given for a step is named `dshm`: no volume
or mount of the base pod `pod0`, not the home volume, not the test (whose name
is that of the shared directory volume), no secret volume or secret mount, and
no volume of a credential of the step, in legacy or in CSI mode. -/
structure NoOtherDshm (c : Collaborators) (s : multiStageTestStep) (sv : List Volume)
    (svm : List VolumeMount) (step : LiteralTestStep) (pod0 : Pod) : Prop where
  basePod : pod0.LacksDshm
  home : c.homeVolumeName ≠ "dshm"
  test : s.name ≠ "dshm"
  secretVolumes : ∀ v ∈ sv, v.Name ≠ "dshm"
  secretMounts : ∀ m ∈ svm, m.Name ≠ "dshm"
  legacy : ∀ credential ∈ step.Credentials,
    c.volumeName credential.Namespace credential.Name ≠ "dshm"
  csi : ∀ credential ∈ step.Credentials, ∀ ns,
    c.getCSIVolumeName ns credential.Collection credential.MountPath ≠ "dshm"

/-- A sample reading of a quantity: the decimal digits of the string. -/
def sampleQuantity (value : String) : Quantity :=
  value.toList.foldl (fun n ch => 10 * n + ((ch.toNat : Int) - 48)) 0

/-- Sample collaborators whose `ResourcesFor` reads every request and limit
of a step as a decimal number. -/
def sampleParsesResources : Collaborators :=
  { sampleCollaborators with
    ResourcesFor := fun r => Except.ok
      { Requests := r.Requests.map fun e => (e.1, sampleQuantity e.2),
        Limits := r.Limits.map fun e => (e.1, sampleQuantity e.2) } }

/-- A sample step that requests one CPU and two units of shared memory. -/
def sampleShmStep : LiteralTestStep :=
  { As := "browser",
    Resources := { Requests := [("cpu", "1"), ("ci-operator.openshift.io/shm", "2")],
                   Limits := [("ci-operator.openshift.io/shm", "2")] } }

/-! ## Theorems -/

theorem setSecurityContextsOn_names (root : String) (uid : Int)
    (caps : Option Capabilities) (se : Option SELinuxOptions) (l : List Container) :
    (setSecurityContextsOn root uid caps se l).map (fun k => k.Name) = l.map (fun k => k.Name) := by
  unfold setSecurityContextsOn
  rw [List.map_map]
  apply List.map_congr_left
  intro k _
  by_cases h : k.Name = root <;> simp [h]

theorem setSecurityContextsOn_context (root : String) (uid : Int)
    (caps : Option Capabilities) (se : Option SELinuxOptions) (l : List Container)
    (k : Container) (hk : k ∈ setSecurityContextsOn root uid caps se l) :
    (k.Name = root → k.SecurityContext = some (rootContext caps se)) ∧
    (k.Name ≠ root → k.SecurityContext = some (nonRootContext uid)) := by
  unfold setSecurityContextsOn at hk
  obtain ⟨k0, -, rfl⟩ := List.mem_map.mp hk
  by_cases h : k0.Name = root <;> simp [h, rootContext, nonRootContext]

theorem allContainers_setSecurityContexts (pod : Pod) (root : String) (uid : Int)
    (caps : Option Capabilities) (se : Option SELinuxOptions) :
    (setSecurityContexts pod root uid caps se).allContainers
      = setSecurityContextsOn root uid caps se pod.allContainers := by
  simp [setSecurityContexts, Pod.allContainers, setSecurityContextsOn]

/-- C1: after `setSecurityContexts` the containers and init containers are
the same in number, order and name, every one of them has a non-nil
`SecurityContext`, each one named `root` has `RunAsUser = 0` with exactly the
given capabilities and SELinux options (and nothing else), and each other one
has `RunAsNonRoot = true` and `RunAsUser = uid`. -/
theorem setSecurityContexts_partition (pod : Pod) (root : String) (uid : Int)
    (capabilities : Option Capabilities) (seLinuxOpts : Option SELinuxOptions) :
    let pod1 := setSecurityContexts pod root uid capabilities seLinuxOpts
    pod1.Spec.InitContainers.map (fun k => k.Name)
        = pod.Spec.InitContainers.map (fun k => k.Name) ∧
    pod1.Spec.Containers.map (fun k => k.Name) = pod.Spec.Containers.map (fun k => k.Name) ∧
    ∀ k, k ∈ pod1.Spec.InitContainers ∨ k ∈ pod1.Spec.Containers →
      k.SecurityContext ≠ none ∧
      (k.Name = root → k.SecurityContext = some
        { RunAsUser := some 0, Capabilities := capabilities, SELinuxOptions := seLinuxOpts,
          RunAsNonRoot := none }) ∧
      (k.Name ≠ root → k.SecurityContext = some
        { RunAsNonRoot := some true, RunAsUser := some uid,
          Capabilities := none, SELinuxOptions := none }) := by
  intro pod1
  refine ⟨setSecurityContextsOn_names _ _ _ _ _, setSecurityContextsOn_names _ _ _ _ _, ?_⟩
  intro k hk
  have hmem : k ∈ setSecurityContextsOn root uid capabilities seLinuxOpts pod.Spec.InitContainers
      ∨ k ∈ setSecurityContextsOn root uid capabilities seLinuxOpts pod.Spec.Containers := hk
  have h := hmem.elim (setSecurityContextsOn_context root uid capabilities seLinuxOpts _ k)
    (setSecurityContextsOn_context root uid capabilities seLinuxOpts _ k)
  refine ⟨?_, h.1, h.2⟩
  by_cases hn : k.Name = root
  · rw [h.1 hn]; simp
  · rw [h.2 hn]; simp

theorem countP_runsAsRootWith_setSecurityContextsOn (root : String) (uid : Int)
    (caps : Option Capabilities) (se : Option SELinuxOptions)
    (huid : uid ≠ 0 ∨ caps ≠ none) (l : List Container) :
    (setSecurityContextsOn root uid caps se l).countP (runsAsRootWith caps)
      = l.countP (fun k => k.Name = root) := by
  unfold setSecurityContextsOn
  rw [List.countP_map]
  apply List.countP_congr
  intro k _
  by_cases h : k.Name = root
  · simp [h, runsAsRootWith]
  · rcases huid with hu | hc
    · simp [h, runsAsRootWith, hu]
    · have hc2 : ¬ (none = caps) := fun e => hc e.symm
      simp [h, runsAsRootWith, hc2]

/-- C2, as stated, fails: in a pod with no container named `root`, no
container runs as UID 0 with the given capabilities after
`setSecurityContexts`, so there is not exactly one. -/
theorem setSecurityContexts_no_root_counterexample :
    ((setSecurityContexts
        { Spec := { Containers := [{ Name := "test" }],
                    InitContainers := [{ Name := "cp-entrypoint-wrapper" }] } }
        "vpn-client" 1000 (some { Add := ["NET_ADMIN"], Drop := ["ALL"] }) none).allContainers.countP
      (runsAsRootWith (some { Add := ["NET_ADMIN"], Drop := ["ALL"] }))) = 0 := by
  decide

/-- C2, amended: when exactly one container among the init containers and the
containers of the pod is named `root`, and `uid` is not 0 or the capabilities
are non-nil, then after `setSecurityContexts` exactly one of them runs as UID 0
with the given capabilities, and a container does so if and only if it is
named `root`. -/
theorem setSecurityContexts_exactly_one_root (pod : Pod) (root : String) (uid : Int)
    (capabilities : Option Capabilities) (seLinuxOpts : Option SELinuxOptions)
    (hone : pod.allContainers.countP (fun k => k.Name = root) = 1)
    (huid : uid ≠ 0 ∨ capabilities ≠ none) :
    let pod1 := setSecurityContexts pod root uid capabilities seLinuxOpts
    pod1.allContainers.countP (runsAsRootWith capabilities) = 1 ∧
    ∀ k ∈ pod1.allContainers, runsAsRootWith capabilities k = true ↔ k.Name = root := by
  intro pod1
  have hall : pod1.allContainers
      = setSecurityContextsOn root uid capabilities seLinuxOpts pod.allContainers :=
    allContainers_setSecurityContexts _ _ _ _ _
  refine ⟨?_, ?_⟩
  · rw [hall, countP_runsAsRootWith_setSecurityContextsOn root uid _ _ huid, hone]
  · intro k hk
    rw [hall] at hk
    have h := setSecurityContextsOn_context root uid capabilities seLinuxOpts _ k hk
    by_cases hn : k.Name = root
    · simp [runsAsRootWith, h.1 hn, hn, rootContext]
    · rcases huid with hu | hc
      · simp [runsAsRootWith, h.2 hn, hn, nonRootContext, hu]
      · have hc2 : ¬ (none = capabilities) := fun e => hc e.symm
        simp [runsAsRootWith, h.2 hn, hn, nonRootContext, hc2]

theorem setSecurityContexts_exactly_one_root_witness :
    let pod : Pod := { Spec := { Containers := [{ Name := "test" }, { Name := "vpn-client" }],
                                 InitContainers := [{ Name := "cp-entrypoint-wrapper" }] } }
    let pod1 := setSecurityContexts pod "vpn-client" 1000
      (some { Add := ["NET_ADMIN"], Drop := ["ALL"] }) none
    pod.allContainers.countP (fun k => k.Name = "vpn-client") = 1 ∧
    pod1.allContainers.countP (runsAsRootWith (some { Add := ["NET_ADMIN"], Drop := ["ALL"] })) = 1 :=
  ⟨by decide,
   (setSecurityContexts_exactly_one_root _ "vpn-client" 1000 _ none (by decide)
      (Or.inl (by decide))).1⟩

/-! ### Dependencies -/

theorem envForDependencies_foldl (c : Collaborators) (s : multiStageTestStep)
    (step : LiteralTestStep) (deps : List StepDependency) (acc : List EnvVar × List Error) :
    deps.foldl (fun (acc : List EnvVar × List Error) dependency =>
      if dependency.PullSpec ≠ "" then
        (acc.1 ++ [{ Name := dependency.Env, Value := dependency.PullSpec }], acc.2)
      else
        let parts := c.DependencyParts dependency (claimReleaseOf c s)
        match c.ImageDigestFor s.jobSpec.Namespace parts.1 parts.2.1 with
        | Except.error _ =>
          (acc.1, acc.2 ++ [Error.errorf ("could not determine image pull spec for image "
            ++ dependency.Name ++ " on step " ++ step.As)])
        | Except.ok depRef =>
          (acc.1 ++ [{ Name := dependency.Env, Value := depRef }], acc.2)) acc
    = (acc.1 ++ deps.filterMap (dependencyBinding c s),
       acc.2 ++ deps.filterMap (dependencyError c s step.As)) := by
  induction deps generalizing acc with
  | nil => simp
  | cons d ds ih =>
    rw [List.foldl_cons, ih]
    by_cases hp : d.PullSpec = ""
    · cases hl : digestLookup c s d with
      | error e =>
        have hl2 := hl
        unfold digestLookup at hl2
        simp [dependencyBinding, dependencyError, hp, hl, hl2]
      | ok ref =>
        have hl2 := hl
        unfold digestLookup at hl2
        simp [dependencyBinding, dependencyError, hp, hl, hl2]
    · simp [dependencyBinding, dependencyError, hp]

theorem envForDependencies_eq (c : Collaborators) (s : multiStageTestStep)
    (step : LiteralTestStep) :
    envForDependencies c s step
      = (step.Dependencies.filterMap (dependencyBinding c s),
         step.Dependencies.filterMap (dependencyError c s step.As)) := by
  unfold envForDependencies
  rw [envForDependencies_foldl]
  simp

theorem dependency_binding_or_error (c : Collaborators) (s : multiStageTestStep)
    (step : String) (deps : List StepDependency) :
    (deps.filterMap (dependencyBinding c s)).length
      + (deps.filterMap (dependencyError c s step)).length = deps.length := by
  induction deps with
  | nil => simp
  | cons d ds ih =>
    by_cases hp : d.PullSpec = ""
    · cases hl : digestLookup c s d with
      | error e =>
        simp [List.filterMap_cons, dependencyBinding, dependencyError, hp, hl] at ih ⊢
        omega
      | ok ref =>
        simp [List.filterMap_cons, dependencyBinding, dependencyError, hp, hl] at ih ⊢
        omega
    · simp [List.filterMap_cons, dependencyBinding, dependencyError, hp] at ih ⊢
      omega

/-- C8: for every step and every digest lookup, `envForDependencies` returns,
in dependency order, one binding (named by the dependency's `Env`) for each
dependency with an explicit pull spec or a successful lookup, and one error
for each dependency whose lookup failed, with the message
`could not determine image pull spec for image <Name> on step <As>`; the two
lists together have as many entries as there are dependencies, so a failed
lookup stops nothing. -/
theorem envForDependencies_bindings_and_errors (c : Collaborators) (s : multiStageTestStep)
    (step : LiteralTestStep) :
    (envForDependencies c s step).1 = step.Dependencies.filterMap (dependencyBinding c s) ∧
    (envForDependencies c s step).2 = step.Dependencies.filterMap (dependencyError c s step.As) ∧
    (envForDependencies c s step).1.length + (envForDependencies c s step).2.length
      = step.Dependencies.length := by
  rw [envForDependencies_eq]
  exact ⟨rfl, rfl, dependency_binding_or_error c s step.As _⟩

/-- C9: a dependency with a non-empty `PullSpec`, wherever it stands among the
dependencies of a step, contributes exactly the binding of its `Env` to that
`PullSpec` and no error, between the results of the dependencies before and
after it; and on its own it yields that binding and no error for every digest
lookup put in place of the configured one. -/
theorem envForDependencies_pullSpec_verbatim (c : Collaborators) (s : multiStageTestStep)
    (step : LiteralTestStep) (before after : List StepDependency) (d : StepDependency)
    (hspec : d.PullSpec ≠ "") :
    envForDependencies c s { step with Dependencies := before ++ d :: after }
      = ((envForDependencies c s { step with Dependencies := before }).1
            ++ { Name := d.Env, Value := d.PullSpec }
              :: (envForDependencies c s { step with Dependencies := after }).1,
         (envForDependencies c s { step with Dependencies := before }).2
            ++ (envForDependencies c s { step with Dependencies := after }).2) ∧
    ∀ lookup : String → String → String → Except Error String,
      envForDependencies { c with ImageDigestFor := lookup } s { step with Dependencies := [d] }
        = ([{ Name := d.Env, Value := d.PullSpec }], []) := by
  constructor
  · simp only [envForDependencies_eq]
    simp [List.filterMap_append, List.filterMap_cons, dependencyBinding, dependencyError, hspec]
  · intro lookup
    simp [envForDependencies_eq, dependencyBinding, dependencyError, hspec]

theorem envForDependencies_pullSpec_verbatim_witness :
    ({ Name := "ext", Env := "EXT_IMAGE", PullSpec := "quay.io/org/ext:v1" } : StepDependency).PullSpec
        ≠ "" ∧
    envForDependencies sampleCollaborators {}
        { As := "e2e", Dependencies := [{ Name := "src", Env := "SRC_IMAGE" }]
            ++ { Name := "ext", Env := "EXT_IMAGE", PullSpec := "quay.io/org/ext:v1" } :: [] }
      = ((envForDependencies sampleCollaborators {}
            { As := "e2e", Dependencies := [{ Name := "src", Env := "SRC_IMAGE" }] }).1
            ++ { Name := "EXT_IMAGE", Value := "quay.io/org/ext:v1" }
              :: (envForDependencies sampleCollaborators {} { As := "e2e", Dependencies := [] }).1,
         (envForDependencies sampleCollaborators {}
            { As := "e2e", Dependencies := [{ Name := "src", Env := "SRC_IMAGE" }] }).2
            ++ (envForDependencies sampleCollaborators {} { As := "e2e", Dependencies := [] }).2) :=
  ⟨by decide,
   (envForDependencies_pullSpec_verbatim sampleCollaborators {} { As := "e2e" }
      [{ Name := "src", Env := "SRC_IMAGE" }] []
      { Name := "ext", Env := "EXT_IMAGE", PullSpec := "quay.io/org/ext:v1" } (by decide)).1⟩

/-! ### Credentials -/

theorem updateContainer0_cons (pod : Pod) (f : Container → Container) (k : Container)
    (ks : List Container) (hk : pod.Spec.Containers = k :: ks) :
    updateContainer0 pod f
      = some { pod with Spec := { pod.Spec with Containers := f k :: ks } } := by
  unfold updateContainer0
  rw [hk]

theorem Pod.withMounted_nil (pod : Pod) (k : Container) (ks : List Container)
    (hk : pod.Spec.Containers = k :: ks) : pod.withMounted k ks [] [] = pod := by
  cases pod with
  | mk n ns l a o spec =>
    cases spec
    cases k
    simp_all [Pod.withMounted]

theorem mem_mapSet {α : Type} (m : List (String × α)) (k : String) (v : α)
    (e : String × α) (he : e ∈ mapSet m k v) : e ∈ m ∨ e = (k, v) := by
  unfold mapSet at he
  split at he
  · obtain ⟨e0, he0, rfl⟩ := List.mem_map.mp he
    by_cases h : e0.1 == k
    · simp [h]
    · simp [h, he0]
  · rcases List.mem_append.mp he with h | h
    · exact Or.inl h
    · exact Or.inr (by simpa using h)

theorem groups_nonempty_foldl (credentials : List CredentialReference)
    (acc : CredentialGroups) (hacc : ∀ e ∈ acc, e.2 ≠ []) :
    ∀ e ∈ credentials.foldl (fun mountGroups credential =>
        let key := credential.Collection ++ ":" ++ credential.MountPath
        mapSet mountGroups key ((mountGroups.lookup key).getD [] ++ [credential])) acc,
      e.2 ≠ [] := by
  induction credentials generalizing acc with
  | nil => simpa using hacc
  | cons x xs ih =>
    rw [List.foldl_cons]
    apply ih
    intro e he
    rcases mem_mapSet _ _ _ _ he with h | h
    · exact hacc e h
    · rw [h]; simp

theorem groupCredentials_nonempty (credentials : List CredentialReference) :
    ∀ e ∈ groupCredentialsByCollectionAndMountPath credentials, e.2 ≠ [] := by
  unfold groupCredentialsByCollectionAndMountPath
  exact groups_nonempty_foldl credentials [] (by simp)

theorem addCSICredentialGroup_cons (c : Collaborators) (pod : Pod) (k : Container)
    (ks : List Container) (hk : pod.Spec.Containers = k :: ks)
    (group : List CredentialReference) (hg : group ≠ []) :
    addCSICredentialGroup c pod group
      = some (pod.withMounted k ks [csiVolumeFor c pod.Namespace group]
          [csiMountFor c pod.Namespace group]) := by
  cases group with
  | nil => exact absurd rfl hg
  | cons first rest =>
    simp only [addCSICredentialGroup]
    rw [updateContainer0_cons _ _ k ks (by simpa [addVolumes] using hk)]
    simp [Pod.withMounted, addVolumes, csiVolumeFor, csiMountFor, groupCollection, groupMountPath]

theorem foldlM_addCSICredentialGroup (c : Collaborators) (groups : CredentialGroups)
    (hne : ∀ e ∈ groups, e.2 ≠ []) (pod : Pod) (k : Container) (ks : List Container)
    (hk : pod.Spec.Containers = k :: ks) :
    groups.foldlM (fun pod entry => addCSICredentialGroup c pod entry.2) pod
      = some (pod.withMounted k ks ((groups.map Prod.snd).map (csiVolumeFor c pod.Namespace))
          ((groups.map Prod.snd).map (csiMountFor c pod.Namespace))) := by
  induction groups generalizing pod k with
  | nil => simp [Pod.withMounted_nil pod k ks hk]
  | cons g gs ih =>
    rw [List.foldlM_cons, addCSICredentialGroup_cons c pod k ks hk g.2 (hne g (by simp))]
    simp only [Option.some_bind, Option.bind_eq_bind]
    rw [ih (fun e he => hne e (by simp [he])) _
      { k with VolumeMounts := k.VolumeMounts ++ [csiMountFor c pod.Namespace g.2] } (by
        simp [Pod.withMounted])]
    simp [Pod.withMounted]

/-- C10: in CSI mode, on a pod with a primary container and for any order in
which the group map is visited, `addCredentials` returns the pod with exactly
one volume and one mount on `Containers[0]` appended per group of
`groupCredentialsByCollectionAndMountPath`: the volume is named by
`getCSIVolumeName` from the pod namespace and the collection and mount path of
the group, uses the driver `secrets-store.csi.k8s.io`, is read-only and carries
`secretProviderClass = getSPCName(...)`; the mount has the same name and the
mount path of the group. As many are appended as there are groups, each group
is among them, and an empty credential list leaves any pod unchanged. -/
theorem addCredentials_csi_one_volume_per_group (c : Collaborators)
    (hrange : ∀ m, (c.rangeMap m).Perm m)
    (credentials : List CredentialReference) (pod : Pod) (k : Container) (ks : List Container)
    (hk : pod.Spec.Containers = k :: ks) :
    let visited := (c.rangeMap (groupCredentialsByCollectionAndMountPath credentials)).map Prod.snd
    addCredentials c credentials pod true
      = some (pod.withMounted k ks (visited.map (csiVolumeFor c pod.Namespace))
          (visited.map (csiMountFor c pod.Namespace))) ∧
    visited.length = (groupCredentialsByCollectionAndMountPath credentials).length ∧
    (∀ e ∈ groupCredentialsByCollectionAndMountPath credentials, e.2 ∈ visited) ∧
    (∀ group ∈ visited, group ≠ []) ∧
    ∀ pod0 : Pod, addCredentials c [] pod0 true = some pod0 := by
  intro visited
  have hp := hrange (groupCredentialsByCollectionAndMountPath credentials)
  have hne : ∀ e ∈ c.rangeMap (groupCredentialsByCollectionAndMountPath credentials), e.2 ≠ [] :=
    fun e he => groupCredentials_nonempty credentials e (hp.mem_iff.mp he)
  refine ⟨?_, ?_, ?_, ?_, ?_⟩
  · simp only [addCredentials, if_true]
    exact foldlM_addCSICredentialGroup c _ hne pod k ks hk
  · simp [visited, hp.length_eq]
  · intro e he
    exact List.mem_map.mpr ⟨e, hp.mem_iff.mpr he, rfl⟩
  · intro group hg
    obtain ⟨e, he, rfl⟩ := List.mem_map.mp hg
    exact hne e he
  · intro pod0
    have h0 : c.rangeMap [] = [] := List.Perm.eq_nil (hrange [])
    simp [addCredentials, groupCredentialsByCollectionAndMountPath, h0]

/-! ### No decorator panics on a pod that has a container -/

theorem updateContainer0_total (pod : Pod) (f : Container → Container)
    (h : pod.Spec.Containers ≠ []) :
    ∃ p, updateContainer0 pod f = some p ∧ p.Spec.Containers ≠ [] := by
  obtain ⟨k, ks, hk⟩ := List.exists_cons_of_ne_nil h
  exact ⟨_, updateContainer0_cons pod f k ks hk, by simp⟩

theorem bind_total {x : Option Pod} {f : Pod → Option Pod}
    (hx : ∃ p, x = some p ∧ p.Spec.Containers ≠ [])
    (hf : ∀ p, p.Spec.Containers ≠ [] → ∃ q, f p = some q ∧ q.Spec.Containers ≠ []) :
    ∃ q, (x >>= f) = some q ∧ q.Spec.Containers ≠ [] := by
  obtain ⟨p, rfl, hp⟩ := hx
  simpa using hf p hp

theorem addSecretWrapper_total (c : Collaborators) (pod : Pod) (vpn : Option vpnConf)
    (skip : Bool) (o : generatePodOptions) (h : pod.Spec.Containers ≠ []) :
    ∃ p, addSecretWrapper c pod vpn skip o = some p ∧ p.Spec.Containers ≠ [] := by
  unfold addSecretWrapper
  exact updateContainer0_total _ _ (by simpa [addVolumes, addInitContainer] using h)

theorem addVPNClient_total (vpn : vpnConf) (pod : Pod) :
    ∃ p, addVPNClient vpn pod = some p ∧ p.Spec.Containers ≠ [] := by
  unfold addVPNClient
  exact updateContainer0_total _ _ (by simp [addVolumes])

theorem addDshmVolume_total (q : Quantity) (pod : Pod) (h : pod.Spec.Containers ≠ []) :
    ∃ p, addDshmVolume q pod = some p ∧ p.Spec.Containers ≠ [] := by
  unfold addDshmVolume
  exact updateContainer0_total _ _ (by simpa [addVolumes] using h)

theorem addProfile_total (c : Collaborators) (name profile : String) (pod : Pod)
    (h : pod.Spec.Containers ≠ []) :
    ∃ p, addProfile c name profile pod = some p ∧ p.Spec.Containers ≠ [] := by
  unfold addProfile
  exact updateContainer0_total _ _ (by simpa [addVolumes] using h)

theorem addCliInjector_total (c : Collaborators) (imagestream : String) (pod : Pod)
    (h : pod.Spec.Containers ≠ []) :
    ∃ p, addCliInjector c imagestream pod = some p ∧ p.Spec.Containers ≠ [] := by
  unfold addCliInjector
  exact updateContainer0_total _ _ (by simpa [addVolumes, addInitContainer] using h)

theorem addSharedDirSecret_total (c : Collaborators) (secret : String) (pod : Pod)
    (h : pod.Spec.Containers ≠ []) :
    ∃ p, addSharedDirSecret c secret pod = some p ∧ p.Spec.Containers ≠ [] := by
  unfold addSharedDirSecret
  exact updateContainer0_total _ _ (by simpa [addVolumes] using h)

theorem addCommandScript_total (c : Collaborators) (name : String) (pod : Pod)
    (h : pod.Spec.Containers ≠ []) :
    ∃ p, addCommandScript c name pod = some p ∧ p.Spec.Containers ≠ [] := by
  unfold addCommandScript
  exact updateContainer0_total _ _ (by simpa [addVolumes] using h)

theorem addLegacyCredential_total (c : Collaborators) (pod : Pod)
    (credential : CredentialReference) (h : pod.Spec.Containers ≠ []) :
    ∃ p, addLegacyCredential c pod credential = some p ∧ p.Spec.Containers ≠ [] := by
  unfold addLegacyCredential
  exact updateContainer0_total _ _ (by simpa [addVolumes] using h)

theorem addCSICredentialGroup_total (c : Collaborators) (pod : Pod)
    (group : List CredentialReference) (hg : group ≠ []) (h : pod.Spec.Containers ≠ []) :
    ∃ p, addCSICredentialGroup c pod group = some p ∧ p.Spec.Containers ≠ [] := by
  obtain ⟨k, ks, hk⟩ := List.exists_cons_of_ne_nil h
  exact ⟨_, addCSICredentialGroup_cons c pod k ks hk group hg, by simp [Pod.withMounted]⟩

theorem foldlM_total {α : Type} (f : Pod → α → Option Pod) (l : List α)
    (hf : ∀ a ∈ l, ∀ p, p.Spec.Containers ≠ [] → ∃ q, f p a = some q ∧ q.Spec.Containers ≠ [])
    (pod : Pod) (h : pod.Spec.Containers ≠ []) :
    ∃ p, l.foldlM f pod = some p ∧ p.Spec.Containers ≠ [] := by
  induction l generalizing pod with
  | nil => exact ⟨pod, by simp, h⟩
  | cons a as ih =>
    rw [List.foldlM_cons]
    exact bind_total (hf a (by simp) pod h)
      (fun p hp => ih (fun b hb => hf b (by simp [hb])) p hp)

theorem addCredentials_total (c : Collaborators) (hrange : ∀ m, (c.rangeMap m).Perm m)
    (credentials : List CredentialReference) (pod : Pod) (useCSI : Bool)
    (h : pod.Spec.Containers ≠ []) :
    ∃ p, addCredentials c credentials pod useCSI = some p ∧ p.Spec.Containers ≠ [] := by
  unfold addCredentials
  cases useCSI with
  | true =>
    simp only [if_true]
    apply foldlM_total _ _ _ pod h
    intro e he p hp
    exact addCSICredentialGroup_total c p e.2
      (groupCredentials_nonempty credentials e ((hrange _).mem_iff.mp he)) hp
  | false =>
    simp only [Bool.false_eq_true, if_false]
    exact foldlM_total _ _ (fun a _ p hp => addLegacyCredential_total c p a hp) pod h

theorem mountHome_ne_nil (home : String) (l : List Container) (h : l ≠ []) :
    mountHome home l ≠ [] := by
  cases l with
  | nil => exact absurd rfl h
  | cons k ks =>
    unfold mountHome
    split <;> simp

theorem decoratePod_total (c : Collaborators) (s : multiStageTestStep) (env : List EnvVar)
    (secretVolumes : List Volume) (o : generatePodOptions) (step : LiteralTestStep)
    (grace : Int) (pod : Pod) (h : pod.Spec.Containers ≠ []) :
    ∃ p, decoratePod c s env secretVolumes o step grace pod = some p
      ∧ p.Spec.Containers ≠ [] := by
  unfold decoratePod
  refine bind_total (addSecretWrapper_total _ _ _ _ _ ?_) (fun p1 h1 => ?_)
  · simp only [addVolumes]
    split <;> split <;> split <;> (try split) <;> simp [mountHome_ne_nil _ _ h]
  · refine bind_total ?_ (fun p2 h2 => ?_)
    · cases s.vpnConf with
      | none => exact ⟨p1, rfl, h1⟩
      | some vpn => exact addVPNClient_total vpn p1
    · refine bind_total (updateContainer0_total _ _ h2) (fun p3 h3 => ?_)
      refine bind_total (updateContainer0_total _ _ h3) (fun p4 h4 => ?_)
      exact updateContainer0_total _ _ h4

theorem clusterAccess_total (c : Collaborators) (s : multiStageTestStep)
    (mounts : List VolumeMount) (needs : Bool) (pod : Pod) (h : pod.Spec.Containers ≠ []) :
    ∃ p errs, clusterAccess c s mounts needs pod = some (p, errs) ∧ p.Spec.Containers ≠ [] := by
  obtain ⟨k, ks, hk⟩ := List.exists_cons_of_ne_nil h
  unfold clusterAccess
  by_cases hcl : s.clusterClaim.isSome = true
  · cases hget : getClusterClaimPodParams c mounts s.name with
    | error err => simp [hcl, h]
    | ok v => simp [hcl, updateContainer0_cons _ _ k ks hk]
  · by_cases hn : needs = true
    · simp [hcl, hn, updateContainer0_cons _ _ k ks hk]
    · simp [hcl, hn, h]

theorem attachResources_total (c : Collaborators) (hrange : ∀ m, (c.rangeMap m).Perm m)
    (s : multiStageTestStep) (o : generatePodOptions) (step : LiteralTestStep)
    (allResources : ResourceRequirements) (claimRelease : Option ClaimRelease) (pod : Pod)
    (h : pod.Spec.Containers ≠ []) :
    ∃ p, attachResources c s o step allResources claimRelease pod = some p
      ∧ p.Spec.Containers ≠ [] := by
  unfold attachResources
  refine bind_total ?_ (fun p1 h1 => bind_total ?_ (fun p2 h2 => bind_total ?_ (fun p3 h3 =>
    bind_total (addSharedDirSecret_total c _ p3 h3) (fun p4 h4 =>
      bind_total (addCredentials_total c hrange _ p4 _ h4) (fun p5 h5 =>
        bind_total ?_ (fun p6 h6 => ?_))))))
  · split
    · exact addDshmVolume_total _ _ h
    · exact ⟨pod, rfl, h⟩
  · split
    · exact addProfile_total c _ _ _ h1
    · exact ⟨p1, rfl, h1⟩
  · split
    · exact addCliInjector_total c _ _ h2
    · exact ⟨p2, rfl, h2⟩
  · split
    · exact addCommandScript_total c _ _ h5
    · exact ⟨p5, rfl, h5⟩
  · cases s.vpnConf with
    | none => exact ⟨p6, rfl, h6⟩
    | some vpn =>
      exact ⟨_, rfl, by simpa [setSecurityContexts, setSecurityContextsOn] using h6⟩

/-! ### The loop of `generatePods`, step by step -/

theorem JobSpec.sameBase_setDecoration (a b : JobSpec) (h : a.sameBase b) (t g : Duration) :
    a.setDecoration t g = b.setDecoration t g := by
  obtain ⟨h1, h2, h3, h4, h5, h6⟩ := h
  cases a; cases b
  simp_all [JobSpec.setDecoration]

theorem JobSpec.sameBase_refl (a : JobSpec) : a.sameBase a :=
  ⟨rfl, rfl, rfl, rfl, rfl, rfl⟩

theorem JobSpec.setDecoration_sameBase (a : JobSpec) (t g : Duration) :
    (a.setDecoration t g).sameBase a :=
  ⟨rfl, rfl, rfl, rfl, rfl, rfl⟩

theorem generatePodsStep_frame (c : Collaborators) (s : multiStageTestStep) (env : List EnvVar)
    (sv : List Volume) (svm : List VolumeMount) (o : generatePodOptions)
    (st : LoopState) (hjs : st.jobSpec.sameBase s.jobSpec) (step : LiteralTestStep) :
    (generatePodsStep c s env sv svm o (claimReleaseOf c s) st step).map LoopState.out
      = (stepContribution c s env sv svm o step).map st.plus ∧
    ∀ st1, generatePodsStep c s env sv svm o (claimReleaseOf c s) st step = some st1 →
      st1.jobSpec.sameBase s.jobSpec := by
  unfold stepContribution generatePodsStep
  by_cases hskip : skipsStep c s step = true
  · simp only [hskip, if_true]
    refine ⟨?_, fun st1 h1 => ?_⟩
    · cases hbe : st.bestEffortSteps <;> simp [LoopState.out, LoopState.plus, hbe]
    · cases h1; exact hjs
  · simp only [hskip]
    cases hres : c.ResourcesFor step.Resources with
    | error err =>
      refine ⟨?_, fun st1 h1 => ?_⟩
      · cases hbe : st.bestEffortSteps <;> simp [LoopState.out, LoopState.plus, hbe]
      · simp at h1; cases h1; exact hjs
    | ok resources =>
      simp only [Bool.false_eq_true, if_false]
      rw [JobSpec.sameBase_setDecoration st.jobSpec s.jobSpec hjs]
      refine ⟨?_, fun st1 h1 => ?_⟩
      · simp only [Option.map_map]
        congr 1
        funext built
        cases hbe : st.bestEffortSteps with
        | none => simp [LoopState.out, LoopState.plus, hbe]
        | some set =>
          by_cases hbest : step.BestEffort = some true
          · simp [LoopState.out, LoopState.plus, hbe, hbest, Finset.insert_eq,
              Finset.union_comm]
          · simp [LoopState.out, LoopState.plus, hbe, hbest]
      · obtain ⟨built, -, rfl⟩ := Option.map_eq_some'.mp h1
        exact JobSpec.setDecoration_sameBase _ _ _

theorem stepContribution_skip (c : Collaborators) (s : multiStageTestStep) (env : List EnvVar)
    (sv : List Volume) (svm : List VolumeMount) (o : generatePodOptions)
    (step : LiteralTestStep) (hskip : skipsStep c s step = true) :
    stepContribution c s env sv svm o step = some ([], [], ∅) := by
  simp [stepContribution, generatePodsStep, hskip]

theorem stepContribution_resources_error (c : Collaborators) (s : multiStageTestStep)
    (env : List EnvVar) (sv : List Volume) (svm : List VolumeMount) (o : generatePodOptions)
    (step : LiteralTestStep) (hskip : skipsStep c s step = false) (err : Error)
    (hres : c.ResourcesFor step.Resources = Except.error err) :
    stepContribution c s env sv svm o step = some ([], [err], ∅) := by
  simp [stepContribution, generatePodsStep, hskip, hres]

theorem stepContribution_build (c : Collaborators) (s : multiStageTestStep)
    (env : List EnvVar) (sv : List Volume) (svm : List VolumeMount) (o : generatePodOptions)
    (step : LiteralTestStep) (hskip : skipsStep c s step = false) (res : ResourceRequirements)
    (hres : c.ResourcesFor step.Resources = Except.ok res) :
    stepContribution c s env sv svm o step
      = (stepBuild c s env sv svm o step res).map fun built =>
          (built.1.toList, built.2,
            if step.BestEffort = some true then {s.name ++ "-" ++ step.As} else ∅) := by
  simp only [stepContribution, generatePodsStep, hskip, hres, stepBuild, stepContext,
    stepTimeout, stepGracePeriod, Option.map_map, Bool.false_eq_true, if_false]
  refine congrArg (fun f => Option.map f _) ?_
  funext built
  by_cases hbest : step.BestEffort = some true <;> simp [hbest]

theorem foldlM_generatePodsStep (c : Collaborators) (s : multiStageTestStep) (env : List EnvVar)
    (sv : List Volume) (svm : List VolumeMount) (o : generatePodOptions)
    (steps : List LiteralTestStep) (st : LoopState) (hjs : st.jobSpec.sameBase s.jobSpec) :
    (steps.foldlM (generatePodsStep c s env sv svm o (claimReleaseOf c s)) st).map LoopState.out
      = (contributions c s env sv svm o steps).map st.plus := by
  induction steps generalizing st with
  | nil =>
    cases hbe : st.bestEffortSteps <;>
      simp [contributions, LoopState.out, LoopState.plus, hbe]
  | cons x xs ih =>
    have hframe := generatePodsStep_frame c s env sv svm o st hjs x
    rw [List.foldlM_cons]
    cases hstep : generatePodsStep c s env sv svm o (claimReleaseOf c s) st x with
    | none =>
      rw [hstep] at hframe
      have hnone : stepContribution c s env sv svm o x = none := by
        cases hd : stepContribution c s env sv svm o x with
        | none => rfl
        | some d => rw [hd] at hframe; simp at hframe
      simp [contributions, hnone]
    | some st1 =>
      rw [hstep] at hframe
      cases hd : stepContribution c s env sv svm o x with
      | none => rw [hd] at hframe; simp at hframe
      | some d =>
        rw [hd] at hframe
        have hout : st1.out = st.plus d := by simpa using hframe.1
        have ih1 := ih st1 (hframe.2 st1 rfl)
        simp only [Option.some_bind, Option.bind_eq_bind]
        rw [ih1]
        cases hds : contributions c s env sv svm o xs with
        | none => simp [contributions, hd, hds]
        | some ds =>
          simp only [contributions, hd, hds, Option.map_some']
          simp only [LoopState.out, LoopState.plus, Prod.mk.injEq] at hout
          obtain ⟨h1, h2, h3⟩ := hout
          cases hbe : st.bestEffortSteps <;>
            simp_all [LoopState.plus, Finset.union_assoc]

theorem generatePods_eq (c : Collaborators) (s : multiStageTestStep)
    (steps : List LiteralTestStep) (env : List EnvVar) (sv : List Volume)
    (svm : List VolumeMount) (o : Option generatePodOptions) :
    generatePods c s steps env sv svm o
      = (contributions c s env sv svm (o.getD defaultGeneratePodOptions) steps).map fun d =>
          { pods := d.1
            bestEffortSteps :=
              if s.flags &&& c.allowBestEffortPostSteps ≠ 0 then some d.2.2 else none
            err := NewAggregate d.2.1 } := by
  have hopt : (match o with
      | some o => o
      | none => defaultGeneratePodOptions) = o.getD defaultGeneratePodOptions := by
    cases o <;> rfl
  have hfold := foldlM_generatePodsStep c s env sv svm (o.getD defaultGeneratePodOptions) steps
    { ret := [], errs := [],
      bestEffortSteps := if s.flags &&& c.allowBestEffortPostSteps ≠ 0 then some ∅ else none,
      jobSpec := s.jobSpec } (JobSpec.sameBase_refl _)
  unfold generatePods
  simp only [hopt]
  have hmap : ∀ x : Option LoopState,
      x.map (fun st => ({ pods := st.ret, bestEffortSteps := st.bestEffortSteps,
                          err := NewAggregate st.errs } : PodsResult))
        = (x.map LoopState.out).map fun r =>
            ({ pods := r.1, bestEffortSteps := r.2.2, err := NewAggregate r.2.1 } : PodsResult) := by
    intro x; cases x <;> simp [LoopState.out]
  rw [hmap, hfold, Option.map_map]
  congr 1
  funext d
  by_cases hflag : s.flags &&& c.allowBestEffortPostSteps = 0 <;>
    simp [LoopState.plus, hflag]

/-! ### What one iteration contributes -/

theorem clusterAccess_errs (c : Collaborators) (s : multiStageTestStep)
    (mounts : List VolumeMount) (needs : Bool) (pod p : Pod) (errs : List Error)
    (h : clusterAccess c s mounts needs pod = some (p, errs)) :
    errs = clusterErrors c s mounts := by
  unfold clusterAccess at h
  unfold clusterErrors
  by_cases hcl : s.clusterClaim.isSome = true
  · cases hget : getClusterClaimPodParams c mounts s.name with
    | error err =>
      simp only [hcl, hget, if_true, Option.some.injEq, Prod.mk.injEq] at h
      simp [hcl, ← h.2, exclusivityError]
    | ok v =>
      simp only [hcl, hget, if_true] at h
      obtain ⟨q, -, hq⟩ := Option.map_eq_some'.mp h
      simp only [Prod.mk.injEq] at hq
      simp [hcl, ← hq.2, exclusivityError]
  · by_cases hn : needs = true
    · simp only [hcl, hn, if_true, Bool.false_eq_true, if_false] at h
      obtain ⟨q, -, hq⟩ := Option.map_eq_some'.mp h
      simp only [Prod.mk.injEq] at hq
      simp [hcl, ← hq.2]
    · simp only [hcl, hn, Bool.false_eq_true, if_false, Option.some.injEq, Prod.mk.injEq] at h
      simp [hcl, ← h.2]

theorem envForDependencies_stepContext (c : Collaborators) (s : multiStageTestStep)
    (step step1 : LiteralTestStep) :
    envForDependencies c (stepContext c s step) step1 = envForDependencies c s step1 := by
  simp [envForDependencies, stepContext, claimReleaseOf, JobSpec.setDecoration]

theorem clusterErrors_stepContext (c : Collaborators) (s : multiStageTestStep)
    (step : LiteralTestStep) (mounts : List VolumeMount) :
    clusterErrors c (stepContext c s step) mounts = clusterErrors c s mounts := by
  simp [clusterErrors, stepContext]

theorem buildStepPod_base_error (c : Collaborators) (s : multiStageTestStep) (env : List EnvVar)
    (sv : List Volume) (svm : List VolumeMount) (o : generatePodOptions)
    (cr : Option ClaimRelease) (step : LiteralTestStep) (name image dir : String)
    (grace : Duration) (res allRes : ResourceRequirements) (err : Error)
    (hbase : basePodFor c s svm o step name image dir res = Except.error err) :
    buildStepPod c s env sv svm o cr step name image dir grace res allRes = some (none, [err]) := by
  simp [buildStepPod, hbase]

theorem buildStepPod_base_ok (c : Collaborators) (hc : c.WellBehaved) (s : multiStageTestStep)
    (env : List EnvVar) (sv : List Volume) (svm : List VolumeMount) (o : generatePodOptions)
    (cr : Option ClaimRelease) (step : LiteralTestStep) (name image dir : String)
    (grace : Duration) (res allRes : ResourceRequirements) (pod0 : Pod)
    (hbase : basePodFor c s svm o step name image dir res = Except.ok pod0) :
    ((envForDependencies c s step).2 ≠ [] ∧
      buildStepPod c s env sv svm o cr step name image dir grace res allRes
        = some (none, (envForDependencies c s step).2)) ∨
    ((envForDependencies c s step).2 = [] ∧
      ∃ pod, buildStepPod c s env sv svm o cr step name image dir grace res allRes
        = some (some pod, clusterErrors c s svm)) := by
  have h0 : pod0.Spec.Containers ≠ [] := by
    unfold basePodFor at hbase
    exact hc.basePodHasContainer _ _ _ _ _ _ _ _ _ _ _ _ _ _ hbase
  obtain ⟨p1, hp1, h1⟩ := decoratePod_total c s env sv o step
    (terminationGracePeriodSeconds grace) pod0 h0
  by_cases hdeps : (envForDependencies c s step).2 = []
  · right
    refine ⟨hdeps, ?_⟩
    obtain ⟨p2, hp2, h2⟩ := updateContainer0_total p1
      (fun container => { container with Env := container.Env ++ (envForDependencies c s step).1 }) h1
    have h2o : (match s.jobSpec.Owner with
        | some owner => { p2 with OwnerReferences := p2.OwnerReferences ++ [owner] }
        | none => p2).Spec.Containers ≠ [] := by
      cases s.jobSpec.Owner <;> simpa using h2
    obtain ⟨p3, errs, hp3, h3⟩ := clusterAccess_total c s svm (isKubeconfigNeeded step o) _ h2o
    have herrs := clusterAccess_errs c s svm _ _ _ _ hp3
    obtain ⟨p4, hp4, -⟩ := attachResources_total c hc.rangeMapPerm s o step allRes cr p3 h3
    refine ⟨p4, ?_⟩
    simp [buildStepPod, finishPod, hbase, hp1, hdeps, hp2, hp3, hp4, herrs]
  · left
    refine ⟨hdeps, ?_⟩
    simp [buildStepPod, hbase, hp1, hdeps]

theorem stepBuild_cases (c : Collaborators) (hc : c.WellBehaved) (s : multiStageTestStep)
    (env : List EnvVar) (sv : List Volume) (svm : List VolumeMount) (o : generatePodOptions)
    (step : LiteralTestStep) (res : ResourceRequirements) :
    (∃ errs, errs ≠ [] ∧ stepBuild c s env sv svm o step res = some (none, errs) ∧
      ((∃ err, stepBasePod c s svm o step res = Except.error err) ∨
        (envForDependencies c s step).2 ≠ [])) ∨
    (∃ pod pod0, stepBuild c s env sv svm o step res = some (some pod, clusterErrors c s svm) ∧
      stepBasePod c s svm o step res = Except.ok pod0 ∧
      (envForDependencies c s step).2 = []) := by
  unfold stepBuild
  cases hbase : stepBasePod c s svm o step res with
  | error err =>
    left
    exact ⟨[err], by simp, buildStepPod_base_error _ _ _ _ _ _ _ _ _ _ _ _ _ _ err hbase,
      Or.inl ⟨err, rfl⟩⟩
  | ok pod0 =>
    have h := buildStepPod_base_ok c hc (stepContext c s step) env sv svm o (claimReleaseOf c s)
      step _ _ _ (stepGracePeriod c step) _ res pod0 hbase
    rw [envForDependencies_stepContext, clusterErrors_stepContext] at h
    rcases h with ⟨hne, hb⟩ | ⟨hnil, pod, hb⟩
    · left
      exact ⟨_, hne, hb, Or.inr hne⟩
    · right
      exact ⟨pod, pod0, hb, rfl, hnil⟩

theorem stepContribution_cases (c : Collaborators) (hc : c.WellBehaved)
    (s : multiStageTestStep) (env : List EnvVar) (sv : List Volume) (svm : List VolumeMount)
    (o : generatePodOptions) (step : LiteralTestStep) :
    (skipsStep c s step = true ∧ stepContribution c s env sv svm o step = some ([], [], ∅)) ∨
    (skipsStep c s step = false ∧ ¬ ReachesClusterAccess c s svm o step ∧
      ∃ errs be, errs ≠ [] ∧ stepContribution c s env sv svm o step = some ([], errs, be)) ∨
    (skipsStep c s step = false ∧ ReachesClusterAccess c s svm o step ∧
      ∃ pod, stepContribution c s env sv svm o step
        = some ([pod], clusterErrors c s svm,
            if step.BestEffort = some true then {s.name ++ "-" ++ step.As} else ∅)) := by
  by_cases hskip : skipsStep c s step = true
  · exact Or.inl ⟨hskip, stepContribution_skip c s env sv svm o step hskip⟩
  · have hskip : skipsStep c s step = false := by simpa using hskip
    right
    cases hres : c.ResourcesFor step.Resources with
    | error err =>
      left
      refine ⟨hskip, ?_, [err], ∅, by simp,
        stepContribution_resources_error c s env sv svm o step hskip err hres⟩
      intro hreach
      obtain ⟨res, pod, h1, -⟩ := hreach.basePod
      rw [hres] at h1
      cases h1
    | ok res =>
      rw [stepContribution_build c s env sv svm o step hskip res hres]
      rcases stepBuild_cases c hc s env sv svm o step res with
        ⟨errs, hne, hb, hwhy⟩ | ⟨pod, pod0, hb, hbase, hdeps⟩
      · left
        refine ⟨hskip, ?_, errs, _, hne, by rw [hb]; rfl⟩
        intro hreach
        obtain ⟨res1, pod1, h1, h2⟩ := hreach.basePod
        rw [hres] at h1
        cases h1
        rcases hwhy with ⟨err, herr⟩ | hd
        · rw [herr] at h2; cases h2
        · exact hd hreach.dependencies
      · right
        exact ⟨hskip, ⟨hskip, ⟨res, pod0, hres, hbase⟩, hdeps⟩, pod, by rw [hb]; rfl⟩

theorem stepContribution_total (c : Collaborators) (hc : c.WellBehaved)
    (s : multiStageTestStep) (env : List EnvVar) (sv : List Volume) (svm : List VolumeMount)
    (o : generatePodOptions) (step : LiteralTestStep) :
    ∃ d, stepContribution c s env sv svm o step = some d := by
  rcases stepContribution_cases c hc s env sv svm o step with
    ⟨-, h⟩ | ⟨-, -, errs, be, -, h⟩ | ⟨-, -, pod, h⟩
  · exact ⟨_, h⟩
  · exact ⟨_, h⟩
  · exact ⟨_, h⟩

theorem contributions_cons (c : Collaborators) (s : multiStageTestStep) (env : List EnvVar)
    (sv : List Volume) (svm : List VolumeMount) (o : generatePodOptions)
    (x : LiteralTestStep) (xs : List LiteralTestStep) :
    contributions c s env sv svm o (x :: xs)
      = match stepContribution c s env sv svm o x, contributions c s env sv svm o xs with
        | some d, some ds => some (d.1 ++ ds.1, d.2.1 ++ ds.2.1, d.2.2 ∪ ds.2.2)
        | _, _ => none := by
  rw [contributions]

theorem contributions_total (c : Collaborators) (hc : c.WellBehaved)
    (s : multiStageTestStep) (env : List EnvVar) (sv : List Volume) (svm : List VolumeMount)
    (o : generatePodOptions) (steps : List LiteralTestStep) :
    ∃ d, contributions c s env sv svm o steps = some d := by
  induction steps with
  | nil => exact ⟨_, rfl⟩
  | cons x xs ih =>
    obtain ⟨d, hd⟩ := stepContribution_total c hc s env sv svm o x
    obtain ⟨ds, hds⟩ := ih
    rw [contributions_cons, hd, hds]
    exact ⟨_, rfl⟩

theorem contributions_append (c : Collaborators) (s : multiStageTestStep) (env : List EnvVar)
    (sv : List Volume) (svm : List VolumeMount) (o : generatePodOptions)
    (a b : List LiteralTestStep) :
    contributions c s env sv svm o (a ++ b)
      = match contributions c s env sv svm o a, contributions c s env sv svm o b with
        | some da, some db => some (da.1 ++ db.1, da.2.1 ++ db.2.1, da.2.2 ∪ db.2.2)
        | _, _ => none := by
  induction a with
  | nil =>
    cases hb : contributions c s env sv svm o b <;> simp [contributions, hb]
  | cons x xs ih =>
    rw [List.cons_append, contributions_cons, ih, contributions_cons]
    cases hx : stepContribution c s env sv svm o x <;>
      cases hxs : contributions c s env sv svm o xs <;>
      cases hb : contributions c s env sv svm o b <;>
      simp [Finset.union_assoc]

theorem contributions_singleton (c : Collaborators) (s : multiStageTestStep)
    (env : List EnvVar) (sv : List Volume) (svm : List VolumeMount) (o : generatePodOptions)
    (step : LiteralTestStep) :
    contributions c s env sv svm o [step] = stepContribution c s env sv svm o step := by
  rw [contributions_cons]
  cases hx : stepContribution c s env sv svm o step <;> simp [contributions]

theorem aggregateErrors_NewAggregate (errs : List Error) :
    aggregateErrors (NewAggregate errs) = errs := by
  cases errs <;> simp [NewAggregate, aggregateErrors]

theorem NewAggregate_eq_none (errs : List Error) : NewAggregate errs = none ↔ errs = [] := by
  cases errs <;> simp [NewAggregate]

theorem generatePods_append (c : Collaborators) (s : multiStageTestStep)
    (a b : List LiteralTestStep) (env : List EnvVar) (sv : List Volume)
    (svm : List VolumeMount) (o : Option generatePodOptions) :
    generatePods c s (a ++ b) env sv svm o
      = PodsResult.append (generatePods c s a env sv svm o) (generatePods c s b env sv svm o) := by
  simp only [generatePods_eq, contributions_append]
  cases ha : contributions c s env sv svm (o.getD defaultGeneratePodOptions) a <;>
    cases hb : contributions c s env sv svm (o.getD defaultGeneratePodOptions) b <;>
    simp [PodsResult.append, aggregateErrors_NewAggregate]
  by_cases hflag : s.flags &&& c.allowBestEffortPostSteps = 0 <;>
    simp [hflag, unionBestEffort]

/-- C5: `generatePods` processes the steps independently and in order: for
all step lists `a` and `b`, in the same test context and with the same
collaborators and options, the result for `a ++ b` is the result for `a`
followed by the result for `b` (the pods concatenated, the recorded errors
concatenated, the best effort sets joined), and a panic on either half is a
panic on the whole. -/
theorem generatePods_steps_independent (c : Collaborators) (s : multiStageTestStep)
    (a b : List LiteralTestStep) (env : List EnvVar) (secretVolumes : List Volume)
    (secretVolumeMounts : List VolumeMount) (genPodOpts : Option generatePodOptions) :
    generatePods c s (a ++ b) env secretVolumes secretVolumeMounts genPodOpts
      = match generatePods c s a env secretVolumes secretVolumeMounts genPodOpts,
            generatePods c s b env secretVolumes secretVolumeMounts genPodOpts with
        | some ra, some rb =>
          some { pods := ra.pods ++ rb.pods
                 bestEffortSteps := unionBestEffort ra.bestEffortSteps rb.bestEffortSteps
                 err := NewAggregate (aggregateErrors ra.err ++ aggregateErrors rb.err) }
        | _, _ => none := by
  rw [generatePods_append]
  rfl

/-! ### Skipping -/

theorem buildStepPod_none_errs (c : Collaborators) (s : multiStageTestStep) (env : List EnvVar)
    (sv : List Volume) (svm : List VolumeMount) (o : generatePodOptions)
    (cr : Option ClaimRelease) (step : LiteralTestStep) (name image dir : String)
    (grace : Duration) (res allRes : ResourceRequirements) (errs : List Error)
    (h : buildStepPod c s env sv svm o cr step name image dir grace res allRes
      = some (none, errs)) : errs ≠ [] := by
  unfold buildStepPod at h
  cases hbase : basePodFor c s svm o step name image dir res with
  | error err =>
    simp only [hbase, Option.some.injEq, Prod.mk.injEq, true_and] at h
    rw [← h]; simp
  | ok pod0 =>
    simp only [hbase] at h
    cases hdec : decoratePod c s env sv o step (terminationGracePeriodSeconds grace) pod0 with
    | none => simp [hdec] at h
    | some p1 =>
      simp only [hdec] at h
      by_cases hdeps : (envForDependencies c s step).2.length ≠ 0
      · rw [if_pos hdeps] at h
        simp only [Option.some.injEq, Prod.mk.injEq, true_and] at h
        rw [← h]
        intro hnil
        exact hdeps (by simp [hnil])
      · rw [if_neg hdeps] at h
        obtain ⟨built, -, hb⟩ := Option.map_eq_some'.mp h
        simp at hb

theorem skipsStep_iff (c : Collaborators) (s : multiStageTestStep) (step : LiteralTestStep) :
    skipsStep c s step = true ↔
      step.OptionalOnSuccess = some true ∧ s.flags &&& c.allowSkipOnSuccess ≠ 0 ∧
        s.flags &&& c.hasPrevErrs = 0 := by
  simp [skipsStep, and_assoc]

theorem stepContribution_empty_iff (c : Collaborators) (s : multiStageTestStep)
    (env : List EnvVar) (sv : List Volume) (svm : List VolumeMount) (o : generatePodOptions)
    (step : LiteralTestStep) :
    (∃ be, stepContribution c s env sv svm o step = some ([], [], be)) ↔
      skipsStep c s step = true := by
  constructor
  · rintro ⟨be, h⟩
    by_contra hskip
    have hskip : skipsStep c s step = false := by simpa using hskip
    cases hres : c.ResourcesFor step.Resources with
    | error err =>
      rw [stepContribution_resources_error c s env sv svm o step hskip err hres] at h
      simp at h
    | ok res =>
      rw [stepContribution_build c s env sv svm o step hskip res hres] at h
      obtain ⟨built, hb, hbuilt⟩ := Option.map_eq_some'.mp h
      simp only [Prod.mk.injEq] at hbuilt
      obtain ⟨pod, errs⟩ := built
      cases pod with
      | some pod => simp at hbuilt
      | none =>
        have hne := buildStepPod_none_errs _ _ _ _ _ _ _ _ _ _ _ _ _ _ errs hb
        exact hne hbuilt.2.1
  · intro hskip
    exact ⟨∅, stepContribution_skip c s env sv svm o step hskip⟩

theorem generatePods_singleton (c : Collaborators) (s : multiStageTestStep)
    (step : LiteralTestStep) (env : List EnvVar) (sv : List Volume)
    (svm : List VolumeMount) (o : Option generatePodOptions) :
    generatePods c s [step] env sv svm o
      = (stepContribution c s env sv svm (o.getD defaultGeneratePodOptions) step).map fun d =>
          { pods := d.1
            bestEffortSteps :=
              if s.flags &&& c.allowBestEffortPostSteps ≠ 0 then some d.2.2 else none
            err := NewAggregate d.2.1 } := by
  rw [generatePods_eq, contributions_singleton]

theorem generatePods_skip_cons (c : Collaborators) (s : multiStageTestStep)
    (step : LiteralTestStep) (hskip : skipsStep c s step = true)
    (a b : List LiteralTestStep) (env : List EnvVar) (sv : List Volume)
    (svm : List VolumeMount) (o : Option generatePodOptions) :
    generatePods c s (a ++ step :: b) env sv svm o = generatePods c s (a ++ b) env sv svm o := by
  have hcons : contributions c s env sv svm (o.getD defaultGeneratePodOptions) (step :: b)
      = contributions c s env sv svm (o.getD defaultGeneratePodOptions) b := by
    rw [contributions_cons, stepContribution_skip c s env sv svm _ step hskip]
    cases hb : contributions c s env sv svm (o.getD defaultGeneratePodOptions) b <;> simp
  simp only [generatePods_eq, contributions_append, hcons]

/-- C4: `generatePods` omits a step, that is, the step alone yields no
manifest, no error and no best effort entry, if and only if its
`OptionalOnSuccess` is set to true, the `allowSkipOnSuccess` flag is set and
the `hasPrevErrs` flag is clear; such a step can be removed from any step list
without changing the result; and once `hasPrevErrs` is set no step is
omitted, whatever its `OptionalOnSuccess`. -/
theorem generatePods_omits_step_iff (c : Collaborators) (s : multiStageTestStep)
    (step : LiteralTestStep) (env : List EnvVar) (secretVolumes : List Volume)
    (secretVolumeMounts : List VolumeMount) (genPodOpts : Option generatePodOptions) :
    let omitted : Prop :=
      generatePods c s [step] env secretVolumes secretVolumeMounts genPodOpts
        = some { pods := []
                 bestEffortSteps :=
                   if s.flags &&& c.allowBestEffortPostSteps ≠ 0 then some ∅ else none
                 err := none }
    let skipCondition : Prop :=
      step.OptionalOnSuccess = some true ∧ s.flags &&& c.allowSkipOnSuccess ≠ 0 ∧
        s.flags &&& c.hasPrevErrs = 0
    (omitted ↔ skipCondition) ∧
    (skipCondition → ∀ a b : List LiteralTestStep,
      generatePods c s (a ++ step :: b) env secretVolumes secretVolumeMounts genPodOpts
        = generatePods c s (a ++ b) env secretVolumes secretVolumeMounts genPodOpts) ∧
    (s.flags &&& c.hasPrevErrs ≠ 0 → ¬ omitted) := by
  intro omitted skipCondition
  have hiff : omitted ↔ skipCondition := by
    show _ ↔ (step.OptionalOnSuccess = some true ∧ s.flags &&& c.allowSkipOnSuccess ≠ 0 ∧
        s.flags &&& c.hasPrevErrs = 0)
    rw [← skipsStep_iff, ← stepContribution_empty_iff c s env secretVolumes secretVolumeMounts
      (genPodOpts.getD defaultGeneratePodOptions) step]
    show generatePods c s [step] env secretVolumes secretVolumeMounts genPodOpts = _ ↔ _
    rw [generatePods_singleton]
    constructor
    · intro h
      obtain ⟨d, hd, hr⟩ := Option.map_eq_some'.mp h
      simp only [PodsResult.mk.injEq, NewAggregate_eq_none] at hr
      obtain ⟨p, e, be⟩ := d
      simp only at hr
      exact ⟨be, by rw [hd, hr.1, hr.2.2]⟩
    · rintro ⟨be, h⟩
      have hskip := (stepContribution_empty_iff c s env secretVolumes secretVolumeMounts
        (genPodOpts.getD defaultGeneratePodOptions) step).mp ⟨be, h⟩
      rw [stepContribution_skip c s env secretVolumes secretVolumeMounts _ step hskip]
      simp [NewAggregate]
  refine ⟨hiff, ?_, ?_⟩
  · intro hcond a b
    exact generatePods_skip_cons c s step ((skipsStep_iff c s step).mpr hcond) a b _ _ _ _
  · intro hprev hom
    exact hprev (hiff.mp hom).2.2

/-! ### The aggregated error -/

theorem stepContribution_errs_nil (c : Collaborators) (hc : c.WellBehaved)
    (s : multiStageTestStep) (env : List EnvVar) (sv : List Volume) (svm : List VolumeMount)
    (o : generatePodOptions) (step : LiteralTestStep)
    (d : List Pod × List Error × Finset String)
    (hd : stepContribution c s env sv svm o step = some d) (hnil : d.2.1 = []) :
    d.1.length = ([step].filter fun x => !skipsStep c s x).length := by
  rcases stepContribution_cases c hc s env sv svm o step with
    ⟨hskip, h⟩ | ⟨hskip, -, errs, be, hne, h⟩ | ⟨hskip, -, pod, h⟩
  · rw [h] at hd; cases hd
    simp [hskip]
  · rw [h] at hd; cases hd
    exact absurd hnil hne
  · rw [h] at hd; cases hd
    simp [hskip]

theorem contributions_errs_nil (c : Collaborators) (hc : c.WellBehaved)
    (s : multiStageTestStep) (env : List EnvVar) (sv : List Volume) (svm : List VolumeMount)
    (o : generatePodOptions) (steps : List LiteralTestStep)
    (d : List Pod × List Error × Finset String)
    (hd : contributions c s env sv svm o steps = some d) :
    (d.2.1 = [] ↔ ∀ step ∈ steps, ∃ d1, stepContribution c s env sv svm o step = some d1
        ∧ d1.2.1 = []) ∧
    (d.2.1 = [] → d.1.length = (steps.filter fun x => !skipsStep c s x).length) := by
  induction steps generalizing d with
  | nil =>
    simp only [contributions, Option.some.injEq] at hd
    subst hd
    simp
  | cons x xs ih =>
    rw [contributions_cons] at hd
    obtain ⟨d1, hd1⟩ := stepContribution_total c hc s env sv svm o x
    obtain ⟨ds, hds⟩ := contributions_total c hc s env sv svm o xs
    rw [hd1, hds] at hd
    simp only [Option.some.injEq] at hd
    subst hd
    obtain ⟨ih1, ih2⟩ := ih ds hds
    constructor
    · simp only [List.append_eq_nil, List.forall_mem_cons, ih1, hd1, Option.some.injEq,
        exists_eq_left']
    · intro hnil
      simp only [List.append_eq_nil] at hnil
      have h1 := stepContribution_errs_nil c hc s env sv svm o x d1 hd1 hnil.1
      have h2 := ih2 hnil.2
      rw [List.length_append, h1, h2]
      by_cases hskip : skipsStep c s x = true <;> simp [List.filter_cons, hskip, Nat.add_comm]

theorem sampleCollaborators_wellBehaved : sampleCollaborators.WellBehaved where
  basePodHasContainer := by
    intro js labels name nodeName cn cmds image res dir dc raw mounts obs pod h
    simp only [sampleCollaborators, Except.ok.injEq] at h
    rw [← h]
    simp
  rangeMapPerm := fun m => List.Perm.refl m

/-! ### Errors that do not end the iteration -/

theorem generatePods_nil (c : Collaborators) (s : multiStageTestStep) (env : List EnvVar)
    (sv : List Volume) (svm : List VolumeMount) (o : Option generatePodOptions) :
    generatePods c s [] env sv svm o
      = some { pods := []
               bestEffortSteps :=
                 if s.flags &&& c.allowBestEffortPostSteps ≠ 0 then some ∅ else none
               err := none } := by
  simp [generatePods_eq, contributions, NewAggregate]

theorem generatePods_reaching_step (c : Collaborators) (hc : c.WellBehaved)
    (s : multiStageTestStep) (before after : List LiteralTestStep) (step : LiteralTestStep)
    (env : List EnvVar) (sv : List Volume) (svm : List VolumeMount)
    (o : Option generatePodOptions)
    (hreach : ReachesClusterAccess c s svm (o.getD defaultGeneratePodOptions) step) :
    ∃ r ra rb r1 pod,
      generatePods c s (before ++ step :: after) env sv svm o = some r ∧
      generatePods c s before env sv svm o = some ra ∧
      generatePods c s after env sv svm o = some rb ∧
      generatePods c s [step] env sv svm o = some r1 ∧
      r1.pods = [pod] ∧
      r.pods = ra.pods ++ pod :: rb.pods ∧
      r.err = NewAggregate
        (aggregateErrors ra.err ++ clusterErrors c s svm ++ aggregateErrors rb.err) := by
  obtain ⟨da, hda⟩ := contributions_total c hc s env sv svm
    (o.getD defaultGeneratePodOptions) before
  obtain ⟨db, hdb⟩ := contributions_total c hc s env sv svm
    (o.getD defaultGeneratePodOptions) after
  rcases stepContribution_cases c hc s env sv svm (o.getD defaultGeneratePodOptions) step with
    ⟨hskip, -⟩ | ⟨-, hnot, -⟩ | ⟨-, -, pod, hd⟩
  · rw [hreach.notSkipped] at hskip; cases hskip
  · exact absurd hreach hnot
  · have hr : generatePods c s (before ++ step :: after) env sv svm o
        = some (PodsResult.ofContribution c s
            (da.1 ++ ([pod] ++ db.1), da.2.1 ++ (clusterErrors c s svm ++ db.2.1),
              da.2.2 ∪ ((if step.BestEffort = some true then {s.name ++ "-" ++ step.As} else ∅)
                ∪ db.2.2))) := by
      rw [generatePods_eq, contributions_append, contributions_cons, hda, hd, hdb]; rfl
    have hra : generatePods c s before env sv svm o
        = some (PodsResult.ofContribution c s da) := by
      rw [generatePods_eq, hda]; rfl
    have hrb : generatePods c s after env sv svm o
        = some (PodsResult.ofContribution c s db) := by
      rw [generatePods_eq, hdb]; rfl
    have hr1 : generatePods c s [step] env sv svm o
        = some (PodsResult.ofContribution c s ([pod], clusterErrors c s svm,
            if step.BestEffort = some true then {s.name ++ "-" ++ step.As} else ∅)) := by
      rw [generatePods_singleton, hd]; rfl
    exact ⟨_, _, _, _, pod, hr, hra, hrb, hr1, rfl, rfl,
      by simp [PodsResult.ofContribution, aggregateErrors_NewAggregate, List.append_assoc]⟩

theorem exclusivityError_mem_clusterErrors (c : Collaborators) (s : multiStageTestStep)
    (svm : List VolumeMount) (hprofile : s.profile ≠ "") (hclaim : s.clusterClaim.isSome = true) :
    exclusivityError ∈ clusterErrors c s svm := by
  simp [clusterErrors, hprofile, hclaim]

theorem aggregate_ne_none_of_mem (e : Error) (errs : List Error) (h : e ∈ errs) :
    NewAggregate errs ≠ none ∧ e ∈ aggregateErrors (NewAggregate errs) := by
  rw [aggregateErrors_NewAggregate]
  refine ⟨?_, h⟩
  intro hnone
  rw [NewAggregate_eq_none] at hnone
  rw [hnone] at h
  simp at h

theorem sample_reaches (s : multiStageTestStep) (svm : List VolumeMount)
    (o : generatePodOptions) (step : LiteralTestStep)
    (hskip : skipsStep sampleCollaborators s step = false) (hdeps : step.Dependencies = []) :
    ReachesClusterAccess sampleCollaborators s svm o step where
  notSkipped := hskip
  basePod := ⟨{}, _, rfl, rfl⟩
  dependencies := by simp [envForDependencies, hdeps]

/-- C3, as stated, fails: with a cluster profile and a cluster claim both set,
a step that is not skipped, whose resources parse, whose base pod is generated
and whose dependencies resolve still has its manifest in the returned list,
next to the aggregated error that holds only the exclusivity error. -/
theorem exclusivity_manifest_kept_counterexample :
    sampleBothSet.profile ≠ "" ∧ sampleBothSet.clusterClaim.isSome = true ∧
    ReachesClusterAccess sampleCollaborators sampleBothSet sampleHiveMounts
      defaultGeneratePodOptions { As := "test" } ∧
    ∃ r pod,
      generatePods sampleCollaborators sampleBothSet [{ As := "test" }] [] [] sampleHiveMounts none
        = some r ∧
      r.pods = [pod] ∧ r.err = some (Error.aggregate [exclusivityError]) := by
  have hreach := sample_reaches sampleBothSet sampleHiveMounts defaultGeneratePodOptions
    { As := "test" } (by decide) rfl
  refine ⟨by decide, by decide, hreach, ?_⟩
  obtain ⟨r, ra, rb, r1, pod, hr, hra, hrb, -, -, hpods, herr⟩ :=
    generatePods_reaching_step sampleCollaborators sampleCollaborators_wellBehaved sampleBothSet
      [] [] { As := "test" } [] [] sampleHiveMounts none hreach
  rw [generatePods_nil] at hra hrb
  cases hra
  cases hrb
  refine ⟨r, pod, hr, by simpa using hpods, ?_⟩
  rw [herr]
  have hce : clusterErrors sampleCollaborators sampleBothSet sampleHiveMounts
      = [exclusivityError] := by
    rfl
  simp [aggregateErrors, hce, NewAggregate]

/-- C3, amended: when a test has both a cluster profile and a cluster claim,
every step that is not skipped, whose resources parse, whose base pod is
generated and whose dependencies resolve makes `generatePods` record the
`cannot set both cluster_profile and cluster_claim in a test` error, so the
aggregated error is non-nil and contains it; the manifest of that step is
still in the returned pod list, between the manifests of the steps before and
after it. -/
theorem exclusivity_error_recorded_manifest_kept (c : Collaborators) (hc : c.WellBehaved)
    (s : multiStageTestStep) (hprofile : s.profile ≠ "")
    (hclaim : s.clusterClaim.isSome = true)
    (before after : List LiteralTestStep) (step : LiteralTestStep)
    (env : List EnvVar) (secretVolumes : List Volume) (secretVolumeMounts : List VolumeMount)
    (genPodOpts : Option generatePodOptions)
    (hreach : ReachesClusterAccess c s secretVolumeMounts
      (genPodOpts.getD defaultGeneratePodOptions) step) :
    ∃ r ra rb r1 pod,
      generatePods c s (before ++ step :: after) env secretVolumes secretVolumeMounts genPodOpts
        = some r ∧
      generatePods c s before env secretVolumes secretVolumeMounts genPodOpts = some ra ∧
      generatePods c s after env secretVolumes secretVolumeMounts genPodOpts = some rb ∧
      generatePods c s [step] env secretVolumes secretVolumeMounts genPodOpts = some r1 ∧
      r1.pods = [pod] ∧
      r.pods = ra.pods ++ pod :: rb.pods ∧
      r.err ≠ none ∧ exclusivityError ∈ aggregateErrors r.err := by
  obtain ⟨r, ra, rb, r1, pod, hr, hra, hrb, hr1, hp1, hpods, herr⟩ :=
    generatePods_reaching_step c hc s before after step env secretVolumes secretVolumeMounts
      genPodOpts hreach
  have hmem : exclusivityError ∈ aggregateErrors ra.err ++ clusterErrors c s secretVolumeMounts
      ++ aggregateErrors rb.err := by
    simp [exclusivityError_mem_clusterErrors c s secretVolumeMounts hprofile hclaim]
  have hagg := aggregate_ne_none_of_mem _ _ hmem
  rw [← herr] at hagg
  exact ⟨r, ra, rb, r1, pod, hr, hra, hrb, hr1, hp1, hpods, hagg.1, hagg.2⟩

theorem exclusivity_error_recorded_manifest_kept_witness :
    sampleCollaborators.WellBehaved ∧ sampleBothSet.profile ≠ "" ∧
    sampleBothSet.clusterClaim.isSome = true ∧
    ReachesClusterAccess sampleCollaborators sampleBothSet []
      ((none : Option generatePodOptions).getD defaultGeneratePodOptions) { As := "test" } ∧
    ∃ r ra rb r1 pod,
      generatePods sampleCollaborators sampleBothSet
        ([{ As := "pre" }] ++ { As := "test" } :: [{ As := "post" }]) [] [] [] none = some r ∧
      generatePods sampleCollaborators sampleBothSet [{ As := "pre" }] [] [] [] none = some ra ∧
      generatePods sampleCollaborators sampleBothSet [{ As := "post" }] [] [] [] none = some rb ∧
      generatePods sampleCollaborators sampleBothSet [{ As := "test" }] [] [] [] none = some r1 ∧
      r1.pods = [pod] ∧
      r.pods = ra.pods ++ pod :: rb.pods ∧
      r.err ≠ none ∧ exclusivityError ∈ aggregateErrors r.err :=
  ⟨sampleCollaborators_wellBehaved, by decide, by decide,
   sample_reaches sampleBothSet [] _ { As := "test" } (by decide) rfl,
   exclusivity_error_recorded_manifest_kept sampleCollaborators sampleCollaborators_wellBehaved
     sampleBothSet (by decide) (by decide) [{ As := "pre" }] [{ As := "post" }] { As := "test" }
     [] [] [] none (sample_reaches sampleBothSet [] _ { As := "test" } (by decide) rfl)⟩

theorem getClusterClaimPodParams_missing (c : Collaborators) (svm : List VolumeMount)
    (testName : String)
    (hmiss : (∀ m ∈ svm, m.MountPath ≠ hiveMountPath c c.HiveAdminKubeconfigSecret testName) ∨
      (∀ m ∈ svm, m.MountPath ≠ hiveMountPath c c.HiveAdminPasswordSecret testName)) :
    ∃ err, getClusterClaimPodParams c svm testName = Except.error err := by
  unfold getClusterClaimPodParams
  simp only [List.foldl_cons, List.foldl_nil]
  rcases hmiss with h | h
  · have hf : svm.find? (fun m => m.MountPath ==
        c.getMountPath (c.NamePerTest c.HiveAdminKubeconfigSecret testName)) = none := by
      rw [List.find?_eq_none]
      intro m hm
      simpa [hiveMountPath] using h m hm
    cases hf2 : svm.find? (fun m => m.MountPath ==
        c.getMountPath (c.NamePerTest c.HiveAdminPasswordSecret testName)) <;>
      simp [hf, hf2]
  · have hf : svm.find? (fun m => m.MountPath ==
        c.getMountPath (c.NamePerTest c.HiveAdminPasswordSecret testName)) = none := by
      rw [List.find?_eq_none]
      intro m hm
      simpa [hiveMountPath] using h m hm
    cases hf2 : svm.find? (fun m => m.MountPath ==
        c.getMountPath (c.NamePerTest c.HiveAdminKubeconfigSecret testName)) <;>
      simp [hf, hf2]

theorem claimError_mem_clusterErrors (c : Collaborators) (s : multiStageTestStep)
    (svm : List VolumeMount) (hclaim : s.clusterClaim.isSome = true) (err : Error)
    (herr : getClusterClaimPodParams c svm s.name = Except.error err) :
    Error.wrapf "failed to get cluster claim pod params: " err ∈ clusterErrors c s svm := by
  simp [clusterErrors, hclaim, herr]

/-- C7, as stated, fails: with a cluster claim configured and no Hive secret
mount among the secret volume mounts, a step that is not skipped, whose
resources parse, whose base pod is generated and whose dependencies resolve
still has its manifest in the returned list, next to the aggregated error that
holds the `failed to get cluster claim pod params` error. -/
theorem claim_params_manifest_kept_counterexample :
    sampleClaimOnly.clusterClaim.isSome = true ∧
    (∀ m ∈ ([] : List VolumeMount), m.MountPath ≠ hiveMountPath sampleCollaborators
      sampleCollaborators.HiveAdminKubeconfigSecret sampleClaimOnly.name) ∧
    ReachesClusterAccess sampleCollaborators sampleClaimOnly []
      defaultGeneratePodOptions { As := "test" } ∧
    ∃ r pod err,
      generatePods sampleCollaborators sampleClaimOnly [{ As := "test" }] [] [] [] none = some r ∧
      r.pods = [pod] ∧
      r.err = some (Error.aggregate
        [Error.wrapf "failed to get cluster claim pod params: " err]) := by
  have hreach := sample_reaches sampleClaimOnly [] defaultGeneratePodOptions
    { As := "test" } (by decide) rfl
  refine ⟨by decide, by simp, hreach, ?_⟩
  obtain ⟨r, ra, rb, r1, pod, hr, hra, hrb, -, -, hpods, herr⟩ :=
    generatePods_reaching_step sampleCollaborators sampleCollaborators_wellBehaved
      sampleClaimOnly [] [] { As := "test" } [] [] [] none hreach
  rw [generatePods_nil] at hra hrb
  cases hra
  cases hrb
  obtain ⟨err, hget⟩ := getClusterClaimPodParams_missing sampleCollaborators [] sampleClaimOnly.name
    (Or.inl (by simp))
  refine ⟨r, pod, err, hr, by simpa using hpods, ?_⟩
  rw [herr]
  have hce : clusterErrors sampleCollaborators sampleClaimOnly []
      = [Error.wrapf "failed to get cluster claim pod params: " err] := by
    have hp : sampleClaimOnly.profile = "" := rfl
    have hc : sampleClaimOnly.clusterClaim.isSome = true := rfl
    simp [clusterErrors, hp, hc, hget]
  simp [aggregateErrors, hce, NewAggregate]

/-- C7, amended: when a cluster claim is configured and the mount of the Hive
admin kubeconfig secret or of the Hive admin password secret of the test is
missing from `secretVolumeMounts`, every step that is not skipped, whose
resources parse, whose base pod is generated and whose dependencies resolve
makes `generatePods` record a `failed to get cluster claim pod params` error,
so the aggregated error is non-nil and contains it; the manifest of that step
is still in the returned pod list, between the manifests of the steps before
and after it. -/
theorem claim_params_error_recorded_manifest_kept (c : Collaborators) (hc : c.WellBehaved)
    (s : multiStageTestStep) (hclaim : s.clusterClaim.isSome = true)
    (before after : List LiteralTestStep) (step : LiteralTestStep)
    (env : List EnvVar) (secretVolumes : List Volume) (secretVolumeMounts : List VolumeMount)
    (genPodOpts : Option generatePodOptions)
    (hmiss : (∀ m ∈ secretVolumeMounts,
        m.MountPath ≠ hiveMountPath c c.HiveAdminKubeconfigSecret s.name) ∨
      (∀ m ∈ secretVolumeMounts,
        m.MountPath ≠ hiveMountPath c c.HiveAdminPasswordSecret s.name))
    (hreach : ReachesClusterAccess c s secretVolumeMounts
      (genPodOpts.getD defaultGeneratePodOptions) step) :
    ∃ r ra rb r1 pod err,
      generatePods c s (before ++ step :: after) env secretVolumes secretVolumeMounts genPodOpts
        = some r ∧
      generatePods c s before env secretVolumes secretVolumeMounts genPodOpts = some ra ∧
      generatePods c s after env secretVolumes secretVolumeMounts genPodOpts = some rb ∧
      generatePods c s [step] env secretVolumes secretVolumeMounts genPodOpts = some r1 ∧
      r1.pods = [pod] ∧
      r.pods = ra.pods ++ pod :: rb.pods ∧
      getClusterClaimPodParams c secretVolumeMounts s.name = Except.error err ∧
      r.err ≠ none ∧
      Error.wrapf "failed to get cluster claim pod params: " err ∈ aggregateErrors r.err := by
  obtain ⟨r, ra, rb, r1, pod, hr, hra, hrb, hr1, hp1, hpods, herr⟩ :=
    generatePods_reaching_step c hc s before after step env secretVolumes secretVolumeMounts
      genPodOpts hreach
  obtain ⟨err, hget⟩ := getClusterClaimPodParams_missing c secretVolumeMounts s.name hmiss
  have hmem : Error.wrapf "failed to get cluster claim pod params: " err
      ∈ aggregateErrors ra.err ++ clusterErrors c s secretVolumeMounts
        ++ aggregateErrors rb.err := by
    simp [claimError_mem_clusterErrors c s secretVolumeMounts hclaim err hget]
  have hagg := aggregate_ne_none_of_mem _ _ hmem
  rw [← herr] at hagg
  exact ⟨r, ra, rb, r1, pod, err, hr, hra, hrb, hr1, hp1, hpods, hget, hagg.1, hagg.2⟩

theorem claim_params_error_recorded_manifest_kept_witness :
    sampleCollaborators.WellBehaved ∧ sampleClaimOnly.clusterClaim.isSome = true ∧
    ((∀ m ∈ ([] : List VolumeMount), m.MountPath ≠ hiveMountPath sampleCollaborators
        sampleCollaborators.HiveAdminKubeconfigSecret sampleClaimOnly.name) ∨
      (∀ m ∈ ([] : List VolumeMount), m.MountPath ≠ hiveMountPath sampleCollaborators
        sampleCollaborators.HiveAdminPasswordSecret sampleClaimOnly.name)) ∧
    ReachesClusterAccess sampleCollaborators sampleClaimOnly []
      ((none : Option generatePodOptions).getD defaultGeneratePodOptions) { As := "test" } ∧
    ∃ r ra rb r1 pod err,
      generatePods sampleCollaborators sampleClaimOnly
        ([{ As := "pre" }] ++ { As := "test" } :: [{ As := "post" }]) [] [] [] none = some r ∧
      generatePods sampleCollaborators sampleClaimOnly [{ As := "pre" }] [] [] [] none = some ra ∧
      generatePods sampleCollaborators sampleClaimOnly [{ As := "post" }] [] [] [] none = some rb ∧
      generatePods sampleCollaborators sampleClaimOnly [{ As := "test" }] [] [] [] none = some r1 ∧
      r1.pods = [pod] ∧
      r.pods = ra.pods ++ pod :: rb.pods ∧
      getClusterClaimPodParams sampleCollaborators [] sampleClaimOnly.name = Except.error err ∧
      r.err ≠ none ∧
      Error.wrapf "failed to get cluster claim pod params: " err ∈ aggregateErrors r.err :=
  ⟨sampleCollaborators_wellBehaved, by decide, Or.inl (by simp),
   sample_reaches sampleClaimOnly [] _ { As := "test" } (by decide) rfl,
   claim_params_error_recorded_manifest_kept sampleCollaborators sampleCollaborators_wellBehaved
     sampleClaimOnly (by decide) [{ As := "pre" }] [{ As := "post" }] { As := "test" }
     [] [] [] none (Or.inl (by simp))
     (sample_reaches sampleClaimOnly [] _ { As := "test" } (by decide) rfl)⟩

/-! ### Witness for the CSI credentials -/

theorem addCredentials_csi_one_volume_per_group_witness :
    (∀ m, (sampleCollaborators.rangeMap m).Perm m) ∧
    (({ Namespace := "ci-op-1", Spec := { Containers := [{ Name := "test" }] } } : Pod).Spec.Containers
      = [{ Name := "test" }]) ∧
    addCredentials sampleCollaborators
        [ { Name := "red", Collection := "colours", MountPath := "/tmp/path" },
          { Name := "blue", Collection := "colours", MountPath := "/tmp/path" },
          { Name := "circle", Collection := "shapes", MountPath := "/tmp/path" },
          { Name := "square", Collection := "shapes", MountPath := "/tmp/other" } ]
        { Namespace := "ci-op-1", Spec := { Containers := [{ Name := "test" }] } } true
      = some (({ Namespace := "ci-op-1", Spec := { Containers := [{ Name := "test" }] } }
          : Pod).withMounted { Name := "test" } []
          (((sampleCollaborators.rangeMap (groupCredentialsByCollectionAndMountPath
            [ { Name := "red", Collection := "colours", MountPath := "/tmp/path" },
              { Name := "blue", Collection := "colours", MountPath := "/tmp/path" },
              { Name := "circle", Collection := "shapes", MountPath := "/tmp/path" },
              { Name := "square", Collection := "shapes", MountPath := "/tmp/other" } ])).map
            Prod.snd).map (csiVolumeFor sampleCollaborators "ci-op-1"))
          (((sampleCollaborators.rangeMap (groupCredentialsByCollectionAndMountPath
            [ { Name := "red", Collection := "colours", MountPath := "/tmp/path" },
              { Name := "blue", Collection := "colours", MountPath := "/tmp/path" },
              { Name := "circle", Collection := "shapes", MountPath := "/tmp/path" },
              { Name := "square", Collection := "shapes", MountPath := "/tmp/other" } ])).map
            Prod.snd).map (csiMountFor sampleCollaborators "ci-op-1"))) :=
  ⟨fun m => List.Perm.refl m, rfl,
   (addCredentials_csi_one_volume_per_group sampleCollaborators (fun m => List.Perm.refl m)
      _ _ { Name := "test" } [] rfl).1⟩

/-! ### Legacy credentials -/

theorem addLegacyCredential_cons (c : Collaborators) (pod : Pod) (k : Container)
    (ks : List Container) (hk : pod.Spec.Containers = k :: ks)
    (credential : CredentialReference) :
    addLegacyCredential c pod credential
      = some (pod.withMounted k ks [legacyVolumeFor c credential]
          [legacyMountFor c credential]) := by
  simp only [addLegacyCredential]
  rw [updateContainer0_cons _ _ k ks (by simpa [addVolumes] using hk)]
  simp [Pod.withMounted, addVolumes, legacyVolumeFor, legacyMountFor]

theorem foldlM_addLegacyCredential (c : Collaborators)
    (credentials : List CredentialReference) (pod : Pod) (k : Container)
    (ks : List Container) (hk : pod.Spec.Containers = k :: ks) :
    credentials.foldlM (addLegacyCredential c) pod
      = some (pod.withMounted k ks (credentials.map (legacyVolumeFor c))
          (credentials.map (legacyMountFor c))) := by
  induction credentials generalizing pod k with
  | nil => simp [Pod.withMounted_nil pod k ks hk]
  | cons x xs ih =>
    rw [List.foldlM_cons, addLegacyCredential_cons c pod k ks hk x]
    simp only [Option.some_bind, Option.bind_eq_bind]
    rw [ih _ { k with VolumeMounts := k.VolumeMounts ++ [legacyMountFor c x] } (by
        simp [Pod.withMounted])]
    simp [Pod.withMounted]

/-- C12: in legacy mode, on a pod with a primary container, `addCredentials`
returns the pod with exactly one volume and one mount on `Containers[0]`
appended per credential, in input order and without grouping: the volume of
the i-th credential is secret-backed with `SecretName` its namespace, `-` and
its name, and its mount has the same volume name and the mount path of the
credential. -/
theorem addCredentials_legacy_one_volume_per_credential (c : Collaborators)
    (credentials : List CredentialReference) (pod : Pod) (k : Container) (ks : List Container)
    (hk : pod.Spec.Containers = k :: ks) :
    addCredentials c credentials pod false
      = some (pod.withMounted k ks (credentials.map (legacyVolumeFor c))
          (credentials.map (legacyMountFor c))) ∧
    (credentials.map (legacyVolumeFor c)).length = credentials.length ∧
    (credentials.map (legacyMountFor c)).length = credentials.length ∧
    ∀ i (hi : i < credentials.length),
      ((credentials.map (legacyVolumeFor c)).get ⟨i, by simpa using hi⟩).VolumeSource
        = VolumeSource.Secret
            ((credentials.get ⟨i, hi⟩).Namespace ++ "-" ++ (credentials.get ⟨i, hi⟩).Name) ∧
      ((credentials.map (legacyMountFor c)).get ⟨i, by simpa using hi⟩).Name
        = ((credentials.map (legacyVolumeFor c)).get ⟨i, by simpa using hi⟩).Name ∧
      ((credentials.map (legacyMountFor c)).get ⟨i, by simpa using hi⟩).MountPath
        = (credentials.get ⟨i, hi⟩).MountPath := by
  refine ⟨?_, by simp, by simp, ?_⟩
  · simp only [addCredentials, Bool.false_eq_true, if_false]
    exact foldlM_addLegacyCredential c credentials pod k ks hk
  · intro i hi
    simp [legacyVolumeFor, legacyMountFor]

theorem addCredentials_legacy_one_volume_per_credential_witness :
    (({ Namespace := "ci-op-1", Spec := { Containers := [{ Name := "test" }] } } : Pod).Spec.Containers
      = [{ Name := "test" }]) ∧
    addCredentials sampleCollaborators
        [ { Namespace := "test-credentials", Name := "red", MountPath := "/tmp/red" },
          { Namespace := "test-credentials", Name := "blue", MountPath := "/tmp/blue" } ]
        { Namespace := "ci-op-1", Spec := { Containers := [{ Name := "test" }] } } false
      = some (({ Namespace := "ci-op-1", Spec := { Containers := [{ Name := "test" }] } }
          : Pod).withMounted { Name := "test" } []
          ([ { Namespace := "test-credentials", Name := "red", MountPath := "/tmp/red" },
             { Namespace := "test-credentials", Name := "blue", MountPath := "/tmp/blue" } ].map
            (legacyVolumeFor sampleCollaborators))
          ([ { Namespace := "test-credentials", Name := "red", MountPath := "/tmp/red" },
             { Namespace := "test-credentials", Name := "blue", MountPath := "/tmp/blue" } ].map
            (legacyMountFor sampleCollaborators))) :=
  ⟨rfl,
   (addCredentials_legacy_one_volume_per_credential sampleCollaborators _ _
      { Name := "test" } [] rfl).1⟩

/-! ### Step parameters -/

/-- C19: for every parameter list and override map, `generateParams` returns
one environment variable per parameter, in input order and with the name of
the parameter, whose value is the entry of the override map for that name when
there is one (even an empty one), otherwise the default of the parameter when
it is non-nil, otherwise the empty string. -/
theorem generateParams_precedence (s : multiStageTestStep) (env : List StepParameter) :
    generateParams s env
      = env.map (fun e => ({ Name := e.Name, Value := parameterValue s.env e } : EnvVar)) ∧
    (generateParams s env).length = env.length ∧
    (generateParams s env).map (fun v => v.Name) = env.map (fun e => e.Name) ∧
    ∀ e ∈ env,
      (∀ v, s.env.lookup e.Name = some v → parameterValue s.env e = v) ∧
      (s.env.lookup e.Name = none → ∀ d, e.Default = some d → parameterValue s.env e = d) ∧
      (s.env.lookup e.Name = none → e.Default = none → parameterValue s.env e = "") := by
  have heq : generateParams s env
      = env.map (fun e => ({ Name := e.Name, Value := parameterValue s.env e } : EnvVar)) := by
    unfold generateParams
    apply List.map_congr_left
    intro e _
    unfold parameterValue
    cases s.env.lookup e.Name <;> cases e.Default <;> rfl
  refine ⟨heq, by simp [heq], by simp [heq], ?_⟩
  intro e _
  refine ⟨?_, ?_, ?_⟩
  · intro v hv; simp [parameterValue, hv]
  · intro hn d hd; simp [parameterValue, hn, hd]
  · intro hn hd; simp [parameterValue, hn, hd]

/-! ### What the later decorators keep -/

theorem Pod.Keeps.refl (pod : Pod) : pod.Keeps pod :=
  ⟨rfl, rfl, rfl, fun _ h => h, fun k ks h => ⟨k, ks, h, fun _ hm => hm⟩⟩

theorem Pod.Keeps.trans {a b d : Pod} (h1 : a.Keeps b) (h2 : b.Keeps d) : a.Keeps d where
  grace := h2.grace.trans h1.grace
  account := h2.account.trans h1.account
  automount := h2.automount.trans h1.automount
  volumes := fun v hv => h2.volumes v (h1.volumes v hv)
  mounts := by
    intro k ks hk
    obtain ⟨k1, ks1, hk1, hm1⟩ := h1.mounts k ks hk
    obtain ⟨k2, ks2, hk2, hm2⟩ := h2.mounts k1 ks1 hk1
    exact ⟨k2, ks2, hk2, fun m hm => hm2 m (hm1 m hm)⟩

theorem updateContainer0_keeps (pod p : Pod) (f : Container → Container)
    (hf : ∀ k : Container, ∀ m ∈ k.VolumeMounts, m ∈ (f k).VolumeMounts)
    (h : updateContainer0 pod f = some p) : pod.Keeps p := by
  unfold updateContainer0 at h
  split at h
  · cases h
  · rename_i k ks hk
    cases h
    exact ⟨rfl, rfl, rfl, fun _ hv => hv, by
      intro k0 ks0 hk0
      rw [hk] at hk0
      cases hk0
      exact ⟨f k, ks, rfl, hf k⟩⟩

theorem addVolumes_keeps (pod : Pod) (vs : List Volume) : pod.Keeps (addVolumes pod vs) :=
  ⟨rfl, rfl, rfl, fun v hv => by simp [addVolumes, hv],
    fun k ks h => ⟨k, ks, h, fun _ hm => hm⟩⟩

theorem addInitContainer_keeps (pod : Pod) (k : Container) :
    pod.Keeps (addInitContainer pod k) :=
  ⟨rfl, rfl, rfl, fun _ hv => hv, fun k0 ks h => ⟨k0, ks, h, fun _ hm => hm⟩⟩

theorem addDshmVolume_keeps (q : Quantity) (pod p : Pod) (h : addDshmVolume q pod = some p) :
    pod.Keeps p := by
  unfold addDshmVolume at h
  exact (addVolumes_keeps pod _).trans (updateContainer0_keeps _ _ _ (fun k m hm => by simp [hm]) h)

theorem addProfile_keeps (c : Collaborators) (name profile : String) (pod p : Pod)
    (h : addProfile c name profile pod = some p) : pod.Keeps p := by
  unfold addProfile at h
  exact (addVolumes_keeps pod _).trans (updateContainer0_keeps _ _ _ (fun k m hm => by simp [hm]) h)

theorem addCliInjector_keeps (c : Collaborators) (imagestream : String) (pod p : Pod)
    (h : addCliInjector c imagestream pod = some p) : pod.Keeps p := by
  unfold addCliInjector at h
  exact ((addVolumes_keeps pod _).trans (addInitContainer_keeps _ _)).trans
    (updateContainer0_keeps _ _ _ (fun k m hm => by simp [hm]) h)

theorem addSharedDirSecret_keeps (c : Collaborators) (secret : String) (pod p : Pod)
    (h : addSharedDirSecret c secret pod = some p) : pod.Keeps p := by
  unfold addSharedDirSecret at h
  exact (addVolumes_keeps pod _).trans (updateContainer0_keeps _ _ _ (fun k m hm => by simp [hm]) h)

theorem addCommandScript_keeps (c : Collaborators) (name : String) (pod p : Pod)
    (h : addCommandScript c name pod = some p) : pod.Keeps p := by
  unfold addCommandScript at h
  exact (addVolumes_keeps pod _).trans (updateContainer0_keeps _ _ _ (fun k m hm => by simp [hm]) h)

theorem addLegacyCredential_keeps (c : Collaborators) (credential : CredentialReference)
    (pod p : Pod) (h : addLegacyCredential c pod credential = some p) : pod.Keeps p := by
  unfold addLegacyCredential at h
  exact (addVolumes_keeps pod _).trans (updateContainer0_keeps _ _ _ (fun k m hm => by simp [hm]) h)

theorem addCSICredentialGroup_keeps (c : Collaborators) (group : List CredentialReference)
    (pod p : Pod) (h : addCSICredentialGroup c pod group = some p) : pod.Keeps p := by
  unfold addCSICredentialGroup at h
  split at h
  · cases h
  · exact (addVolumes_keeps pod _).trans (updateContainer0_keeps _ _ _ (fun k m hm => by simp [hm]) h)

theorem foldlM_keeps {α : Type} (f : Pod → α → Option Pod)
    (hf : ∀ a pod p, f pod a = some p → pod.Keeps p) (l : List α) (pod p : Pod)
    (h : l.foldlM f pod = some p) : pod.Keeps p := by
  induction l generalizing pod with
  | nil =>
    simp only [List.foldlM_nil] at h
    cases h
    exact Pod.Keeps.refl _
  | cons a as ih =>
    rw [List.foldlM_cons] at h
    obtain ⟨p1, h1, h2⟩ := Option.bind_eq_some.mp h
    exact (hf a pod p1 h1).trans (ih p1 h2)

theorem addCredentials_keeps (c : Collaborators) (credentials : List CredentialReference)
    (useCSI : Bool) (pod p : Pod) (h : addCredentials c credentials pod useCSI = some p) :
    pod.Keeps p := by
  unfold addCredentials at h
  split at h
  · exact foldlM_keeps _ (fun e q q1 hq => addCSICredentialGroup_keeps c e.2 q q1 hq) _ _ _ h
  · exact foldlM_keeps _ (fun e q q1 hq => addLegacyCredential_keeps c e q q1 hq) _ _ _ h

theorem setSecurityContexts_keeps (pod : Pod) (root : String) (uid : Int)
    (caps : Option Capabilities) (se : Option SELinuxOptions) :
    pod.Keeps (setSecurityContexts pod root uid caps se) := by
  refine ⟨rfl, rfl, rfl, fun _ hv => hv, ?_⟩
  intro k ks hk
  simp only [setSecurityContexts, setSecurityContextsOn, hk, List.map_cons]
  refine ⟨_, _, rfl, ?_⟩
  intro m hm
  by_cases hn : k.Name = root <;> simpa [hn] using hm

theorem clusterAccess_keeps (c : Collaborators) (s : multiStageTestStep)
    (mounts : List VolumeMount) (needs : Bool) (pod p : Pod) (errs : List Error)
    (h : clusterAccess c s mounts needs pod = some (p, errs)) : pod.Keeps p := by
  unfold clusterAccess at h
  by_cases hcl : s.clusterClaim.isSome = true
  · cases hget : getClusterClaimPodParams c mounts s.name with
    | error err =>
      simp only [hcl, hget, if_true, Option.some.injEq, Prod.mk.injEq] at h
      rw [← h.1]
      exact Pod.Keeps.refl _
    | ok v =>
      simp only [hcl, hget, if_true] at h
      obtain ⟨q, hq, hqp⟩ := Option.map_eq_some'.mp h
      simp only [Prod.mk.injEq] at hqp
      rw [← hqp.1]
      exact updateContainer0_keeps _ _ _ (fun k m hm => by simp [hm]) hq
  · by_cases hn : needs = true
    · simp only [hcl, hn, if_true, Bool.false_eq_true, if_false] at h
      obtain ⟨q, hq, hqp⟩ := Option.map_eq_some'.mp h
      simp only [Prod.mk.injEq] at hqp
      rw [← hqp.1]
      exact updateContainer0_keeps _ _ _ (fun k m hm => by simp [hm]) hq
    · simp only [hcl, hn, Bool.false_eq_true, if_false, Option.some.injEq, Prod.mk.injEq] at h
      rw [← h.1]
      exact Pod.Keeps.refl _

theorem attachResources_shm (c : Collaborators) (s : multiStageTestStep)
    (o : generatePodOptions) (step : LiteralTestStep) (res : ResourceRequirements)
    (cr : Option ClaimRelease) (pod : Pod) :
    attachResources c s o step res cr pod
      = (if res.Requests.Name c.ShmResource ≠ 0 then
          addDshmVolume (res.Requests.Name c.ShmResource) pod
         else some pod).bind (attachResources c s o step {} cr) := by
  have h0 : ∀ q : Pod, attachResources c s o step {} cr q
      = (some q).bind (attachResources c s o step {} cr) := fun q => rfl
  unfold attachResources
  simp only [ResourceList.Name, List.lookup, Option.getD_none, ne_eq, not_true_eq_false,
    if_false]
  rfl

theorem attachResources_noShm_keeps (c : Collaborators) (s : multiStageTestStep)
    (o : generatePodOptions) (step : LiteralTestStep) (cr : Option ClaimRelease) (pod p : Pod)
    (h : attachResources c s o step {} cr pod = some p) : pod.Keeps p := by
  unfold attachResources at h
  simp only [ResourceList.Name, List.lookup, Option.getD_none, ne_eq, not_true_eq_false,
    if_false] at h
  obtain ⟨p1, h1, h⟩ := Option.bind_eq_some.mp h
  obtain ⟨p2, h2, h⟩ := Option.bind_eq_some.mp h
  obtain ⟨p3, h3, h⟩ := Option.bind_eq_some.mp h
  obtain ⟨p4, h4, h⟩ := Option.bind_eq_some.mp h
  obtain ⟨p5, h5, h⟩ := Option.bind_eq_some.mp h
  obtain ⟨p6, h6, h⟩ := Option.bind_eq_some.mp h
  have k1 : pod.Keeps p1 := by cases h1; exact Pod.Keeps.refl _
  have k2 : p1.Keeps p2 := by
    split at h2
    · exact addProfile_keeps c _ _ _ _ h2
    · cases h2; exact Pod.Keeps.refl _
  have k3 : p2.Keeps p3 := by
    split at h3
    · exact addCliInjector_keeps c _ _ _ h3
    · cases h3; exact Pod.Keeps.refl _
  have k4 : p3.Keeps p4 := addSharedDirSecret_keeps c _ _ _ h4
  have k5 : p4.Keeps p5 := addCredentials_keeps c _ _ _ _ h5
  have k6 : p5.Keeps p6 := by
    split at h6
    · exact addCommandScript_keeps c _ _ _ h6
    · cases h6; exact Pod.Keeps.refl _
  have k7 : p6.Keeps p := by
    split at h
    · cases h; exact setSecurityContexts_keeps _ _ _ _ _
    · cases h; exact Pod.Keeps.refl _
  exact ((((((k1.trans k2).trans k3).trans k4).trans k5).trans k6).trans k7)

theorem attachResources_keeps (c : Collaborators) (s : multiStageTestStep)
    (o : generatePodOptions) (step : LiteralTestStep) (res : ResourceRequirements)
    (cr : Option ClaimRelease) (pod p : Pod)
    (h : attachResources c s o step res cr pod = some p) : pod.Keeps p := by
  rw [attachResources_shm] at h
  obtain ⟨p1, h1, h2⟩ := Option.bind_eq_some.mp h
  have k2 := attachResources_noShm_keeps c s o step cr p1 p h2
  split at h1
  · exact (addDshmVolume_keeps _ _ _ h1).trans k2
  · cases h1; exact k2

theorem finishPod_keeps (c : Collaborators) (s : multiStageTestStep)
    (svm : List VolumeMount) (o : generatePodOptions) (cr : Option ClaimRelease)
    (step : LiteralTestStep) (res : ResourceRequirements) (depEnv : List EnvVar)
    (pod p : Pod) (errs : List Error)
    (h : finishPod c s svm o cr step res depEnv pod = some (p, errs)) :
    ∃ p1 p2, pod.Keeps p1 ∧ p1.Keeps p2 ∧ attachResources c s o step res cr p2 = some p := by
  unfold finishPod at h
  cases hu : updateContainer0 pod (fun container =>
      { container with Env := container.Env ++ depEnv }) with
  | none => simp [hu] at h
  | some q =>
    simp only [hu] at h
    have kq : pod.Keeps q := updateContainer0_keeps _ _ _ (fun k m hm => by simpa using hm) hu
    have ko : q.Keeps (match s.jobSpec.Owner with
        | some owner => { q with OwnerReferences := q.OwnerReferences ++ [owner] }
        | none => q) := by
      cases s.jobSpec.Owner with
      | none => exact Pod.Keeps.refl _
      | some owner =>
        exact ⟨rfl, rfl, rfl, fun _ hv => hv, fun k ks hk => ⟨k, ks, hk, fun _ hm => hm⟩⟩
    cases hca : clusterAccess c s svm (isKubeconfigNeeded step o) (match s.jobSpec.Owner with
        | some owner => { q with OwnerReferences := q.OwnerReferences ++ [owner] }
        | none => q) with
    | none => simp [hca] at h
    | some r =>
      obtain ⟨p2, errs2⟩ := r
      simp only [hca] at h
      cases hat : attachResources c s o step res cr p2 with
      | none => simp [hat] at h
      | some p3 =>
        simp only [hat, Option.some.injEq, Prod.mk.injEq] at h
        rw [← h.1]
        exact ⟨_, p2, kq.trans ko, clusterAccess_keeps c s svm _ _ _ _ hca, hat⟩

theorem buildStepPod_some (c : Collaborators) (s : multiStageTestStep) (env : List EnvVar)
    (sv : List Volume) (svm : List VolumeMount) (o : generatePodOptions)
    (cr : Option ClaimRelease) (step : LiteralTestStep) (name image dir : String)
    (grace : Duration) (res allRes : ResourceRequirements) (pod : Pod) (errs : List Error)
    (h : buildStepPod c s env sv svm o cr step name image dir grace res allRes
      = some (some pod, errs)) :
    ∃ pod0 p1, basePodFor c s svm o step name image dir res = Except.ok pod0 ∧
      decoratePod c s env sv o step (terminationGracePeriodSeconds grace) pod0 = some p1 ∧
      finishPod c s svm o cr step allRes (envForDependencies c s step).1 p1
        = some (pod, errs) := by
  unfold buildStepPod at h
  cases hbase : basePodFor c s svm o step name image dir res with
  | error err => simp [hbase] at h
  | ok pod0 =>
    simp only [hbase] at h
    cases hdec : decoratePod c s env sv o step (terminationGracePeriodSeconds grace) pod0 with
    | none => simp [hdec] at h
    | some p1 =>
      simp only [hdec] at h
      by_cases hdeps : (envForDependencies c s step).2.length ≠ 0
      · rw [if_pos hdeps] at h
        simp at h
      · rw [if_neg hdeps] at h
        obtain ⟨built, hb, hbe⟩ := Option.map_eq_some'.mp h
        obtain ⟨b1, b2⟩ := built
        simp only [Prod.mk.injEq, Option.some.injEq] at hbe
        rw [← hbe.1, ← hbe.2]
        exact ⟨pod0, p1, rfl, hdec, hb⟩

theorem addSecretWrapper_keeps (c : Collaborators) (vpn : Option vpnConf) (skip : Bool)
    (o : generatePodOptions) (pod p : Pod) (h : addSecretWrapper c pod vpn skip o = some p) :
    pod.Keeps p := by
  unfold addSecretWrapper at h
  exact ((addVolumes_keeps pod _).trans (addInitContainer_keeps _ _)).trans
    (updateContainer0_keeps _ _ _ (fun k m hm => by simp [hm]) h)

theorem appendContainer_keeps (pod : Pod) (k0 : Container) :
    pod.Keeps { pod with Spec := { pod.Spec with Containers := pod.Spec.Containers ++ [k0] } } :=
  ⟨rfl, rfl, rfl, fun _ hv => hv,
    fun k ks hk => ⟨k, ks ++ [k0], by simp [hk], fun _ hm => hm⟩⟩

theorem addVPNClient_keeps (vpn : vpnConf) (pod p : Pod) (h : addVPNClient vpn pod = some p) :
    pod.Keeps p := by
  unfold addVPNClient at h
  exact (((appendContainer_keeps pod _).trans (addVolumes_keeps _ _)).trans
    (addVolumes_keeps _ _)).trans
    (updateContainer0_keeps _ _ _ (fun k m hm => by simp [hm]) h)

theorem decoratePod_spec (c : Collaborators) (s : multiStageTestStep) (env : List EnvVar)
    (sv : List Volume) (o : generatePodOptions) (step : LiteralTestStep) (grace : Int)
    (pod p : Pod) (h : decoratePod c s env sv o step grace pod = some p) :
    p.Spec.TerminationGracePeriodSeconds = some grace ∧
    (isKubeconfigNeeded step o = true → p.Spec.ServiceAccountName = s.name) ∧
    (isKubeconfigNeeded step o = false →
      p.Spec.ServiceAccountName = "" ∧ p.Spec.AutomountServiceAccountToken = some false) := by
  unfold decoratePod at h
  obtain ⟨p1, h1, h⟩ := Option.bind_eq_some.mp h
  obtain ⟨p2, h2, h⟩ := Option.bind_eq_some.mp h
  obtain ⟨p3, h3, h⟩ := Option.bind_eq_some.mp h
  obtain ⟨p4, h4, h⟩ := Option.bind_eq_some.mp h
  have k1 := addSecretWrapper_keeps c _ _ _ _ _ h1
  have k2 : p1.Keeps p2 := by
    cases hv : s.vpnConf with
    | none => rw [hv] at h2; cases h2; exact Pod.Keeps.refl _
    | some vpn => rw [hv] at h2; exact addVPNClient_keeps vpn _ _ h2
  have k3 := updateContainer0_keeps _ _ _ (fun k m hm => by simpa using hm) h3
  have k4 := updateContainer0_keeps _ _ _ (fun k m hm => by simpa using hm) h4
  have k5 := updateContainer0_keeps _ _ _ (fun k m hm => by simpa using hm) h
  have k := (((k1.trans k2).trans k3).trans k4).trans k5
  refine ⟨?_, ?_, ?_⟩
  · rw [k.grace]
    simp only [addVolumes]
    split <;> split <;> split <;> (try split) <;> rfl
  · intro hn
    rw [k.account]
    simp only [addVolumes, hn, if_true]
    split <;> split <;> (try split) <;> rfl
  · intro hn
    rw [k.account, k.automount]
    simp only [addVolumes, hn, Bool.false_eq_true, if_false]
    split <;> split <;> (try split) <;> exact ⟨rfl, rfl⟩

/-! ### Every emitted pod comes from a step -/

theorem contributions_pod_origin (c : Collaborators) (s : multiStageTestStep)
    (env : List EnvVar) (sv : List Volume) (svm : List VolumeMount) (o : generatePodOptions)
    (steps : List LiteralTestStep) (d : List Pod × List Error × Finset String)
    (hd : contributions c s env sv svm o steps = some d) (pod : Pod) (hp : pod ∈ d.1) :
    ∃ step ∈ steps, ∃ res errs, skipsStep c s step = false ∧
      c.ResourcesFor step.Resources = Except.ok res ∧
      stepBuild c s env sv svm o step res = some (some pod, errs) := by
  induction steps generalizing d with
  | nil =>
    simp only [contributions, Option.some.injEq] at hd
    subst hd
    simp at hp
  | cons x xs ih =>
    rw [contributions_cons] at hd
    cases hx : stepContribution c s env sv svm o x with
    | none => simp [hx] at hd
    | some d1 =>
      cases hxs : contributions c s env sv svm o xs with
      | none => simp [hx, hxs] at hd
      | some ds =>
        simp only [hx, hxs, Option.some.injEq] at hd
        subst hd
        rcases List.mem_append.mp hp with h1 | h2
        · refine ⟨x, by simp, ?_⟩
          by_cases hskip : skipsStep c s x = true
          · rw [stepContribution_skip c s env sv svm o x hskip] at hx
            cases hx
            simp at h1
          · have hskip : skipsStep c s x = false := by simpa using hskip
            cases hres : c.ResourcesFor x.Resources with
            | error err =>
              rw [stepContribution_resources_error c s env sv svm o x hskip err hres] at hx
              cases hx
              simp at h1
            | ok res =>
              rw [stepContribution_build c s env sv svm o x hskip res hres] at hx
              obtain ⟨built, hb, hbe⟩ := Option.map_eq_some'.mp hx
              obtain ⟨b1, b2⟩ := built
              subst hbe
              cases b1 with
              | none => simp at h1
              | some q =>
                simp only [Option.toList, List.mem_singleton] at h1
                subst h1
                exact ⟨res, b2, hskip, rfl, hb⟩
        · obtain ⟨step, hstep, hrest⟩ := ih ds hxs h2
          exact ⟨step, by simp [hstep], hrest⟩

theorem generatePods_pod_origin (c : Collaborators) (s : multiStageTestStep)
    (steps : List LiteralTestStep) (env : List EnvVar) (sv : List Volume)
    (svm : List VolumeMount) (o : Option generatePodOptions) (r : PodsResult)
    (h : generatePods c s steps env sv svm o = some r) (pod : Pod) (hp : pod ∈ r.pods) :
    ∃ step ∈ steps, ∃ res errs, skipsStep c s step = false ∧
      c.ResourcesFor step.Resources = Except.ok res ∧
      stepBuild c s env sv svm (o.getD defaultGeneratePodOptions) step res
        = some (some pod, errs) := by
  rw [generatePods_eq] at h
  obtain ⟨d, hd, hr⟩ := Option.map_eq_some'.mp h
  subst hr
  exact contributions_pod_origin c s env sv svm _ steps d hd pod hp

theorem addDshmVolume_adds (q : Quantity) (pod p : Pod) (h : addDshmVolume q pod = some p) :
    dshmVolume q ∈ p.Spec.Volumes ∧
    ∃ k ks, p.Spec.Containers = k :: ks ∧ dshmMount ∈ k.VolumeMounts := by
  unfold addDshmVolume at h
  simp only [updateContainer0, addVolumes] at h
  split at h
  · cases h
  · cases h
    exact ⟨by simp [dshmVolume], _, _, rfl, by simp [dshmMount]⟩

theorem stepBuild_pod_facts (c : Collaborators) (s : multiStageTestStep) (env : List EnvVar)
    (sv : List Volume) (svm : List VolumeMount) (o : generatePodOptions)
    (step : LiteralTestStep) (res : ResourceRequirements) (pod : Pod) (errs : List Error)
    (h : stepBuild c s env sv svm o step res = some (some pod, errs)) :
    (∃ pod0, stepBasePod c s svm o step res = Except.ok pod0) ∧
    pod.Spec.TerminationGracePeriodSeconds
      = some (terminationGracePeriodSeconds (stepGracePeriod c step)) ∧
    (isKubeconfigNeeded step o = true → pod.Spec.ServiceAccountName = s.name) ∧
    (isKubeconfigNeeded step o = false →
      pod.Spec.ServiceAccountName = "" ∧ pod.Spec.AutomountServiceAccountToken = some false) ∧
    (res.Requests.Name c.ShmResource ≠ 0 →
      dshmVolume (res.Requests.Name c.ShmResource) ∈ pod.Spec.Volumes ∧
      ∃ k ks, pod.Spec.Containers = k :: ks ∧ dshmMount ∈ k.VolumeMounts) := by
  unfold stepBuild at h
  obtain ⟨pod0, p1, hbase, hdec, hfin⟩ := buildStepPod_some _ _ _ _ _ _ _ _ _ _ _ _ _ _ _ _ h
  obtain ⟨pa, p2, ka, kb, hat⟩ := finishPod_keeps _ _ _ _ _ _ _ _ _ _ _ hfin
  have kc := attachResources_keeps _ _ _ _ _ _ _ _ hat
  have k := (ka.trans kb).trans kc
  obtain ⟨hg, hacc1, hacc2⟩ := decoratePod_spec _ _ _ _ _ _ _ _ _ hdec
  refine ⟨⟨pod0, hbase⟩, by rw [k.grace, hg], ?_, ?_, ?_⟩
  · intro hn
    rw [k.account, hacc1 hn]
    rfl
  · intro hn
    rw [k.account, k.automount]
    exact hacc2 hn
  · intro hshm
    rw [attachResources_shm, if_pos hshm] at hat
    obtain ⟨p3, h3, h4⟩ := Option.bind_eq_some.mp hat
    obtain ⟨hv, k3, ks3, hk3, hm3⟩ := addDshmVolume_adds _ _ _ h3
    have k4 := attachResources_noShm_keeps _ _ _ _ _ _ _ h4
    obtain ⟨k5, ks5, hk5, hm5⟩ := k4.mounts k3 ks3 hk3
    exact ⟨k4.volumes _ hv, k5, ks5, hk5, hm5 _ hm3⟩

/-! ### Shared memory, grace period, kubeconfig -/

theorem mapDelete_no_key {α : Type} (m : List (String × α)) (k : String) :
    ∀ e ∈ mapDelete m k, e.1 ≠ k := by
  intro e he
  simp only [mapDelete, List.mem_filter, bne_iff_ne, ne_eq] at he
  exact he.2

theorem stripShm_spec (c : Collaborators) (res : ResourceRequirements) :
    (res.Requests.Name c.ShmResource ≠ 0 →
      (∀ e ∈ (stripShm c res).Requests, e.1 ≠ c.ShmResource) ∧
      (∀ e ∈ (stripShm c res).Limits, e.1 ≠ c.ShmResource)) ∧
    (res.Requests.Name c.ShmResource = 0 → stripShm c res = res) := by
  constructor
  · intro h
    simp only [stripShm, h, ne_eq, not_false_eq_true, if_true]
    exact ⟨mapDelete_no_key _ _, mapDelete_no_key _ _⟩
  · intro h
    simp [stripShm, h]

theorem sample_single_pod (s : multiStageTestStep) (step : LiteralTestStep)
    (hskip : skipsStep sampleCollaborators s step = false) (hdeps : step.Dependencies = []) :
    ∃ r pod res errs,
      generatePods sampleCollaborators s [step] [] [] [] none = some r ∧ r.pods = [pod] ∧
      stepBuild sampleCollaborators s [] [] [] defaultGeneratePodOptions step res
        = some (some pod, errs) := by
  obtain ⟨r, ra, rb, r1, pod, hr, hra, hrb, -, -, hpods, -⟩ :=
    generatePods_reaching_step sampleCollaborators sampleCollaborators_wellBehaved s
      [] [] step [] [] [] none (sample_reaches s [] _ step hskip hdeps)
  rw [generatePods_nil] at hra hrb
  cases hra
  cases hrb
  have hp : r.pods = [pod] := by simpa using hpods
  obtain ⟨step1, hstep1, res, errs, -, -, hb⟩ :=
    generatePods_pod_origin sampleCollaborators s [step] [] [] [] none r hr pod (by simp [hp])
  simp only [List.mem_singleton] at hstep1
  subst hstep1
  exact ⟨r, pod, res, errs, hr, hp, hb⟩

/-- C18, where the code departs from it: the termination grace period is the
grace period in seconds times 5/4 truncated, which for 1, 2 and 3 seconds is
1, 2 and 3 seconds, not more, and for half a second is 0; the pod emitted for
a step with a grace period of one second has `TerminationGracePeriodSeconds`
equal to 1. -/
theorem terminationGracePeriod_not_larger :
    terminationGracePeriodSeconds (1 * Second) = 1 ∧
    terminationGracePeriodSeconds (2 * Second) = 2 ∧
    terminationGracePeriodSeconds (3 * Second) = 3 ∧
    terminationGracePeriodSeconds (Second / 2) = 0 ∧
    terminationGracePeriodSeconds (4 * Second) = 5 ∧
    ∃ r pod,
      generatePods sampleCollaborators { name := "e2e" }
        [{ As := "test", GracePeriod := some (1 * Second) }] [] [] [] none = some r ∧
      r.pods = [pod] ∧ pod.Spec.TerminationGracePeriodSeconds = some 1 := by
  refine ⟨by decide, by decide, by decide, by decide, by decide, ?_⟩
  obtain ⟨r, pod, res, errs, hr, hp, hb⟩ := sample_single_pod { name := "e2e" }
    { As := "test", GracePeriod := some (1 * Second) } (by decide) rfl
  obtain ⟨-, hg, -⟩ := stepBuild_pod_facts _ _ _ _ _ _ _ _ _ _ hb
  refine ⟨r, pod, hr, hp, ?_⟩
  rw [hg]
  decide

theorem isKubeconfigNeeded_false_iff (step : LiteralTestStep) (opts : generatePodOptions) :
    isKubeconfigNeeded step opts = false ↔
      step.NoKubeconfig = some true ∧ opts.IsObserver = false := by
  unfold isKubeconfigNeeded
  cases hn : step.NoKubeconfig with
  | none => simp
  | some b => cases b <;> simp

/-! ### Grouping -/

theorem firstSeen_snoc (keys : List String) (k : String) :
    firstSeen (keys ++ [k])
      = if k ∈ firstSeen keys then firstSeen keys else firstSeen keys ++ [k] := by
  simp [firstSeen, List.foldl_append]

theorem mem_firstSeen (keys : List String) (k : String) : k ∈ firstSeen keys ↔ k ∈ keys := by
  induction keys using List.reverseRecOn with
  | nil => simp [firstSeen]
  | append_singleton ks x ih =>
    rw [firstSeen_snoc]
    by_cases hx : x ∈ firstSeen ks
    · rw [if_pos hx]
      constructor
      · intro h; exact List.mem_append_left _ (ih.mp h)
      · intro h
        rcases List.mem_append.mp h with h | h
        · exact ih.mpr h
        · simp only [List.mem_singleton] at h
          rw [h]; exact hx
    · rw [if_neg hx]
      simp [ih]

theorem firstSeen_nodup (keys : List String) : (firstSeen keys).Nodup := by
  induction keys using List.reverseRecOn with
  | nil => simp [firstSeen]
  | append_singleton ks x ih =>
    rw [firstSeen_snoc]
    by_cases hx : x ∈ firstSeen ks
    · rw [if_pos hx]; exact ih
    · rw [if_neg hx]
      exact List.Nodup.append ih (by simp) (by
        intro a ha hb
        simp only [List.mem_singleton] at hb
        exact hx (hb ▸ ha))

theorem lookup_map_key {α : Type} (keys : List String) (f : String → α) (k : String) :
    (keys.map fun x => (x, f x)).lookup k = if k ∈ keys then some (f k) else none := by
  induction keys with
  | nil => simp
  | cons x xs ih =>
    simp only [List.map_cons, List.lookup_cons, List.mem_cons]
    by_cases hk : k = x
    · subst hk; simp
    · have hb : (k == x) = false := by simpa using hk
      rw [hb, ih]
      simp [hk]

theorem any_map_key {α : Type} (keys : List String) (f : String → α) (k : String) :
    (keys.map fun x => (x, f x)).any (fun e => e.1 == k) = decide (k ∈ keys) := by
  induction keys with
  | nil => simp
  | cons x xs ih =>
    simp only [List.map_cons, List.any_cons, ih]
    by_cases hk : k = x
    · subst hk; simp
    · have hb : (x == k) = false := by simpa using fun h => hk h.symm
      simp [hb, hk]

theorem groupCredentials_snoc (credentials : List CredentialReference)
    (x : CredentialReference) :
    groupCredentialsByCollectionAndMountPath (credentials ++ [x])
      = mapSet (groupCredentialsByCollectionAndMountPath credentials) (credentialKey x)
          (((groupCredentialsByCollectionAndMountPath credentials).lookup
            (credentialKey x)).getD [] ++ [x]) := by
  simp [groupCredentialsByCollectionAndMountPath, List.foldl_append, credentialKey]

theorem groupCredentials_eq_expected (credentials : List CredentialReference) :
    groupCredentialsByCollectionAndMountPath credentials = expectedGroups credentials := by
  induction credentials using List.reverseRecOn with
  | nil => simp [groupCredentialsByCollectionAndMountPath, expectedGroups, firstSeen]
  | append_singleton l x ih =>
    rw [groupCredentials_snoc, ih]
    unfold expectedGroups
    rw [List.map_append, List.map_singleton, firstSeen_snoc]
    simp only [mapSet, any_map_key, lookup_map_key]
    by_cases hx : credentialKey x ∈ firstSeen (l.map credentialKey)
    · simp only [hx, decide_True, if_true, Option.getD_some, List.map_map]
      apply List.map_congr_left
      intro k hk
      by_cases hkx : k = credentialKey x
      · subst hkx
        simp [List.filter_append]
      · have hkx2 : ¬ credentialKey x = k := fun h => hkx h.symm
        simp [hkx, hkx2, List.filter_append]
    · have hnot : ∀ a ∈ l, ¬ credentialKey a = credentialKey x := by
        intro a ha hax
        apply hx
        rw [mem_firstSeen, ← hax]
        exact List.mem_map_of_mem _ ha
      simp only [hx, decide_False, Bool.false_eq_true, if_false, Option.getD_none,
        List.map_append, List.map_singleton, List.nil_append]
      congr 1
      · apply List.map_congr_left
        intro k hk
        have hkx : ¬ credentialKey x = k := fun h => hx (h ▸ hk)
        simp [List.filter_append, hkx]
      · have hnil : l.filter (fun credential => credentialKey credential = credentialKey x) = [] := by
          rw [List.filter_eq_nil_iff]
          intro a ha
          simpa using hnot a ha
        simp [List.filter_append, hnil]

theorem append_colon_inj (l1 l2 m1 m2 : List Char) (h1 : ':' ∉ l1) (h2 : ':' ∉ l2)
    (h : l1 ++ ':' :: m1 = l2 ++ ':' :: m2) : l1 = l2 ∧ m1 = m2 := by
  induction l1 generalizing l2 with
  | nil =>
    cases l2 with
    | nil => simpa using h
    | cons b bs =>
      simp only [List.nil_append, List.cons_append, List.cons.injEq] at h
      exact absurd (by rw [← h.1]; simp) h2
  | cons a as ih =>
    cases l2 with
    | nil =>
      simp only [List.nil_append, List.cons_append, List.cons.injEq] at h
      exact absurd (by rw [h.1]; simp) h1
    | cons b bs =>
      simp only [List.cons_append, List.cons.injEq] at h
      have := ih bs (fun hm => h1 (List.mem_cons_of_mem _ hm))
        (fun hm => h2 (List.mem_cons_of_mem _ hm)) h.2
      exact ⟨by rw [h.1, this.1], this.2⟩

theorem credentialKey_inj (a b : CredentialReference) (ha : ':' ∉ a.Collection.toList)
    (hb : ':' ∉ b.Collection.toList) (h : credentialKey a = credentialKey b) :
    a.Collection = b.Collection ∧ a.MountPath = b.MountPath := by
  have hd := congrArg String.data h
  simp only [credentialKey, String.data_append] at hd
  simp only [List.append_assoc, List.singleton_append] at hd
  obtain ⟨h1, h2⟩ := append_colon_inj _ _ _ _ ha hb hd
  exact ⟨String.ext h1, String.ext h2⟩

theorem mem_expectedGroups (credentials : List CredentialReference)
    (e : String × List CredentialReference) :
    e ∈ expectedGroups credentials ↔
      (∃ credential ∈ credentials, credentialKey credential = e.1) ∧
      e.2 = credentials.filter (fun credential => credentialKey credential = e.1) := by
  unfold expectedGroups
  simp only [List.mem_map, mem_firstSeen]
  constructor
  · rintro ⟨k, ⟨credential, hc, hk⟩, rfl⟩
    exact ⟨⟨credential, hc, hk⟩, rfl⟩
  · rintro ⟨⟨credential, hc, hk⟩, h2⟩
    refine ⟨e.1, ⟨credential, hc, hk⟩, ?_⟩
    rw [← h2]

theorem expectedGroups_keys_nodup (credentials : List CredentialReference) :
    ((expectedGroups credentials).map Prod.fst).Nodup := by
  unfold expectedGroups
  rw [List.map_map]
  have : (Prod.fst ∘ fun k =>
      (k, credentials.filter fun credential => credentialKey credential = k)) = id := rfl
  rw [this, List.map_id]
  exact firstSeen_nodup _

/-- C13, as stated, fails: the credentials of the two pairs
(`a:b`, `c`) and (`a`, `b:c`) have the same key `a:b:c`, so the mapping has one
entry for two distinct pairs, and that entry holds credentials of both. -/
theorem groupCredentials_key_collision_counterexample :
    groupCredentialsByCollectionAndMountPath
        [ { Name := "x", Collection := "a:b", MountPath := "c" },
          { Name := "y", Collection := "a", MountPath := "b:c" } ]
      = [("a:b:c", [ { Name := "x", Collection := "a:b", MountPath := "c" },
                     { Name := "y", Collection := "a", MountPath := "b:c" } ])] := by
  decide

/-- C13, amended: for every credential list in which no collection contains a
colon, `groupCredentialsByCollectionAndMountPath` returns a mapping with
pairwise distinct keys that has, for every (collection, mountPath) pair of the
input, an entry keyed `collection:mountPath` holding exactly the credentials
with that pair, in input order, and no other entry; a credential is in
the entry of its own pair only; the empty list yields the empty mapping. -/
theorem groupCredentials_one_entry_per_pair (credentials : List CredentialReference)
    (hcolon : ∀ credential ∈ credentials, ':' ∉ credential.Collection.toList) :
    let groups := groupCredentialsByCollectionAndMountPath credentials
    (groups.map Prod.fst).Nodup ∧
    (∀ credential ∈ credentials,
      (credential.Collection ++ ":" ++ credential.MountPath,
        credentials.filter fun x =>
          x.Collection = credential.Collection ∧ x.MountPath = credential.MountPath) ∈ groups) ∧
    (∀ e ∈ groups, ∃ credential ∈ credentials,
      e = (credential.Collection ++ ":" ++ credential.MountPath,
        credentials.filter fun x =>
          x.Collection = credential.Collection ∧ x.MountPath = credential.MountPath)) ∧
    (∀ credential ∈ credentials, ∀ e ∈ groups, credential ∈ e.2 →
      e.1 = credential.Collection ++ ":" ++ credential.MountPath) ∧
    groupCredentialsByCollectionAndMountPath [] = [] := by
  intro groups
  have hgroups : groups = expectedGroups credentials := groupCredentials_eq_expected credentials
  have hfilter : ∀ credential ∈ credentials,
      credentials.filter (fun x => credentialKey x = credentialKey credential)
        = credentials.filter (fun x =>
            x.Collection = credential.Collection ∧ x.MountPath = credential.MountPath) := by
    intro credential hc
    apply List.filter_congr
    intro x hx
    have hiff : credentialKey x = credentialKey credential ↔
        (x.Collection = credential.Collection ∧ x.MountPath = credential.MountPath) := by
      constructor
      · exact credentialKey_inj x credential (hcolon x hx) (hcolon credential hc)
      · intro h; simp [credentialKey, h.1, h.2]
    simp [hiff]
  refine ⟨?_, ?_, ?_, ?_, rfl⟩
  · rw [hgroups]; exact expectedGroups_keys_nodup credentials
  · intro credential hc
    rw [hgroups, mem_expectedGroups]
    exact ⟨⟨credential, hc, rfl⟩, (hfilter credential hc).symm⟩
  · intro e he
    rw [hgroups, mem_expectedGroups] at he
    obtain ⟨⟨credential, hc, hk⟩, h2⟩ := he
    refine ⟨credential, hc, ?_⟩
    rw [← hfilter credential hc, hk, ← h2]
    exact Prod.ext hk.symm rfl
  · intro credential hc e he hmem
    rw [hgroups, mem_expectedGroups] at he
    rw [he.2] at hmem
    simp only [List.mem_filter, decide_eq_true_eq] at hmem
    exact hmem.2.symm

theorem groupCredentials_one_entry_per_pair_witness :
    (∀ credential ∈ ([ { Name := "red", Collection := "colours", MountPath := "/tmp/path" },
        { Name := "blue", Collection := "colours", MountPath := "/tmp/path" },
        { Name := "circle", Collection := "shapes", MountPath := "/tmp/path" },
        { Name := "square", Collection := "shapes", MountPath := "/tmp/other" } ]
        : List CredentialReference), ':' ∉ credential.Collection.toList) ∧
    ((groupCredentialsByCollectionAndMountPath
        [ { Name := "red", Collection := "colours", MountPath := "/tmp/path" },
          { Name := "blue", Collection := "colours", MountPath := "/tmp/path" },
          { Name := "circle", Collection := "shapes", MountPath := "/tmp/path" },
          { Name := "square", Collection := "shapes", MountPath := "/tmp/other" } ]).map
      Prod.fst).Nodup :=
  ⟨by decide,
   (groupCredentials_one_entry_per_pair _ (by decide)).1⟩

/-- C11, as stated, fails: `addCredentials` ranges over a map, and when the
range visits the two groups of this input in the order opposite to their first
occurrence, the volumes and mounts are appended in that opposite order. -/
theorem addCredentials_csi_order_counterexample :
    (∀ m, (sampleReversedRange.rangeMap m).Perm m) ∧
    (groupCredentialsByCollectionAndMountPath
        [ { Name := "red", Collection := "colours", MountPath := "/tmp/path" },
          { Name := "circle", Collection := "shapes", MountPath := "/tmp/path" } ]).map Prod.fst
      = ["colours:/tmp/path", "shapes:/tmp/path"] ∧
    (addCredentials sampleReversedRange
        [ { Name := "red", Collection := "colours", MountPath := "/tmp/path" },
          { Name := "circle", Collection := "shapes", MountPath := "/tmp/path" } ]
        { Namespace := "ci-op-1", Spec := { Containers := [{ Name := "test" }] } } true).map
        (fun p => (p.Spec.Volumes.map fun v => v.Name,
          p.Spec.Containers.map fun k => k.VolumeMounts.map fun m => m.MountPath))
      = some (["ci-op-1-shapes/tmp/path", "ci-op-1-colours/tmp/path"],
          [["/tmp/path", "/tmp/path"]]) := by
  refine ⟨fun m => List.reverse_perm m, by decide, by decide⟩

/-- C11, amended: for every credential list the groups are keyed in
first-seen order of the keys `collection:mountPath`, with the members of each
group in input order; in CSI mode `addCredentials` appends the volumes and
mounts of the groups in the order in which the range over the group map visits
them, which is a permutation of the first-seen order and is the first-seen
order when the range visits the map in that order. -/
theorem addCredentials_csi_order_of_range (c : Collaborators)
    (hrange : ∀ m, (c.rangeMap m).Perm m)
    (credentials : List CredentialReference) (pod : Pod) (k : Container) (ks : List Container)
    (hk : pod.Spec.Containers = k :: ks) :
    let groups := groupCredentialsByCollectionAndMountPath credentials
    let visited := (c.rangeMap groups).map Prod.snd
    groups = (firstSeen (credentials.map credentialKey)).map (fun key =>
      (key, credentials.filter fun credential => credentialKey credential = key)) ∧
    addCredentials c credentials pod true
      = some (pod.withMounted k ks (visited.map (csiVolumeFor c pod.Namespace))
          (visited.map (csiMountFor c pod.Namespace))) ∧
    visited.Perm (groups.map Prod.snd) ∧
    (c.rangeMap groups = groups →
      addCredentials c credentials pod true
        = some (pod.withMounted k ks
            ((groups.map Prod.snd).map (csiVolumeFor c pod.Namespace))
            ((groups.map Prod.snd).map (csiMountFor c pod.Namespace)))) := by
  intro groups visited
  have hp := hrange groups
  have hne : ∀ e ∈ c.rangeMap groups, e.2 ≠ [] :=
    fun e he => groupCredentials_nonempty credentials e (hp.mem_iff.mp he)
  have hadd : addCredentials c credentials pod true
      = some (pod.withMounted k ks (visited.map (csiVolumeFor c pod.Namespace))
          (visited.map (csiMountFor c pod.Namespace))) := by
    simp only [addCredentials, if_true]
    exact foldlM_addCSICredentialGroup c _ hne pod k ks hk
  refine ⟨groupCredentials_eq_expected credentials, hadd, hp.map _, ?_⟩
  intro hid
  rw [hadd]
  simp only [visited, hid]

theorem addCredentials_csi_order_of_range_witness :
    (∀ m, (sampleCollaborators.rangeMap m).Perm m) ∧
    (({ Namespace := "ci-op-1", Spec := { Containers := [{ Name := "test" }] } } : Pod).Spec.Containers
      = [{ Name := "test" }]) ∧
    ((sampleCollaborators.rangeMap (groupCredentialsByCollectionAndMountPath
        [ { Name := "red", Collection := "colours", MountPath := "/tmp/path" },
          { Name := "circle", Collection := "shapes", MountPath := "/tmp/path" } ])).map
        Prod.snd).Perm
      ((groupCredentialsByCollectionAndMountPath
        [ { Name := "red", Collection := "colours", MountPath := "/tmp/path" },
          { Name := "circle", Collection := "shapes", MountPath := "/tmp/path" } ]).map
        Prod.snd) :=
  ⟨fun m => List.Perm.refl m, rfl,
   (addCredentials_csi_order_of_range sampleCollaborators (fun m => List.Perm.refl m)
      [ { Name := "red", Collection := "colours", MountPath := "/tmp/path" },
        { Name := "circle", Collection := "shapes", MountPath := "/tmp/path" } ]
      { Namespace := "ci-op-1", Spec := { Containers := [{ Name := "test" }] } }
      { Name := "test" } [] rfl).2.2.1⟩


theorem hexString_length (width n : Nat) : (hexString width n).length = width := by
  induction width generalizing n with
  | zero => rfl
  | succ w ih => simp [hexString, ih]

theorem digitChar_mem_hexChars : ∀ k : Fin 16, Nat.digitChar k.val ∈ hexChars := by
  decide

theorem digitChar_inj : ∀ a b : Fin 16, Nat.digitChar a.val = Nat.digitChar b.val → a = b := by
  decide

theorem hexString_mem (width n : Nat) : ∀ ch ∈ hexString width n, ch ∈ hexChars := by
  induction width generalizing n with
  | zero => intro ch h; simp [hexString] at h
  | succ w ih =>
    intro ch h
    simp only [hexString, List.mem_append, List.mem_singleton] at h
    rcases h with h | h
    · exact ih _ ch h
    · rw [h]; exact digitChar_mem_hexChars ⟨n % 16, Nat.mod_lt _ (by decide)⟩

theorem hexString_inj (width : Nat) : ∀ a b : Nat, a < 16 ^ width → b < 16 ^ width →
    hexString width a = hexString width b → a = b := by
  induction width with
  | zero => intro a b ha hb _; simp at ha hb; omega
  | succ w ih =>
    intro a b ha hb h
    simp only [hexString] at h
    have hlen : (hexString w (a / 16)).length = (hexString w (b / 16)).length := by
      rw [hexString_length, hexString_length]
    obtain ⟨h1, h2⟩ := List.append_inj h hlen
    have hq : a / 16 = b / 16 := by
      apply ih _ _ _ _ h1
      · rw [pow_succ] at ha; omega
      · rw [pow_succ] at hb; omega
    have hr : a % 16 = b % 16 := by
      have := digitChar_inj ⟨a % 16, Nat.mod_lt _ (by decide)⟩ ⟨b % 16, Nat.mod_lt _ (by decide)⟩
        (by simpa using h2)
      simpa using congrArg Fin.val this
    omega

theorem hexDigits_length (width digest : Nat) : (hexDigits width digest).length = width := by
  simp [hexDigits, String.length, hexString_length]

theorem hexDigits_mem (width digest : Nat) :
    ∀ ch ∈ (hexDigits width digest).toList, ch ∈ hexChars := by
  intro ch h
  exact hexString_mem _ _ ch (by simpa [hexDigits] using h)

theorem hexDigits_inj (width a b : Nat) (h : hexDigits width a = hexDigits width b) :
    a / 16 ^ (64 - width) % 16 ^ width = b / 16 ^ (64 - width) % 16 ^ width := by
  exact hexString_inj width _ _ (Nat.mod_lt _ (by positivity)) (Nat.mod_lt _ (by positivity))
    (congrArg String.data h)

theorem toLower_length (s : String) : (toLower s).length = s.length := by
  show (s.toList.map Char.toLower).length = s.toList.length
  rw [List.length_map]

theorem generatedName_cases (digest : String → Nat) (suffix ns key : String) :
    (ns.length + 17 + suffix.length ≤ 63 ∧
      generatedName digest suffix ns key
        = toLower ns ++ "-" ++ hexDigits 16 (digest key) ++ suffix) ∨
    (63 < ns.length + 17 + suffix.length ∧
      generatedName digest suffix ns key = hexDigits 32 (digest key)) := by
  have hlen : (toLower ns ++ "-" ++ hexDigits 16 (digest key) ++ suffix).length
      = ns.length + 17 + suffix.length := by
    simp only [String.length_append, toLower_length, hexDigits_length]
    rfl
  unfold generatedName
  simp only [hlen, nameLimit]
  by_cases h : ns.length + 17 + suffix.length ≤ 63
  · exact Or.inl ⟨h, by rw [if_pos h]⟩
  · exact Or.inr ⟨by omega, by rw [if_neg h]⟩

theorem generatedName_length_le (digest : String → Nat) (suffix ns key : String) :
    (generatedName digest suffix ns key).length ≤ 63 := by
  rcases generatedName_cases digest suffix ns key with ⟨h, e⟩ | ⟨_, e⟩
  · rw [e]
    simp only [String.length_append, toLower_length, hexDigits_length]
    have : "-".length = 1 := rfl
    omega
  · rw [e, hexDigits_length]; decide

theorem generatedName_eq_of_digits (digest : String → Nat) (suffix ns key1 key2 : String)
    (h16 : digest key1 / 16 ^ 48 % 16 ^ 16 = digest key2 / 16 ^ 48 % 16 ^ 16)
    (h32 : digest key1 / 16 ^ 32 % 16 ^ 32 = digest key2 / 16 ^ 32 % 16 ^ 32) :
    generatedName digest suffix ns key1 = generatedName digest suffix ns key2 := by
  have e16 : hexDigits 16 (digest key1) = hexDigits 16 (digest key2) := by
    simp only [hexDigits, Nat.reduceSub, h16]
  have e32 : hexDigits 32 (digest key1) = hexDigits 32 (digest key2) := by
    simp only [hexDigits, Nat.reduceSub, h32]
  simp only [generatedName, e16, e32]

/-- Any infinite family of canonical strings has two members with the same
generated name: the name keeps finitely many digits of the digest. -/
theorem generatedName_collision (digest : String → Nat) (suffix ns : String)
    (keys : Nat → String) :
    ∃ i j, i ≠ j ∧
      generatedName digest suffix ns (keys i) = generatedName digest suffix ns (keys j) := by
  let g : Nat → Fin (16 ^ 16) × Fin (16 ^ 32) := fun i =>
    (⟨digest (keys i) / 16 ^ 48 % 16 ^ 16, Nat.mod_lt _ (by positivity)⟩,
     ⟨digest (keys i) / 16 ^ 32 % 16 ^ 32, Nat.mod_lt _ (by positivity)⟩)
  obtain ⟨i, j, hne, heq⟩ := Finite.exists_ne_map_eq_of_infinite g
  refine ⟨i, j, hne, generatedName_eq_of_digits digest suffix ns _ _ ?_ ?_⟩
  · exact congrArg (fun p => p.1.val) heq
  · exact congrArg (fun p => p.2.val) heq

theorem generatedName_ne_of_digits (digest : String → Nat) (suffix ns key1 key2 : String)
    (h : digest key1 / 16 ^ 48 % 16 ^ 16 ≠ digest key2 / 16 ^ 48 % 16 ^ 16) :
    generatedName digest suffix ns key1 ≠ generatedName digest suffix ns key2 := by
  intro heq
  apply h
  rcases generatedName_cases digest suffix ns key1 with ⟨h1, e1⟩ | ⟨h1, e1⟩ <;>
    rcases generatedName_cases digest suffix ns key2 with ⟨h2, e2⟩ | ⟨h2, e2⟩
  · rw [e1, e2] at heq
    have hd := congrArg String.data heq
    simp only [String.data_append] at hd
    have hx := List.append_cancel_left (List.append_cancel_right hd)
    have := hexDigits_inj 16 _ _ (String.ext hx)
    simpa only [Nat.reduceSub] using this
  · omega
  · omega
  · rw [e1, e2] at heq
    have := hexDigits_inj 32 _ _ heq
    simp only [Nat.reduceSub] at this
    omega

theorem getSPCName_collision (digest : String → Nat) (ns collection mountPath : String) :
    ∃ l1 l2 : List CredentialReference,
      (∀ credential ∈ l1 ++ l2,
        credential.Collection = collection ∧ credential.MountPath = mountPath) ∧
      (∃ credential ∈ l1, credential ∉ l2) ∧
      getSPCName digest ns collection mountPath l1
        = getSPCName digest ns collection mountPath l2 := by
  let cred : Nat → CredentialReference := fun i =>
    { Name := ⟨List.replicate i 'a'⟩, Collection := collection, MountPath := mountPath }
  obtain ⟨i, j, hne, heq⟩ := generatedName_collision digest "-spc" ns
    (fun i => spcKey collection mountPath [cred i])
  refine ⟨[cred i], [cred j], ?_, ⟨cred i, List.mem_singleton.mpr rfl, ?_⟩, heq⟩
  · intro credential h
    simp only [List.singleton_append, List.mem_cons, List.mem_singleton, List.not_mem_nil,
      or_false] at h
    rcases h with h | h <;> rw [h] <;> exact ⟨rfl, rfl⟩
  · intro h
    have h1 : cred i = cred j := List.mem_singleton.mp h
    have h2 : (cred i).Name.data.length = (cred j).Name.data.length := by rw [h1]
    simp only [cred, List.length_replicate] at h2
    exact hne h2

theorem toLower_mem_labelChars :
    ∀ ch ∈ namespaceChars, ch.toLower ∈ labelChars ∧ (ch ≠ '-' → ch.toLower ≠ '-') := by
  decide

theorem hexChars_label : ∀ ch ∈ hexChars, ch ∈ labelChars ∧ ch ≠ '-' := by
  decide

theorem hexDigits_isDNSLabel (width digest : Nat) (hw : width ≤ 63) :
    IsDNSLabel (hexDigits width digest) := by
  refine ⟨by rw [hexDigits_length]; exact hw, ?_, ?_, ?_⟩
  · intro ch h
    exact (hexChars_label ch (hexDigits_mem _ _ ch h)).1
  · intro h
    exact (hexChars_label _ (hexDigits_mem _ _ _ (List.mem_of_mem_head? h))).2 rfl
  · intro h
    exact (hexChars_label _ (hexDigits_mem _ _ _ (List.mem_of_mem_getLast? h))).2 rfl

theorem generatedName_isDNSLabel (digest : String → Nat) (suffix ns key : String)
    (hsuffix : suffix = "" ∨ suffix = "-spc")
    (hchars : ∀ ch ∈ ns.toList, ch ∈ namespaceChars)
    (hhead : ∃ ch rest, ns.toList = ch :: rest ∧ ch ≠ '-') :
    IsDNSLabel (generatedName digest suffix ns key) := by
  rcases generatedName_cases digest suffix ns key with ⟨_, e⟩ | ⟨_, e⟩
  · refine ⟨generatedName_length_le digest suffix ns key, ?_, ?_, ?_⟩
    · intro ch h
      rw [e] at h
      simp only [String.toList, String.data_append, List.mem_append] at h
      rcases h with ((h | h) | h) | h
      · obtain ⟨x, hx, rfl⟩ := List.mem_map.mp h
        exact (toLower_mem_labelChars x (hchars x hx)).1
      · have : ch = '-' := by simpa using h
        rw [this]; decide
      · exact (hexChars_label ch (hexDigits_mem _ _ ch h)).1
      · rcases hsuffix with hs | hs
        · rw [hs] at h; simp at h
        · rw [hs] at h
          have : ch ∈ ['-', 's', 'p', 'c'] := h
          revert this
          revert ch
          decide
    · obtain ⟨x, rest, hx, hne⟩ := hhead
      have hx2 : ns.data = x :: rest := hx
      rw [e]
      simp only [String.toList, String.data_append, toLower, hx2, List.map_cons,
        List.cons_append, List.head?_cons]
      intro h
      exact (toLower_mem_labelChars x (hchars x (by rw [hx]; exact List.mem_cons_self _ _))).2 hne
        (Option.some.inj h)
    · rw [e]
      have hhex : (hexDigits 16 (digest key)).data.getLast? ≠ some '-' :=
        (hexDigits_isDNSLabel 16 _ (by decide)).2.2.2
      have hex_some : ∃ x, (hexDigits 16 (digest key)).data.getLast? = some x := by
        cases hl : (hexDigits 16 (digest key)).data.getLast? with
        | some x => exact ⟨x, rfl⟩
        | none =>
          have h0 := List.getLast?_eq_none_iff.mp hl
          have := hexDigits_length 16 (digest key)
          simp [String.length, h0] at this
      obtain ⟨x, hx⟩ := hex_some
      rcases hsuffix with hs | hs
      · rw [hs]
        simp only [String.toList, String.data_append, List.getLast?_append, hx]
        intro h
        apply hhex
        rw [hx]
        simpa using h
      · rw [hs]
        simp only [String.toList, String.data_append, List.getLast?_append]
        intro h
        have : ("-spc" : String).data.getLast? = some 'c' := rfl
        rw [this] at h
        simp at h
  · rw [e]
    exact hexDigits_isDNSLabel 32 _ (by decide)

set_option maxRecDepth 100000 in
/-- C15, as stated, fails: the namespace is only lowercased, so a namespace
with an underscore gives a volume name with an underscore, and the empty
namespace gives names that start with a hyphen. -/
theorem generated_name_not_dns_label_counterexample :
    getCSIVolumeName sha256 "test_ns" "coll1" "/tmp/cred1" = "test_ns-3b8b9081288110be" ∧
    ¬ IsDNSLabel (getCSIVolumeName sha256 "test_ns" "coll1" "/tmp/cred1") ∧
    getSPCName sha256 "" "collection1" "/tmp/cred1"
        [{ Name := "cred1", Collection := "collection1", MountPath := "/tmp/cred1" }]
      = "-e2eeed3b5e74671d-spc" ∧
    ¬ IsDNSLabel (getSPCName sha256 "" "collection1" "/tmp/cred1"
        [{ Name := "cred1", Collection := "collection1", MountPath := "/tmp/cred1" }]) := by
  decide

theorem generatedName_fits (digest : String → Nat) (suffix ns key : String) :
    ((toLower ns ++ "-" ++ hexDigits 16 (digest key) ++ suffix).length ≤ 63 →
      generatedName digest suffix ns key
        = toLower ns ++ "-" ++ hexDigits 16 (digest key) ++ suffix) ∧
    (63 < (toLower ns ++ "-" ++ hexDigits 16 (digest key) ++ suffix).length →
      generatedName digest suffix ns key = hexDigits 32 (digest key)) := by
  constructor
  · intro h
    simp only [generatedName, nameLimit, if_pos h]
  · intro h
    simp only [generatedName, nameLimit, if_neg (Nat.not_le.mpr h)]

set_option maxRecDepth 100000 in
/-- C16: whenever the lowercased namespace, a hyphen, the sixteen-digit hash
and the suffix fit in 63 characters, `getSPCName` returns the lowercased
namespace, a hyphen, the hash and `-spc`, and `getCSIVolumeName` returns the
lowercased namespace, a hyphen and the hash; otherwise both return thirty-two
hexadecimal digits of the digest and nothing else. A hash of width `w` has `w`
characters, all of them hexadecimal digits. With SHA-256 the names are those
expected by `TestCSIVolumeName`, the last one in hash-only form. -/
theorem generated_name_structure :
    (∀ (digest : String → Nat) (ns collection mountPath : String)
        (credentials : List CredentialReference),
      ((toLower ns ++ "-" ++ hexDigits 16 (digest (spcKey collection mountPath credentials))
            ++ "-spc").length ≤ 63 →
        getSPCName digest ns collection mountPath credentials
          = toLower ns ++ "-" ++ hexDigits 16 (digest (spcKey collection mountPath credentials))
            ++ "-spc") ∧
      (63 < (toLower ns ++ "-" ++ hexDigits 16 (digest (spcKey collection mountPath credentials))
            ++ "-spc").length →
        getSPCName digest ns collection mountPath credentials
          = hexDigits 32 (digest (spcKey collection mountPath credentials))) ∧
      ((toLower ns ++ "-" ++ hexDigits 16 (digest (csiVolumeKey collection mountPath))).length
          ≤ 63 →
        getCSIVolumeName digest ns collection mountPath
          = toLower ns ++ "-" ++ hexDigits 16 (digest (csiVolumeKey collection mountPath))) ∧
      (63 < (toLower ns ++ "-"
            ++ hexDigits 16 (digest (csiVolumeKey collection mountPath))).length →
        getCSIVolumeName digest ns collection mountPath
          = hexDigits 32 (digest (csiVolumeKey collection mountPath)))) ∧
    (∀ width digest : Nat, (hexDigits width digest).length = width ∧
      ∀ ch ∈ (hexDigits width digest).toList, ch ∈ hexChars) ∧
    getCSIVolumeName sha256 "test-ns" "coll1" "/tmp/cred1" = "test-ns-3b8b9081288110be" ∧
    getCSIVolumeName sha256 "test-ns" "coll1" "/tmp/cred.with.dots"
      = "test-ns-d0016e4cef6b95bc" ∧
    getCSIVolumeName sha256 "test-ns" "coll1" "/tmp/cred_with_underscores"
      = "test-ns-b230621144162a62" ∧
    getCSIVolumeName sha256 "long-namespace-name-within-limits" "some-long-collection-name"
        "/long/mount/path/that/exceeds/kubernetes/limits"
      = "long-namespace-name-within-limits-5208e4cada72c93e" ∧
    getCSIVolumeName sha256 "namespace-that-is-just-long-enough-to-trigger-truncation"
        "collection" "/tmp"
      = "79bdf22088beba6ec83a0d18127b31df" ∧
    getSPCName sha256 "Test-NS" "collection1" "/tmp/cred1"
        [{ Name := "cred1", Collection := "collection1", MountPath := "/tmp/cred1" }]
      = "test-ns-e2eeed3b5e74671d-spc" ∧
    getSPCName sha256 "namespace-that-is-just-long-enough-to-trigger-truncation"
        "collection1" "/tmp/cred1"
        [{ Name := "cred1", Collection := "collection1", MountPath := "/tmp/cred1" }]
      = "e2eeed3b5e74671db1c79679b8041b8b" := by
  refine ⟨?_, fun width digest => ⟨hexDigits_length width digest, hexDigits_mem width digest⟩,
    by decide, by decide, by decide, by decide, by decide, by decide, by decide⟩
  intro digest ns collection mountPath credentials
  have hspc := generatedName_fits digest "-spc" ns (spcKey collection mountPath credentials)
  have hvol := generatedName_fits digest "" ns (csiVolumeKey collection mountPath)
  simp only [String.append_empty] at hvol
  exact ⟨hspc.1, hspc.2, hvol.1, hvol.2⟩


/-! ### The frame of `setSecurityContexts` -/

theorem setSecurityContextsOn_pointwise (root : String) (uid : Int)
    (caps : Option Capabilities) (se : Option SELinuxOptions) (l : List Container) :
    List.Forall₂ (fun k k1 => k1 = { k with SecurityContext := k1.SecurityContext }) l
      (setSecurityContextsOn root uid caps se l) := by
  unfold setSecurityContextsOn
  rw [List.forall₂_map_right_iff]
  apply List.forall₂_same.mpr
  intro k _
  by_cases h : k.Name = root <;> simp [h]

theorem setSecurityContextsOn_idem (root : String) (uid : Int)
    (caps : Option Capabilities) (se : Option SELinuxOptions) (l : List Container) :
    setSecurityContextsOn root uid caps se (setSecurityContextsOn root uid caps se l)
      = setSecurityContextsOn root uid caps se l := by
  unfold setSecurityContextsOn
  rw [List.map_map]
  apply List.map_congr_left
  intro k _
  by_cases h : k.Name = root <;> simp [h]

/-- C27: `setSecurityContexts` changes nothing but the `SecurityContext`
fields: putting the old container lists back gives the old pod; the init
containers and the containers are the same in number and order, and each is
the old one with at most its `SecurityContext` replaced (so name, image,
command, args, env and volume mounts are the old ones); and applying it twice
with the same arguments gives the same pod as applying it once. -/
theorem setSecurityContexts_frame (pod : Pod) (root : String) (uid : Int)
    (capabilities : Option Capabilities) (seLinuxOpts : Option SELinuxOptions) :
    let p := setSecurityContexts pod root uid capabilities seLinuxOpts
    { p with Spec := { p.Spec with
        InitContainers := pod.Spec.InitContainers, Containers := pod.Spec.Containers } } = pod ∧
    List.Forall₂ (fun k k1 => k1 = { k with SecurityContext := k1.SecurityContext })
      pod.Spec.InitContainers p.Spec.InitContainers ∧
    List.Forall₂ (fun k k1 => k1 = { k with SecurityContext := k1.SecurityContext })
      pod.Spec.Containers p.Spec.Containers ∧
    p.Spec.InitContainers.map (fun k => k.Name) = pod.Spec.InitContainers.map (fun k => k.Name) ∧
    p.Spec.Containers.map (fun k => k.Name) = pod.Spec.Containers.map (fun k => k.Name) ∧
    setSecurityContexts p root uid capabilities seLinuxOpts = p := by
  intro p
  refine ⟨rfl, setSecurityContextsOn_pointwise _ _ _ _ _, setSecurityContextsOn_pointwise _ _ _ _ _,
    setSecurityContextsOn_names _ _ _ _ _, setSecurityContextsOn_names _ _ _ _ _, ?_⟩
  show setSecurityContexts (setSecurityContexts pod root uid capabilities seLinuxOpts) root uid
    capabilities seLinuxOpts = setSecurityContexts pod root uid capabilities seLinuxOpts
  simp only [setSecurityContexts, setSecurityContextsOn_idem]

/-! ### Cluster claim parameters -/

theorem hiveMount_eq_none (c : Collaborators) (svm : List VolumeMount)
    (secretName testName : String) :
    hiveMount c svm secretName testName = none ↔
      ∀ m ∈ svm, m.MountPath ≠ hiveMountPath c secretName testName := by
  simp [hiveMount, List.find?_eq_none]

theorem hiveMount_eq_some (c : Collaborators) (svm : List VolumeMount)
    (secretName testName : String) (found : VolumeMount)
    (h : hiveMount c svm secretName testName = some found) :
    found.MountPath = hiveMountPath c secretName testName ∧
    ∃ before after, svm = before ++ found :: after ∧
      ∀ m ∈ before, m.MountPath ≠ hiveMountPath c secretName testName := by
  unfold hiveMount at h
  rw [List.find?_eq_some] at h
  obtain ⟨hp, before, after, hs, hb⟩ := h
  refine ⟨by simpa using hp, before, after, hs, ?_⟩
  intro m hm
  simpa using hb m hm

theorem getClusterClaimPodParams_eq_expected (c : Collaborators) (svm : List VolumeMount)
    (testName : String) (hdistinct : c.HiveAdminKubeconfigSecret ≠ c.HiveAdminPasswordSecret) :
    getClusterClaimPodParams c svm testName = expectedClusterClaimPodParams c svm testName := by
  have hd2 : ¬ c.HiveAdminPasswordSecret = c.HiveAdminKubeconfigSecret := fun e => hdistinct e.symm
  unfold getClusterClaimPodParams expectedClusterClaimPodParams hiveMount hiveMissingError
    hiveMountPath
  simp only [List.foldl_cons, List.foldl_nil]
  cases hk : svm.find? (fun m => m.MountPath ==
      c.getMountPath (c.NamePerTest c.HiveAdminKubeconfigSecret testName)) <;>
    cases hp : svm.find? (fun m => m.MountPath ==
      c.getMountPath (c.NamePerTest c.HiveAdminPasswordSecret testName)) <;>
    simp [hdistinct, hd2]

/-- C21: when the names of the two Hive secrets differ, `getClusterClaimPodParams`
returns an error if and only if `secretVolumeMounts` has no mount at the
per-test path of the Hive admin kubeconfig secret or none at that of the Hive
admin password secret; the error is the aggregate of one error per missing
secret, which names the expected path and the secret; on success the result is
exactly the variables `KUBECONFIG` and `KUBEADMIN_PASSWORD_FILE`, in that order,
each the mount path joined with the key of its secret, and exactly the two
mounts found, each the first mount of the list at its path. -/
theorem getClusterClaimPodParams_spec (c : Collaborators)
    (secretVolumeMounts : List VolumeMount) (testName : String)
    (hdistinct : c.HiveAdminKubeconfigSecret ≠ c.HiveAdminPasswordSecret) :
    getClusterClaimPodParams c secretVolumeMounts testName
      = expectedClusterClaimPodParams c secretVolumeMounts testName ∧
    ((∃ err, getClusterClaimPodParams c secretVolumeMounts testName = Except.error err) ↔
      (∀ m ∈ secretVolumeMounts,
          m.MountPath ≠ hiveMountPath c c.HiveAdminKubeconfigSecret testName) ∨
        (∀ m ∈ secretVolumeMounts,
          m.MountPath ≠ hiveMountPath c c.HiveAdminPasswordSecret testName)) ∧
    (∀ secretName,
      (hiveMount c secretVolumeMounts secretName testName = none ↔
        ∀ m ∈ secretVolumeMounts, m.MountPath ≠ hiveMountPath c secretName testName) ∧
      ∀ found, hiveMount c secretVolumeMounts secretName testName = some found →
        found.MountPath = hiveMountPath c secretName testName ∧
        ∃ before after, secretVolumeMounts = before ++ found :: after ∧
          ∀ m ∈ before, m.MountPath ≠ hiveMountPath c secretName testName) := by
  have heq := getClusterClaimPodParams_eq_expected c secretVolumeMounts testName hdistinct
  refine ⟨heq, ?_, fun secretName => ⟨hiveMount_eq_none c _ _ _, hiveMount_eq_some c _ _ _⟩⟩
  rw [heq, ← hiveMount_eq_none, ← hiveMount_eq_none]
  unfold expectedClusterClaimPodParams
  cases hiveMount c secretVolumeMounts c.HiveAdminKubeconfigSecret testName <;>
    cases hiveMount c secretVolumeMounts c.HiveAdminPasswordSecret testName <;> simp

theorem getClusterClaimPodParams_spec_witness :
    sampleCollaborators.HiveAdminKubeconfigSecret ≠ sampleCollaborators.HiveAdminPasswordSecret ∧
    getClusterClaimPodParams sampleCollaborators sampleHiveMounts "e2e"
      = expectedClusterClaimPodParams sampleCollaborators sampleHiveMounts "e2e" ∧
    (expectedClusterClaimPodParams sampleCollaborators sampleHiveMounts "e2e").toOption
      = some
        ([ { Name := "KUBECONFIG", Value := "/secrets/e2e-hive-admin-kubeconfig/kubeconfig" },
           { Name := "KUBEADMIN_PASSWORD_FILE",
             Value := "/secrets/e2e-hive-admin-password/password" } ],
         sampleHiveMounts) :=
  ⟨by decide,
   (getClusterClaimPodParams_spec sampleCollaborators sampleHiveMounts "e2e" (by decide)).1,
   by decide⟩

/-! ### The entrypoint wrapper -/

theorem addSecretWrapper_cons (c : Collaborators) (pod : Pod) (k : Container)
    (ks : List Container) (hk : pod.Spec.Containers = k :: ks) (vpn : Option vpnConf)
    (skipKubeconfig : Bool) (genPodOpts : generatePodOptions) :
    addSecretWrapper c pod vpn skipKubeconfig genPodOpts
      = some { pod with Spec := { pod.Spec with
          Volumes := pod.Spec.Volumes ++ [entrypointWrapperVolume]
          InitContainers := pod.Spec.InitContainers ++ [cpEntrypointWrapper c]
          Containers :=
            { k with
              Command := [c.filepathJoin "/tmp/entrypoint-wrapper" "entrypoint-wrapper"]
              Args := waitFlags vpn ++ modeFlags skipKubeconfig genPodOpts ++ k.Command ++ k.Args
              VolumeMounts := k.VolumeMounts ++ [entrypointWrapperMount] } :: ks } } := by
  simp only [addSecretWrapper, updateContainer0, addVolumes, addInitContainer, hk,
    cpEntrypointWrapper, entrypointWrapperVolume, entrypointWrapperMount, waitFlags, modeFlags]
  cases vpn with
  | none => cases skipKubeconfig <;> cases hobs : genPodOpts.IsObserver <;> simp
  | some v =>
    cases hw : v.WaitTimeout <;> cases skipKubeconfig <;>
      cases hobs : genPodOpts.IsObserver <;> simp [hw]

/-- C22: on a pod with a primary container, `addSecretWrapper` sets the
command of that container to the single path of the wrapper binary,
`/tmp/entrypoint-wrapper/entrypoint-wrapper`, and its arguments to the wait
flags, the mode flags, the original command and the original arguments, in
that order; it appends the `entrypoint-wrapper` volume and the
`cp-entrypoint-wrapper` init container, and mounts the volume in that init
container and, after the mounts it already has, in the primary container;
nothing else in the pod changes. The wait flags are `--wait-for-file
/tmp/vpn/up --wait-timeout T` when the VPN configuration has a wait timeout
`T`; the mode flags are `--mode=skip-kubeconfig` when `skipKubeconfig`, then
`--mode=observer` when `IsObserver`. -/
theorem addSecretWrapper_rewrites_command (c : Collaborators) (pod : Pod) (k : Container)
    (ks : List Container) (vpn : Option vpnConf) (skipKubeconfig : Bool)
    (genPodOpts : generatePodOptions)
    (hk : pod.Spec.Containers = k :: ks)
    (hjoin : c.filepathJoin "/tmp/entrypoint-wrapper" "entrypoint-wrapper"
      = "/tmp/entrypoint-wrapper/entrypoint-wrapper") :
    addSecretWrapper c pod vpn skipKubeconfig genPodOpts
      = some { pod with Spec := { pod.Spec with
          Volumes := pod.Spec.Volumes ++ [entrypointWrapperVolume]
          InitContainers := pod.Spec.InitContainers ++ [cpEntrypointWrapper c]
          Containers :=
            { k with
              Command := ["/tmp/entrypoint-wrapper/entrypoint-wrapper"]
              Args := waitFlags vpn ++ modeFlags skipKubeconfig genPodOpts ++ k.Command ++ k.Args
              VolumeMounts := k.VolumeMounts ++ [entrypointWrapperMount] } :: ks } } ∧
    (cpEntrypointWrapper c).Name = "cp-entrypoint-wrapper" ∧
    (cpEntrypointWrapper c).VolumeMounts = [entrypointWrapperMount] ∧
    entrypointWrapperMount.Name = entrypointWrapperVolume.Name ∧
    waitFlags vpn = (match vpn.bind (fun v => v.WaitTimeout) with
      | some t => ["--wait-for-file", "/tmp/vpn/up", "--wait-timeout", t]
      | none => []) := by
  refine ⟨?_, rfl, rfl, rfl, ?_⟩
  · rw [addSecretWrapper_cons c pod k ks hk, hjoin]
  · cases vpn with
    | none => rfl
    | some v => cases hw : v.WaitTimeout <;> simp [waitFlags, hw]

theorem addSecretWrapper_rewrites_command_witness :
    sampleMakePod.Spec.Containers = [sampleMakeContainer] ∧
    sampleCollaborators.filepathJoin "/tmp/entrypoint-wrapper" "entrypoint-wrapper"
      = "/tmp/entrypoint-wrapper/entrypoint-wrapper" ∧
    (addSecretWrapper sampleCollaborators sampleMakePod (some { WaitTimeout := some "5m" }) true
        { IsObserver := false }).map (fun p => p.Spec.Containers.map fun k => (k.Command, k.Args))
      = some [(["/tmp/entrypoint-wrapper/entrypoint-wrapper"],
          ["--wait-for-file", "/tmp/vpn/up", "--wait-timeout", "5m", "--mode=skip-kubeconfig",
           "/bin/bash", "-c", "make", "all"])] :=
  ⟨rfl, by decide, by
    rw [(addSecretWrapper_rewrites_command sampleCollaborators sampleMakePod sampleMakeContainer []
      (some { WaitTimeout := some "5m" }) true { IsObserver := false } rfl (by decide)).1]
    decide⟩

/-! ### Decorators only append -/

theorem Pod.decorated_of_withMounted (pod : Pod) (k : Container) (ks : List Container)
    (vs : List Volume) (ms : List VolumeMount) :
    pod.withMounted k ks vs ms = pod.decorated k ks vs [] [] ms := by
  simp [Pod.withMounted, Pod.decorated]

theorem Pod.OnlyAppends.consequences {pod p : Pod} {k : Container} {ks : List Container}
    {cmd args : List String} (hk : pod.Spec.Containers = k :: ks)
    (h : pod.OnlyAppends p k ks cmd args) :
    pod.Spec.Volumes <+: p.Spec.Volumes ∧
    pod.Spec.InitContainers <+: p.Spec.InitContainers ∧
    (∃ k1, p.Spec.Containers = k1 :: ks ∧ k1.Name = k.Name ∧ k1.Image = k.Image ∧
      k1.Command = cmd ∧ k1.Args = args ∧ k.Env <+: k1.Env ∧
      k.VolumeMounts <+: k1.VolumeMounts) ∧
    (pod.MountsResolve → p.MountsResolve) := by
  obtain ⟨vs, inits, es, ms, rfl, hms, hinits⟩ := h
  refine ⟨⟨vs, rfl⟩, ⟨inits, rfl⟩, ⟨_, rfl, rfl, rfl, rfl, rfl, ⟨es, rfl⟩, ⟨ms, rfl⟩⟩, ?_⟩
  intro hres x hx m hm
  simp only [Pod.decorated, Pod.allContainers, List.mem_append, List.mem_cons] at hx
  have hold : ∀ y ∈ pod.allContainers, ∀ m ∈ y.VolumeMounts,
      ∃ v ∈ (pod.decorated { k with Command := cmd, Args := args } ks vs inits es
        ms).Spec.Volumes, v.Name = m.Name := by
    intro y hy m hm
    obtain ⟨v, hv, hvn⟩ := hres y hy m hm
    exact ⟨v, by simp [Pod.decorated, hv], hvn⟩
  have hnew : ∀ m : VolumeMount, (∃ v ∈ vs, v.Name = m.Name) →
      ∃ v ∈ (pod.decorated { k with Command := cmd, Args := args } ks vs inits es
        ms).Spec.Volumes, v.Name = m.Name := by
    rintro m ⟨v, hv, hvn⟩
    exact ⟨v, by simp [Pod.decorated, hv], hvn⟩
  rcases hx with (hx | hx) | hx | hx
  · exact hold x (by simp [Pod.allContainers, hx]) m hm
  · exact hnew m (hinits x hx m hm)
  · subst hx
    simp only [List.mem_append] at hm
    rcases hm with hm | hm
    · exact hold k (by simp [Pod.allContainers, hk]) m hm
    · exact hnew m (hms m hm)
  · exact hold x (by simp [Pod.allContainers, hk, hx]) m hm

theorem addSecretWrapper_onlyAppends (c : Collaborators) (pod : Pod) (k : Container)
    (ks : List Container) (hk : pod.Spec.Containers = k :: ks) (vpn : Option vpnConf)
    (skip : Bool) (o : generatePodOptions) :
    ∃ p cmd args, addSecretWrapper c pod vpn skip o = some p ∧
      pod.OnlyAppends p k ks cmd args := by
  refine ⟨_, [c.filepathJoin "/tmp/entrypoint-wrapper" "entrypoint-wrapper"],
    waitFlags vpn ++ modeFlags skip o ++ k.Command ++ k.Args,
    addSecretWrapper_cons c pod k ks hk vpn skip o,
    [entrypointWrapperVolume], [cpEntrypointWrapper c], [], [entrypointWrapperMount], ?_, ?_, ?_⟩
  · simp [Pod.decorated]
  · intro m hm
    exact ⟨entrypointWrapperVolume, by simp, by
      simp only [List.mem_singleton] at hm; rw [hm]; rfl⟩
  · intro i hi m hm
    simp only [List.mem_singleton] at hi
    subst hi
    simp only [cpEntrypointWrapper, List.mem_singleton] at hm
    exact ⟨entrypointWrapperVolume, by simp, by rw [hm]; rfl⟩

theorem addDshmVolume_onlyAppends (q : Quantity) (pod : Pod) (k : Container)
    (ks : List Container) (hk : pod.Spec.Containers = k :: ks) :
    ∃ p, addDshmVolume q pod = some p ∧ pod.OnlyAppends p k ks k.Command k.Args := by
  refine ⟨_, ?_, [dshmVolume q], [], [], [dshmMount], rfl, ?_, by simp⟩
  · simp [addDshmVolume, updateContainer0, addVolumes, hk, Pod.decorated, dshmVolume, dshmMount]
  · intro m hm
    simp only [List.mem_singleton] at hm
    exact ⟨dshmVolume q, by simp, by rw [hm]; rfl⟩

theorem addProfile_onlyAppends (c : Collaborators) (name profile : String) (pod : Pod)
    (k : Container) (ks : List Container) (hk : pod.Spec.Containers = k :: ks) :
    ∃ p, addProfile c name profile pod = some p ∧ pod.OnlyAppends p k ks k.Command k.Args := by
  refine ⟨_, ?_, [{ Name := profileVolumeName, VolumeSource := VolumeSource.Secret name }], [],
    [ { Name := "CLUSTER_PROFILE_NAME", Value := c.profileName profile },
      { Name := "CLUSTER_TYPE", Value := c.profileClusterType profile },
      { Name := c.ClusterProfileMountEnv, Value := c.ClusterProfileMountPath } ],
    [{ Name := profileVolumeName, MountPath := c.ClusterProfileMountPath }], rfl, ?_, by simp⟩
  · simp [addProfile, updateContainer0, addVolumes, hk, Pod.decorated]
  · intro m hm
    simp only [List.mem_singleton] at hm
    exact ⟨_, List.mem_singleton.mpr rfl, by rw [hm]⟩

theorem addCliInjector_cons (c : Collaborators) (imagestream : String) (pod : Pod)
    (k : Container) (ks : List Container) (hk : pod.Spec.Containers = k :: ks) :
    addCliInjector c imagestream pod
      = some (pod.decorated k ks [{ Name := "cli", VolumeSource := VolumeSource.EmptyDir "" none }]
          [injectCli c imagestream] [{ Name := c.CliEnv, Value := c.CliMountPath }]
          [{ Name := "cli", MountPath := c.CliMountPath }]) := by
  simp [addCliInjector, updateContainer0, addVolumes, addInitContainer, hk, Pod.decorated,
    injectCli]

theorem addCliInjector_onlyAppends (c : Collaborators) (imagestream : String) (pod : Pod)
    (k : Container) (ks : List Container) (hk : pod.Spec.Containers = k :: ks) :
    ∃ p, addCliInjector c imagestream pod = some p ∧ pod.OnlyAppends p k ks k.Command k.Args := by
  refine ⟨_, addCliInjector_cons c imagestream pod k ks hk, _, _, _, _, rfl, ?_, ?_⟩
  · intro m hm
    simp only [List.mem_singleton] at hm
    exact ⟨_, List.mem_singleton.mpr rfl, by rw [hm]⟩
  · intro i hi m hm
    simp only [List.mem_singleton] at hi
    subst hi
    simp only [injectCli, List.mem_singleton] at hm
    exact ⟨_, List.mem_singleton.mpr rfl, by rw [hm]⟩

theorem addSharedDirSecret_onlyAppends (c : Collaborators) (secret : String) (pod : Pod)
    (k : Container) (ks : List Container) (hk : pod.Spec.Containers = k :: ks) :
    ∃ p, addSharedDirSecret c secret pod = some p ∧ pod.OnlyAppends p k ks k.Command k.Args := by
  refine ⟨_, ?_, [{ Name := secret, VolumeSource := VolumeSource.Secret secret }], [],
    [{ Name := c.SecretMountEnv, Value := c.SecretMountPath }],
    [{ Name := secret, MountPath := c.SecretMountPath }], rfl, ?_, by simp⟩
  · simp [addSharedDirSecret, updateContainer0, addVolumes, hk, Pod.decorated]
  · intro m hm
    simp only [List.mem_singleton] at hm
    exact ⟨_, List.mem_singleton.mpr rfl, by rw [hm]⟩

theorem addCommandScript_onlyAppends (c : Collaborators) (name : String) (pod : Pod)
    (k : Container) (ks : List Container) (hk : pod.Spec.Containers = k :: ks) :
    ∃ p, addCommandScript c name pod = some p ∧ pod.OnlyAppends p k ks k.Command k.Args := by
  refine ⟨_, ?_,
    [{ Name := "commands-script", VolumeSource := VolumeSource.ConfigMap name (some 0o777) }],
    [], [], [{ Name := "commands-script", MountPath := c.CommandScriptMountPath }], rfl, ?_,
    by simp⟩
  · simp [addCommandScript, updateContainer0, addVolumes, hk, Pod.decorated]
  · intro m hm
    simp only [List.mem_singleton] at hm
    exact ⟨_, List.mem_singleton.mpr rfl, by rw [hm]⟩

theorem addCredentials_onlyAppends (c : Collaborators) (hrange : ∀ m, (c.rangeMap m).Perm m)
    (credentials : List CredentialReference) (useCSI : Bool) (pod : Pod)
    (k : Container) (ks : List Container) (hk : pod.Spec.Containers = k :: ks) :
    ∃ p, addCredentials c credentials pod useCSI = some p ∧ pod.OnlyAppends p k ks k.Command k.Args := by
  cases useCSI with
  | true =>
    have hne : ∀ e ∈ c.rangeMap (groupCredentialsByCollectionAndMountPath credentials),
        e.2 ≠ [] :=
      fun e he => groupCredentials_nonempty credentials e ((hrange _).mem_iff.mp he)
    have hadd := foldlM_addCSICredentialGroup c _ hne pod k ks hk
    refine ⟨_, by simp only [addCredentials, if_true]; exact hadd, _, [], [], _,
      Pod.decorated_of_withMounted pod k ks _ _, ?_, by simp⟩
    intro m hm
    obtain ⟨g, hg, rfl⟩ := List.mem_map.mp hm
    exact ⟨csiVolumeFor c pod.Namespace g, List.mem_map.mpr ⟨g, hg, rfl⟩, rfl⟩
  | false =>
    have hadd := foldlM_addLegacyCredential c credentials pod k ks hk
    refine ⟨_, by simp only [addCredentials, Bool.false_eq_true, if_false]; exact hadd, _, [], [],
      _, Pod.decorated_of_withMounted pod k ks _ _, ?_, by simp⟩
    intro m hm
    obtain ⟨g, hg, rfl⟩ := List.mem_map.mp hm
    exact ⟨legacyVolumeFor c g, List.mem_map.mpr ⟨g, hg, rfl⟩, rfl⟩

/-- C28: on a pod with a primary container, each of `addSecretWrapper`,
`addDshmVolume`, `addProfile`, `addCliInjector`, `addSharedDirSecret`,
`addCredentials` (in both modes, for a range that visits every group once) and
`addCommandScript` returns the pod with only appended volumes, init
containers, and variables and mounts of the primary container, every appended
mount naming an appended volume; the command and the arguments of the primary
container are kept by all of them but `addSecretWrapper`. So the old volumes
and init containers are a prefix of the new ones, the containers are the same
in number and order, all but the first unchanged, the first with its name and
image and with its old variables and mounts as a prefix of the new ones, and
if every mount of the pod named a volume before the call, every mount does so
after it. -/
theorem decorators_only_append (c : Collaborators) (hrange : ∀ m, (c.rangeMap m).Perm m)
    (pod : Pod) (k : Container) (ks : List Container) (hk : pod.Spec.Containers = k :: ks) :
    (∀ vpn skipKubeconfig genPodOpts, ∃ p cmd args,
      addSecretWrapper c pod vpn skipKubeconfig genPodOpts = some p ∧
      pod.OnlyAppends p k ks cmd args) ∧
    (∀ shmSize, ∃ p, addDshmVolume shmSize pod = some p ∧
      pod.OnlyAppends p k ks k.Command k.Args) ∧
    (∀ name profile, ∃ p, addProfile c name profile pod = some p ∧
      pod.OnlyAppends p k ks k.Command k.Args) ∧
    (∀ imagestream, ∃ p, addCliInjector c imagestream pod = some p ∧
      pod.OnlyAppends p k ks k.Command k.Args) ∧
    (∀ secret, ∃ p, addSharedDirSecret c secret pod = some p ∧
      pod.OnlyAppends p k ks k.Command k.Args) ∧
    (∀ credentials useCSI, ∃ p, addCredentials c credentials pod useCSI = some p ∧
      pod.OnlyAppends p k ks k.Command k.Args) ∧
    (∀ name, ∃ p, addCommandScript c name pod = some p ∧
      pod.OnlyAppends p k ks k.Command k.Args) ∧
    (∀ p cmd args, pod.OnlyAppends p k ks cmd args →
      pod.Spec.Volumes <+: p.Spec.Volumes ∧
      pod.Spec.InitContainers <+: p.Spec.InitContainers ∧
      (∃ k1, p.Spec.Containers = k1 :: ks ∧ k1.Name = k.Name ∧ k1.Image = k.Image ∧
        k1.Command = cmd ∧ k1.Args = args ∧ k.Env <+: k1.Env ∧
        k.VolumeMounts <+: k1.VolumeMounts) ∧
      (pod.MountsResolve → p.MountsResolve)) :=
  ⟨fun vpn skip o => addSecretWrapper_onlyAppends c pod k ks hk vpn skip o,
   fun q => addDshmVolume_onlyAppends q pod k ks hk,
   fun name profile => addProfile_onlyAppends c name profile pod k ks hk,
   fun imagestream => addCliInjector_onlyAppends c imagestream pod k ks hk,
   fun secret => addSharedDirSecret_onlyAppends c secret pod k ks hk,
   fun credentials useCSI => addCredentials_onlyAppends c hrange credentials useCSI pod k ks hk,
   fun name => addCommandScript_onlyAppends c name pod k ks hk,
   fun _ _ _ h => h.consequences hk⟩

theorem decorators_only_append_witness :
    (∀ m, (sampleCollaborators.rangeMap m).Perm m) ∧
    sampleMakePod.Spec.Containers = [sampleMakeContainer] ∧
    (∃ p, addCredentials sampleCollaborators
        [ { Name := "red", Collection := "colours", MountPath := "/tmp/path" },
          { Name := "circle", Collection := "shapes", MountPath := "/tmp/path" } ]
        sampleMakePod true = some p ∧
      sampleMakePod.OnlyAppends p sampleMakeContainer [] sampleMakeContainer.Command
        sampleMakeContainer.Args) :=
  ⟨fun m => List.Perm.refl m, rfl,
   (decorators_only_append sampleCollaborators (fun m => List.Perm.refl m) sampleMakePod
      sampleMakeContainer [] rfl).2.2.2.2.2.1 _ true⟩


/-! ### Best effort steps -/

theorem stepContribution_bestEffort (c : Collaborators) (s : multiStageTestStep)
    (env : List EnvVar) (sv : List Volume) (svm : List VolumeMount) (o : generatePodOptions)
    (step : LiteralTestStep) (d : List Pod × List Error × Finset String)
    (hd : stepContribution c s env sv svm o step = some d) (n : String) :
    n ∈ d.2.2 ↔ n = s.name ++ "-" ++ step.As ∧ countsAsBestEffort c s step := by
  by_cases hskip : skipsStep c s step = true
  · rw [stepContribution_skip c s env sv svm o step hskip] at hd
    cases hd
    simp [countsAsBestEffort, hskip]
  · have hskip : skipsStep c s step = false := by simpa using hskip
    cases hres : c.ResourcesFor step.Resources with
    | error err =>
      rw [stepContribution_resources_error c s env sv svm o step hskip err hres] at hd
      cases hd
      simp [countsAsBestEffort, hres]
    | ok res =>
      rw [stepContribution_build c s env sv svm o step hskip res hres] at hd
      obtain ⟨built, -, hbe⟩ := Option.map_eq_some'.mp hd
      subst hbe
      by_cases hbest : step.BestEffort = some true
      · simp [countsAsBestEffort, hbest, hskip, hres]
      · simp [countsAsBestEffort, hbest]

theorem contributions_bestEffort (c : Collaborators) (s : multiStageTestStep)
    (env : List EnvVar) (sv : List Volume) (svm : List VolumeMount) (o : generatePodOptions)
    (steps : List LiteralTestStep) (d : List Pod × List Error × Finset String)
    (hd : contributions c s env sv svm o steps = some d) (n : String) :
    n ∈ d.2.2 ↔ ∃ step ∈ steps, n = s.name ++ "-" ++ step.As ∧ countsAsBestEffort c s step := by
  induction steps generalizing d with
  | nil =>
    simp only [contributions, Option.some.injEq] at hd
    subst hd
    simp
  | cons x xs ih =>
    rw [contributions_cons] at hd
    cases hx : stepContribution c s env sv svm o x with
    | none => simp [hx] at hd
    | some d1 =>
      cases hxs : contributions c s env sv svm o xs with
      | none => simp [hx, hxs] at hd
      | some ds =>
        simp only [hx, hxs, Option.some.injEq] at hd
        subst hd
        simp only [Finset.mem_union, List.mem_cons, exists_eq_or_imp]
        rw [stepContribution_bestEffort c s env sv svm o x d1 hx n, ih ds hxs]

/-- C25: for collaborators under which `generatePods` cannot panic, it returns
a result whose best effort set is absent when the `allowBestEffortPostSteps`
flag is unset, whatever the `BestEffort` fields of the steps; and when the flag
is set, the set is present and holds exactly the names `<test name>-<step.As>`
of the input steps that are marked `BestEffort`, are not skipped and whose
resources parse, whether or not a pod is built for them afterwards. -/
theorem bestEffortSteps_exactly (c : Collaborators) (hc : c.WellBehaved)
    (s : multiStageTestStep) (steps : List LiteralTestStep) (env : List EnvVar)
    (secretVolumes : List Volume) (secretVolumeMounts : List VolumeMount)
    (genPodOpts : Option generatePodOptions) :
    ∃ r, generatePods c s steps env secretVolumes secretVolumeMounts genPodOpts = some r ∧
      (s.flags &&& c.allowBestEffortPostSteps = 0 → r.bestEffortSteps = none) ∧
      (s.flags &&& c.allowBestEffortPostSteps ≠ 0 →
        ∃ set, r.bestEffortSteps = some set ∧
          ∀ n, n ∈ set ↔ ∃ step ∈ steps, n = s.name ++ "-" ++ step.As ∧
            step.BestEffort = some true ∧ skipsStep c s step = false ∧
            ∃ res, c.ResourcesFor step.Resources = Except.ok res) := by
  obtain ⟨d, hd⟩ := contributions_total c hc s env secretVolumes secretVolumeMounts
    (genPodOpts.getD defaultGeneratePodOptions) steps
  refine ⟨_, by rw [generatePods_eq, hd]; rfl, ?_, ?_⟩
  · intro hflag
    simp [hflag]
  · intro hflag
    refine ⟨d.2.2, by simp [hflag], ?_⟩
    intro n
    exact contributions_bestEffort c s env secretVolumes secretVolumeMounts _ steps d hd n

theorem bestEffortSteps_exactly_witness :
    sampleCollaborators.WellBehaved ∧
    (∃ r, generatePods sampleCollaborators sampleBestEffort
        [sampleFailingPostStep, { As := "test" }] [] [] [] none = some r ∧
      (sampleBestEffort.flags &&& sampleCollaborators.allowBestEffortPostSteps = 0 →
        r.bestEffortSteps = none) ∧
      (sampleBestEffort.flags &&& sampleCollaborators.allowBestEffortPostSteps ≠ 0 →
        ∃ set, r.bestEffortSteps = some set ∧
          ∀ n, n ∈ set ↔ ∃ step ∈ [sampleFailingPostStep, { As := "test" }],
            n = sampleBestEffort.name ++ "-" ++ step.As ∧
            step.BestEffort = some true ∧ skipsStep sampleCollaborators sampleBestEffort step = false ∧
            ∃ res, sampleCollaborators.ResourcesFor step.Resources = Except.ok res)) ∧
    (generatePods sampleCollaborators sampleBestEffort
        [sampleFailingPostStep, { As := "test" }] [] [] [] none).map
      (fun r => (r.pods.map (fun p => p.Name),
        r.bestEffortSteps.map fun set => decide ("e2e-post" ∈ set)))
      = some (["e2e-test"], some true) :=
  ⟨sampleCollaborators_wellBehaved,
   bestEffortSteps_exactly sampleCollaborators sampleCollaborators_wellBehaved sampleBestEffort
     [sampleFailingPostStep, { As := "test" }] [] [] [] none,
   by decide⟩

/-! ### The pipeline of `generatePods`, container by container -/

theorem Pod.KeepsContainers.same (pod : Pod) : pod.KeepsContainers pod :=
  ⟨List.prefix_refl _, fun k _ h => ⟨k, h, rfl, rfl, rfl⟩⟩

theorem Pod.KeepsContainers.andThen {a b d : Pod} (h1 : a.KeepsContainers b)
    (h2 : b.KeepsContainers d) : a.KeepsContainers d where
  inits := h1.inits.trans h2.inits
  containers := by
    intro k ks hk
    obtain ⟨k1, hk1, hn1, hc1, ha1⟩ := h1.containers k ks hk
    obtain ⟨k2, hk2, hn2, hc2, ha2⟩ := h2.containers k1 ks hk1
    exact ⟨k2, hk2, hn2.trans hn1, hc2.trans hc1, ha2.trans ha1⟩

theorem updateContainer0_keepsContainers (pod p : Pod) (f : Container → Container)
    (hf : ∀ k : Container, (f k).Name = k.Name ∧ (f k).Command = k.Command ∧ (f k).Args = k.Args)
    (h : updateContainer0 pod f = some p) : pod.KeepsContainers p := by
  unfold updateContainer0 at h
  split at h
  · cases h
  · rename_i k ks hk
    cases h
    refine ⟨List.prefix_refl _, ?_⟩
    intro k0 ks0 hk0
    rw [hk] at hk0
    cases hk0
    exact ⟨f k, rfl, hf k⟩

theorem addVolumes_keepsContainers (pod : Pod) (vs : List Volume) :
    pod.KeepsContainers (addVolumes pod vs) :=
  ⟨List.prefix_refl _, fun k _ h => ⟨k, h, rfl, rfl, rfl⟩⟩

theorem addInitContainer_keepsContainers (pod : Pod) (k : Container) :
    pod.KeepsContainers (addInitContainer pod k) :=
  ⟨List.prefix_append _ _, fun k0 _ h => ⟨k0, h, rfl, rfl, rfl⟩⟩

theorem addDshmVolume_keepsContainers (q : Quantity) (pod p : Pod)
    (h : addDshmVolume q pod = some p) : pod.KeepsContainers p := by
  unfold addDshmVolume at h
  exact (addVolumes_keepsContainers pod _).andThen
    (updateContainer0_keepsContainers _ _ _ (fun _ => by exact ⟨rfl, rfl, rfl⟩) h)

theorem addProfile_keepsContainers (c : Collaborators) (name profile : String) (pod p : Pod)
    (h : addProfile c name profile pod = some p) : pod.KeepsContainers p := by
  unfold addProfile at h
  exact (addVolumes_keepsContainers pod _).andThen
    (updateContainer0_keepsContainers _ _ _ (fun _ => by exact ⟨rfl, rfl, rfl⟩) h)

theorem addCliInjector_keepsContainers (c : Collaborators) (imagestream : String) (pod p : Pod)
    (h : addCliInjector c imagestream pod = some p) : pod.KeepsContainers p := by
  unfold addCliInjector at h
  exact ((addVolumes_keepsContainers pod _).andThen (addInitContainer_keepsContainers _ _)).andThen
    (updateContainer0_keepsContainers _ _ _ (fun _ => by exact ⟨rfl, rfl, rfl⟩) h)

theorem addSharedDirSecret_keepsContainers (c : Collaborators) (secret : String) (pod p : Pod)
    (h : addSharedDirSecret c secret pod = some p) : pod.KeepsContainers p := by
  unfold addSharedDirSecret at h
  exact (addVolumes_keepsContainers pod _).andThen
    (updateContainer0_keepsContainers _ _ _ (fun _ => by exact ⟨rfl, rfl, rfl⟩) h)

theorem addCommandScript_keepsContainers (c : Collaborators) (name : String) (pod p : Pod)
    (h : addCommandScript c name pod = some p) : pod.KeepsContainers p := by
  unfold addCommandScript at h
  exact (addVolumes_keepsContainers pod _).andThen
    (updateContainer0_keepsContainers _ _ _ (fun _ => by exact ⟨rfl, rfl, rfl⟩) h)

theorem addLegacyCredential_keepsContainers (c : Collaborators)
    (credential : CredentialReference) (pod p : Pod)
    (h : addLegacyCredential c pod credential = some p) : pod.KeepsContainers p := by
  unfold addLegacyCredential at h
  exact (addVolumes_keepsContainers pod _).andThen
    (updateContainer0_keepsContainers _ _ _ (fun _ => by exact ⟨rfl, rfl, rfl⟩) h)

theorem addCSICredentialGroup_keepsContainers (c : Collaborators)
    (group : List CredentialReference) (pod p : Pod)
    (h : addCSICredentialGroup c pod group = some p) : pod.KeepsContainers p := by
  unfold addCSICredentialGroup at h
  split at h
  · cases h
  · exact (addVolumes_keepsContainers pod _).andThen
      (updateContainer0_keepsContainers _ _ _ (fun _ => by exact ⟨rfl, rfl, rfl⟩) h)

theorem foldlM_keepsContainers {α : Type} (f : Pod → α → Option Pod)
    (hf : ∀ a pod p, f pod a = some p → pod.KeepsContainers p) (l : List α) (pod p : Pod)
    (h : l.foldlM f pod = some p) : pod.KeepsContainers p := by
  induction l generalizing pod with
  | nil =>
    simp only [List.foldlM_nil] at h
    cases h
    exact Pod.KeepsContainers.same _
  | cons a as ih =>
    rw [List.foldlM_cons] at h
    obtain ⟨p1, h1, h2⟩ := Option.bind_eq_some.mp h
    exact (hf a pod p1 h1).andThen (ih p1 h2)

theorem addCredentials_keepsContainers (c : Collaborators)
    (credentials : List CredentialReference) (useCSI : Bool) (pod p : Pod)
    (h : addCredentials c credentials pod useCSI = some p) : pod.KeepsContainers p := by
  unfold addCredentials at h
  split at h
  · exact foldlM_keepsContainers _
      (fun e q q1 hq => addCSICredentialGroup_keepsContainers c e.2 q q1 hq) _ _ _ h
  · exact foldlM_keepsContainers _
      (fun e q q1 hq => addLegacyCredential_keepsContainers c e q q1 hq) _ _ _ h

theorem clusterAccess_keepsContainers (c : Collaborators) (s : multiStageTestStep)
    (mounts : List VolumeMount) (needs : Bool) (pod p : Pod) (errs : List Error)
    (h : clusterAccess c s mounts needs pod = some (p, errs)) : pod.KeepsContainers p := by
  unfold clusterAccess at h
  by_cases hcl : s.clusterClaim.isSome = true
  · cases hget : getClusterClaimPodParams c mounts s.name with
    | error err =>
      simp only [hcl, hget, if_true, Option.some.injEq, Prod.mk.injEq] at h
      rw [← h.1]
      exact Pod.KeepsContainers.same _
    | ok v =>
      simp only [hcl, hget, if_true] at h
      obtain ⟨q, hq, hqp⟩ := Option.map_eq_some'.mp h
      simp only [Prod.mk.injEq] at hqp
      rw [← hqp.1]
      exact updateContainer0_keepsContainers _ _ _ (fun _ => by exact ⟨rfl, rfl, rfl⟩) hq
  · by_cases hn : needs = true
    · simp only [hcl, hn, if_true, Bool.false_eq_true, if_false] at h
      obtain ⟨q, hq, hqp⟩ := Option.map_eq_some'.mp h
      simp only [Prod.mk.injEq] at hqp
      rw [← hqp.1]
      exact updateContainer0_keepsContainers _ _ _ (fun _ => by exact ⟨rfl, rfl, rfl⟩) hq
    · simp only [hcl, hn, Bool.false_eq_true, if_false, Option.some.injEq, Prod.mk.injEq] at h
      rw [← h.1]
      exact Pod.KeepsContainers.same _

theorem preparePod_spec (c : Collaborators) (s : multiStageTestStep)
    (sv : List Volume) (o : generatePodOptions) (step : LiteralTestStep) (grace : Int)
    (pod : Pod) :
    (preparePod c s sv o step grace pod).Spec.Containers
      = mountHome c.homeVolumeName pod.Spec.Containers ∧
    (preparePod c s sv o step grace pod).Spec.InitContainers = pod.Spec.InitContainers ∧
    (preparePod c s sv o step grace pod).Spec.Volumes
      = pod.Spec.Volumes
        ++ [{ Name := c.homeVolumeName, VolumeSource := VolumeSource.EmptyDir "" none }] ++ sv := by
  unfold preparePod
  simp only [addVolumes]
  refine ⟨?_, ?_, ?_⟩ <;> (split <;> split <;> split <;> (try split) <;> rfl)

theorem mountHome_head (home : String) (k : Container) (ks : List Container) :
    ∃ k1 ks1, mountHome home (k :: ks) = k1 :: ks1 ∧ k1.Name = k.Name ∧
      k1.Command = k.Command ∧ k1.Args = k.Args ∧ ks1.length = ks.length := by
  have hlen : ∀ l : List Container, (mountHome home l).length = l.length := by
    intro l
    induction l with
    | nil => rfl
    | cons x xs ih =>
      simp only [mountHome]
      split <;> simp [ih]
  simp only [mountHome]
  split
  · exact ⟨_, _, rfl, rfl, rfl, rfl, rfl⟩
  · exact ⟨_, _, rfl, rfl, rfl, rfl, hlen ks⟩

theorem addProfile_adds (c : Collaborators) (name profile : String) (pod p : Pod)
    (h : addProfile c name profile pod = some p) :
    ∃ v ∈ p.Spec.Volumes, v.Name = profileVolumeName := by
  unfold addProfile at h
  simp only [updateContainer0, addVolumes] at h
  split at h
  · cases h
  · cases h
    exact ⟨{ Name := profileVolumeName, VolumeSource := VolumeSource.Secret name }, by simp, rfl⟩

theorem addCliInjector_adds (c : Collaborators) (imagestream : String) (pod p : Pod)
    (h : addCliInjector c imagestream pod = some p) :
    ∃ i ∈ p.Spec.InitContainers, i.Name = "inject-cli" := by
  unfold addCliInjector at h
  simp only [updateContainer0, addVolumes, addInitContainer] at h
  split at h
  · cases h
  · cases h
    exact ⟨injectCli c imagestream, by simp [injectCli], rfl⟩

theorem attachResources_parts (c : Collaborators) (s : multiStageTestStep)
    (o : generatePodOptions) (step : LiteralTestStep) (res : ResourceRequirements)
    (cr : Option ClaimRelease) (pod p : Pod)
    (h : attachResources c s o step res cr pod = some p) :
    ∃ p6, pod.Keeps p6 ∧ pod.KeepsContainers p6 ∧
      (s.profile ≠ "" → ∃ v ∈ p6.Spec.Volumes, v.Name = profileVolumeName) ∧
      (step.Cli ≠ "" → ∃ i ∈ p6.Spec.InitContainers, i.Name = "inject-cli") ∧
      p = (match s.vpnConf with
        | some vpn => setSecurityContexts p6 vpnContainerName vpn.namespaceUID
            (some vpnCapabilities) (some vpnSELinuxOptions)
        | none => p6) := by
  unfold attachResources at h
  obtain ⟨p0, h0, h⟩ := Option.bind_eq_some.mp h
  obtain ⟨p1, h1, h⟩ := Option.bind_eq_some.mp h
  obtain ⟨p2, h2, h⟩ := Option.bind_eq_some.mp h
  obtain ⟨p3, h3, h⟩ := Option.bind_eq_some.mp h
  obtain ⟨p4, h4, h⟩ := Option.bind_eq_some.mp h
  obtain ⟨p5, h5, h⟩ := Option.bind_eq_some.mp h
  have a0 : pod.Keeps p0 ∧ pod.KeepsContainers p0 := by
    split at h0
    · exact ⟨addDshmVolume_keeps _ _ _ h0, addDshmVolume_keepsContainers _ _ _ h0⟩
    · cases h0; exact ⟨Pod.Keeps.refl _, Pod.KeepsContainers.same _⟩
  have a1 : p0.Keeps p1 ∧ p0.KeepsContainers p1 ∧
      (s.profile ≠ "" → ∃ v ∈ p1.Spec.Volumes, v.Name = profileVolumeName) := by
    split at h1
    · exact ⟨addProfile_keeps c _ _ _ _ h1, addProfile_keepsContainers c _ _ _ _ h1,
        fun _ => addProfile_adds c _ _ _ _ h1⟩
    · rename_i hp
      cases h1
      exact ⟨Pod.Keeps.refl _, Pod.KeepsContainers.same _, fun hne => absurd hne hp⟩
  have a2 : p1.Keeps p2 ∧ p1.KeepsContainers p2 ∧
      (step.Cli ≠ "" → ∃ i ∈ p2.Spec.InitContainers, i.Name = "inject-cli") := by
    split at h2
    · exact ⟨addCliInjector_keeps c _ _ _ h2, addCliInjector_keepsContainers c _ _ _ h2,
        fun _ => addCliInjector_adds c _ _ _ h2⟩
    · rename_i hp
      cases h2
      exact ⟨Pod.Keeps.refl _, Pod.KeepsContainers.same _, fun hne => absurd hne hp⟩
  have a3 : p2.Keeps p3 ∧ p2.KeepsContainers p3 :=
    ⟨addSharedDirSecret_keeps c _ _ _ h3, addSharedDirSecret_keepsContainers c _ _ _ h3⟩
  have a4 : p3.Keeps p4 ∧ p3.KeepsContainers p4 :=
    ⟨addCredentials_keeps c _ _ _ _ h4, addCredentials_keepsContainers c _ _ _ _ h4⟩
  have a5 : p4.Keeps p5 ∧ p4.KeepsContainers p5 := by
    split at h5
    · exact ⟨addCommandScript_keeps c _ _ _ h5, addCommandScript_keepsContainers c _ _ _ h5⟩
    · cases h5; exact ⟨Pod.Keeps.refl _, Pod.KeepsContainers.same _⟩
  have k25 : p2.Keeps p5 := (a3.1.trans a4.1).trans a5.1
  have c25 : p2.KeepsContainers p5 := (a3.2.andThen a4.2).andThen a5.2
  refine ⟨p5, ((a0.1.trans a1.1).trans a2.1).trans k25,
    ((a0.2.andThen a1.2.1).andThen a2.2.1).andThen c25, ?_, ?_, ?_⟩
  · intro hp
    obtain ⟨v, hv, hn⟩ := a1.2.2 hp
    exact ⟨v, k25.volumes v (a2.1.volumes v hv), hn⟩
  · intro hcli
    obtain ⟨i, hi, hn⟩ := a2.2.2 hcli
    exact ⟨i, c25.inits.subset hi, hn⟩
  · cases hv : s.vpnConf with
    | none => rw [hv] at h; cases h; rfl
    | some vpn => rw [hv] at h; cases h; rfl

theorem finishPod_parts (c : Collaborators) (s : multiStageTestStep)
    (svm : List VolumeMount) (o : generatePodOptions) (cr : Option ClaimRelease)
    (step : LiteralTestStep) (res : ResourceRequirements) (depEnv : List EnvVar)
    (pod p : Pod) (errs : List Error)
    (h : finishPod c s svm o cr step res depEnv pod = some (p, errs)) :
    ∃ p2, pod.Keeps p2 ∧ pod.KeepsContainers p2 ∧
      attachResources c s o step res cr p2 = some p := by
  unfold finishPod at h
  cases hu : updateContainer0 pod (fun container =>
      { container with Env := container.Env ++ depEnv }) with
  | none => simp [hu] at h
  | some q =>
    simp only [hu] at h
    have kq : pod.Keeps q := updateContainer0_keeps _ _ _ (fun k m hm => by simpa using hm) hu
    have cq : pod.KeepsContainers q :=
      updateContainer0_keepsContainers _ _ _ (fun _ => by exact ⟨rfl, rfl, rfl⟩) hu
    cases hown : s.jobSpec.Owner with
    | none =>
      simp only [hown] at h
      cases hca : clusterAccess c s svm (isKubeconfigNeeded step o) q with
      | none => simp [hca] at h
      | some r =>
        obtain ⟨p2, errs2⟩ := r
        simp only [hca] at h
        cases hat : attachResources c s o step res cr p2 with
        | none => simp [hat] at h
        | some p3 =>
          simp only [hat, Option.some.injEq, Prod.mk.injEq] at h
          rw [← h.1]
          exact ⟨p2, (kq.trans (Pod.Keeps.refl q)).trans (clusterAccess_keeps c s svm _ _ _ _ hca),
            (cq.andThen (Pod.KeepsContainers.same q)).andThen (clusterAccess_keepsContainers c s svm _ _ _ _ hca), hat⟩
    | some owner =>
      simp only [hown] at h
      have ko : q.Keeps { q with OwnerReferences := q.OwnerReferences ++ [owner] } :=
        ⟨rfl, rfl, rfl, fun _ hv => hv, fun k ks hk => ⟨k, ks, hk, fun _ hm => hm⟩⟩
      have ko2 : q.KeepsContainers { q with OwnerReferences := q.OwnerReferences ++ [owner] } :=
        ⟨List.prefix_refl _, fun k _ hk => ⟨k, hk, rfl, rfl, rfl⟩⟩
      cases hca : clusterAccess c s svm (isKubeconfigNeeded step o) { q with OwnerReferences := q.OwnerReferences ++ [owner] } with
      | none => simp [hca] at h
      | some r =>
        obtain ⟨p2, errs2⟩ := r
        simp only [hca] at h
        cases hat : attachResources c s o step res cr p2 with
        | none => simp [hat] at h
        | some p3 =>
          simp only [hat, Option.some.injEq, Prod.mk.injEq] at h
          rw [← h.1]
          exact ⟨p2, (kq.trans ko).trans (clusterAccess_keeps c s svm _ _ _ _ hca),
            (cq.andThen ko2).andThen (clusterAccess_keepsContainers c s svm _ _ _ _ hca), hat⟩

theorem addSecretWrapper_nil (c : Collaborators) (pod : Pod) (hk : pod.Spec.Containers = [])
    (vpn : Option vpnConf) (skip : Bool) (o : generatePodOptions) :
    addSecretWrapper c pod vpn skip o = none := by
  simp [addSecretWrapper, updateContainer0, addVolumes, addInitContainer, hk]

theorem addVPNClient_cons (vpn : vpnConf) (pod : Pod) (k : Container) (ks : List Container)
    (hk : pod.Spec.Containers = k :: ks) :
    addVPNClient vpn pod
      = some { pod with Spec := { pod.Spec with
          Volumes := pod.Spec.Volumes ++ [vpnVolume] ++ [tunVolume]
          Containers :=
            { k with VolumeMounts := k.VolumeMounts ++ [{ Name := "vpn", MountPath := "/tmp/vpn" }] }
              :: (ks ++ [vpnSidecar vpn]) } } := by
  simp [addVPNClient, updateContainer0, addVolumes, hk, vpnSidecar, vpnVolume, tunVolume]

theorem decoratePod_shape (c : Collaborators) (s : multiStageTestStep) (env : List EnvVar)
    (sv : List Volume) (o : generatePodOptions) (step : LiteralTestStep) (grace : Int)
    (pod0 p : Pod) (h : decoratePod c s env sv o step grace pod0 = some p) :
    ∃ k0 ks0 k1 ks1, pod0.Spec.Containers = k0 :: ks0 ∧ p.Spec.Containers = k1 :: ks1 ∧
      k1.Name = k0.Name ∧
      k1.Command = [c.filepathJoin "/tmp/entrypoint-wrapper" "entrypoint-wrapper"] ∧
      k1.Args = waitFlags s.vpnConf ++ modeFlags (!isKubeconfigNeeded step o) o
        ++ k0.Command ++ k0.Args ∧
      (∀ vpn, s.vpnConf = some vpn → vpnSidecar vpn ∈ ks1) ∧
      cpEntrypointWrapper c ∈ p.Spec.InitContainers ∧
      (∀ v ∈ pod0.Spec.Volumes, v ∈ p.Spec.Volumes) ∧
      (∀ vpn, s.vpnConf = some vpn →
        (∃ v ∈ p.Spec.Volumes, v.Name = "vpn") ∧ (∃ v ∈ p.Spec.Volumes, v.Name = "tun")) := by
  unfold decoratePod at h
  obtain ⟨pa, h1, h⟩ := Option.bind_eq_some.mp h
  obtain ⟨pb, h2, h⟩ := Option.bind_eq_some.mp h
  obtain ⟨pc, h3, h⟩ := Option.bind_eq_some.mp h
  obtain ⟨pd, h4, h⟩ := Option.bind_eq_some.mp h
  have h1 : addSecretWrapper c (preparePod c s sv o step grace pod0) s.vpnConf
      (!isKubeconfigNeeded step o) o = some pa := h1
  obtain ⟨hprepC, hprepI, hprepV⟩ := preparePod_spec c s sv o step grace pod0
  have kbp : pb.Keeps p := ((updateContainer0_keeps _ _ _ (fun k m hm => by simpa using hm) h3).trans
    (updateContainer0_keeps _ _ _ (fun k m hm => by simpa using hm) h4)).trans
    (updateContainer0_keeps _ _ _ (fun k m hm => by simpa using hm) h)
  have cbp : pb.KeepsContainers p :=
    ((updateContainer0_keepsContainers _ _ _ (fun _ => by exact ⟨rfl, rfl, rfl⟩) h3).andThen
      (updateContainer0_keepsContainers _ _ _ (fun _ => by exact ⟨rfl, rfl, rfl⟩) h4)).andThen
      (updateContainer0_keepsContainers _ _ _ (fun _ => by exact ⟨rfl, rfl, rfl⟩) h)
  cases hc0 : pod0.Spec.Containers with
  | nil =>
    rw [addSecretWrapper_nil c _ (by rw [hprepC, hc0]; rfl)] at h1
    cases h1
  | cons k0 ks0 =>
    obtain ⟨kh, ksh, hmh, hn, hcmd, hargs, -⟩ := mountHome_head c.homeVolumeName k0 ks0
    have hkprep : (preparePod c s sv o step grace pod0).Spec.Containers = kh :: ksh := by
      rw [hprepC, hc0, hmh]
    rw [addSecretWrapper_cons c _ kh ksh hkprep] at h1
    cases h1
    cases hv : s.vpnConf with
    | none =>
      rw [hv] at h2
      cases h2
      obtain ⟨k1, hk1, hn1, hc1, ha1⟩ := cbp.containers _ _ rfl
      refine ⟨k0, ks0, k1, ksh, rfl, hk1, by rw [hn1]; exact hn, by rw [hc1], ?_, ?_, ?_, ?_, ?_⟩
      · rw [ha1, hcmd, hargs]
      · intro vpn hvpn; cases hvpn
      · exact cbp.inits.subset (by simp)
      · intro v hv0
        exact kbp.volumes v (by simp [hprepV, hv0])
      · intro vpn hvpn; cases hvpn
    | some vpn =>
      simp only [hv] at h2
      rw [addVPNClient_cons vpn _ _ _ rfl] at h2
      cases h2
      obtain ⟨k1, hk1, hn1, hc1, ha1⟩ := cbp.containers _ _ rfl
      refine ⟨k0, ks0, k1, ksh ++ [vpnSidecar vpn], rfl, hk1, by rw [hn1]; exact hn,
        by rw [hc1], ?_, ?_, ?_, ?_, ?_⟩
      · rw [ha1, hcmd, hargs]
      · intro vpn1 hvpn
        cases hvpn
        simp
      · exact cbp.inits.subset (by simp)
      · intro v hv0
        exact kbp.volumes v (by simp [hprepV, hv0])
      · intro vpn1 _
        exact ⟨⟨_, kbp.volumes vpnVolume (by simp), rfl⟩,
          ⟨_, kbp.volumes tunVolume (by simp), rfl⟩⟩

theorem stepBuild_shape (c : Collaborators) (s : multiStageTestStep) (env : List EnvVar)
    (sv : List Volume) (svm : List VolumeMount) (o : generatePodOptions)
    (step : LiteralTestStep) (res : ResourceRequirements) (pod : Pod) (errs : List Error)
    (h : stepBuild c s env sv svm o step res = some (some pod, errs)) :
    ∃ pod0 k0 ks0 p6 k6 ks6,
      stepBasePod c s svm o step res = Except.ok pod0 ∧
      pod0.Spec.Containers = k0 :: ks0 ∧ p6.Spec.Containers = k6 :: ks6 ∧
      k6.Name = k0.Name ∧
      k6.Command = [c.filepathJoin "/tmp/entrypoint-wrapper" "entrypoint-wrapper"] ∧
      k6.Args = waitFlags s.vpnConf ++ modeFlags (!isKubeconfigNeeded step o) o
        ++ k0.Command ++ k0.Args ∧
      (∀ vpn, s.vpnConf = some vpn → vpnSidecar vpn ∈ ks6) ∧
      cpEntrypointWrapper c ∈ p6.Spec.InitContainers ∧
      (step.Cli ≠ "" → ∃ i ∈ p6.Spec.InitContainers, i.Name = "inject-cli") ∧
      (∀ v ∈ pod0.Spec.Volumes, v ∈ p6.Spec.Volumes) ∧
      (∀ vpn, s.vpnConf = some vpn →
        (∃ v ∈ p6.Spec.Volumes, v.Name = "vpn") ∧ (∃ v ∈ p6.Spec.Volumes, v.Name = "tun")) ∧
      (s.profile ≠ "" → ∃ v ∈ p6.Spec.Volumes, v.Name = profileVolumeName) ∧
      pod = (match s.vpnConf with
        | some vpn => setSecurityContexts p6 vpnContainerName vpn.namespaceUID
            (some vpnCapabilities) (some vpnSELinuxOptions)
        | none => p6) := by
  unfold stepBuild at h
  obtain ⟨pod0, p1, hbase, hdec, hfin⟩ := buildStepPod_some _ _ _ _ _ _ _ _ _ _ _ _ _ _ _ _ h
  obtain ⟨k0, ks0, k1, ks1, hk0, hk1, hn1, hc1, ha1, hside, hcp, hvol, hvpnvol⟩ :=
    decoratePod_shape _ _ _ _ _ _ _ _ _ hdec
  obtain ⟨p2, k12, c12, hat⟩ := finishPod_parts _ _ _ _ _ _ _ _ _ _ _ hfin
  obtain ⟨p6, k26, c26, hprof, hcli, hpod⟩ := attachResources_parts _ _ _ _ _ _ _ _ hat
  have k16 := k12.trans k26
  have c16 := c12.andThen c26
  obtain ⟨k6, hk6, hn6, hc6, ha6⟩ := c16.containers k1 ks1 hk1
  refine ⟨pod0, k0, ks0, p6, k6, ks1, hbase, hk0, hk6, hn6.trans hn1, hc6.trans hc1,
    ha6.trans ha1, hside, c16.inits.subset hcp, hcli, fun v hv => k16.volumes v (hvol v hv), ?_,
    hprof, hpod⟩
  intro vpn hvpn
  obtain ⟨⟨v1, hv1, hn1⟩, ⟨v2, hv2, hn2⟩⟩ := hvpnvol vpn hvpn
  exact ⟨⟨v1, k16.volumes v1 hv1, hn1⟩, ⟨v2, k16.volumes v2 hv2, hn2⟩⟩

/-! ### The VPN sidecar: security contexts and volumes -/

theorem mem_setSecurityContextsOn (root : String) (uid : Int) (caps : Option Capabilities)
    (se : Option SELinuxOptions) (l : List Container) (k : Container) (hk : k ∈ l) :
    { k with SecurityContext := some (if k.Name = root then rootContext caps se
        else nonRootContext uid) } ∈ setSecurityContextsOn root uid caps se l := by
  unfold setSecurityContextsOn
  refine List.mem_map.mpr ⟨k, hk, ?_⟩
  by_cases h : k.Name = root <;> simp [h, rootContext, nonRootContext]

/-- C23: with a VPN configuration set, in every pod emitted by `generatePods`
every container and every init container has a non-nil security context:
UID 0 with the capabilities `Add = [NET_ADMIN]`, `Drop = [ALL]` and the SELinux
options of the sidecar when it is named `vpn-client`, and otherwise
`RunAsNonRoot` with the namespace UID of the VPN configuration. The sidecar
that `addVPNClient` built is among the containers, with the first of these
contexts; the init container `cp-entrypoint-wrapper` is among the init
containers, and so is `inject-cli` when the step asks for a CLI, both with the
second. -/
theorem vpn_security_partition (c : Collaborators) (s : multiStageTestStep) (vpn : vpnConf)
    (hvpn : s.vpnConf = some vpn)
    (steps : List LiteralTestStep) (env : List EnvVar) (secretVolumes : List Volume)
    (secretVolumeMounts : List VolumeMount) (genPodOpts : Option generatePodOptions)
    (r : PodsResult)
    (hr : generatePods c s steps env secretVolumes secretVolumeMounts genPodOpts = some r)
    (pod : Pod) (hp : pod ∈ r.pods) :
    (∀ k ∈ pod.allContainers,
      k.SecurityContext ≠ none ∧
      (k.Name = vpnContainerName → k.SecurityContext = some
        { RunAsUser := some 0, Capabilities := some { Add := ["NET_ADMIN"], Drop := ["ALL"] },
          SELinuxOptions := some vpnSELinuxOptions, RunAsNonRoot := none }) ∧
      (k.Name ≠ vpnContainerName → k.SecurityContext = some
        { RunAsNonRoot := some true, RunAsUser := some vpn.namespaceUID,
          Capabilities := none, SELinuxOptions := none })) ∧
    { vpnSidecar vpn with
        SecurityContext := some (rootContext (some vpnCapabilities) (some vpnSELinuxOptions)) }
      ∈ pod.Spec.Containers ∧
    { cpEntrypointWrapper c with SecurityContext := some (nonRootContext vpn.namespaceUID) }
      ∈ pod.Spec.InitContainers ∧
    ∃ step ∈ steps, ∃ res errs,
      stepBuild c s env secretVolumes secretVolumeMounts
        (genPodOpts.getD defaultGeneratePodOptions) step res = some (some pod, errs) ∧
      (step.Cli ≠ "" → ∃ i ∈ pod.Spec.InitContainers, i.Name = "inject-cli" ∧
        i.SecurityContext = some
          { RunAsNonRoot := some true, RunAsUser := some vpn.namespaceUID }) := by
  obtain ⟨step, hstep, res, errs, -, -, hb⟩ :=
    generatePods_pod_origin c s steps env secretVolumes secretVolumeMounts genPodOpts r hr pod hp
  obtain ⟨pod0, k0, ks0, p6, k6, ks6, -, -, hk6, -, -, -, hside, hcp, hcli, -, -, -, hpod⟩ :=
    stepBuild_shape _ _ _ _ _ _ _ _ _ _ hb
  simp only [hvpn] at hpod
  subst hpod
  refine ⟨?_, ?_, ?_, step, hstep, res, errs, hb, ?_⟩
  · intro k hk
    rw [allContainers_setSecurityContexts] at hk
    have h := setSecurityContextsOn_context vpnContainerName vpn.namespaceUID
      (some vpnCapabilities) (some vpnSELinuxOptions) _ k hk
    refine ⟨?_, h.1, h.2⟩
    by_cases hn : k.Name = vpnContainerName
    · rw [h.1 hn]; simp
    · rw [h.2 hn]; simp
  · have hmem : vpnSidecar vpn ∈ p6.Spec.Containers := by
      rw [hk6]; exact List.mem_cons_of_mem _ (hside vpn hvpn)
    exact mem_setSecurityContextsOn vpnContainerName vpn.namespaceUID (some vpnCapabilities)
      (some vpnSELinuxOptions) _ _ hmem
  · exact mem_setSecurityContextsOn vpnContainerName vpn.namespaceUID (some vpnCapabilities)
      (some vpnSELinuxOptions) _ _ hcp
  · intro hne
    obtain ⟨i, hi, hn⟩ := hcli hne
    refine ⟨_, mem_setSecurityContextsOn vpnContainerName vpn.namespaceUID
      (some vpnCapabilities) (some vpnSELinuxOptions) _ _ hi, hn, ?_⟩
    have : i.Name ≠ vpnContainerName := by rw [hn]; decide
    simp [this, nonRootContext]

theorem vpn_security_partition_witness :
    sampleVPNProfile.vpnConf = some { Image := "vpn", namespaceUID := 1000 } ∧
    ∃ r pod,
      generatePods sampleCollaborators sampleVPNProfile [{ As := "test", Cli := "latest" }]
        [] [] [] none = some r ∧
      pod ∈ r.pods ∧
      { vpnSidecar { Image := "vpn", namespaceUID := 1000 } with
          SecurityContext := some (rootContext (some vpnCapabilities) (some vpnSELinuxOptions)) }
        ∈ pod.Spec.Containers := by
  obtain ⟨r, pod, res, errs, hr, hp, -⟩ := sample_single_pod sampleVPNProfile
    { As := "test", Cli := "latest" } (by decide) rfl
  have hmem : pod ∈ r.pods := by rw [hp]; exact List.mem_singleton.mpr rfl
  exact ⟨rfl, r, pod, hr, hmem,
    (vpn_security_partition sampleCollaborators sampleVPNProfile
      { Image := "vpn", namespaceUID := 1000 } rfl _ _ _ _ _ r hr pod hmem).2.1⟩

theorem setSecurityContextsOn_mounts (root : String) (uid : Int) (caps : Option Capabilities)
    (se : Option SELinuxOptions) (l : List Container) (k : Container) (hk : k ∈ l) :
    ∃ k1 ∈ setSecurityContextsOn root uid caps se l,
      k1.Name = k.Name ∧ k1.Image = k.Image ∧ k1.VolumeMounts = k.VolumeMounts := by
  refine ⟨_, mem_setSecurityContextsOn root uid caps se l k hk, rfl, rfl, rfl⟩

/-- C24, where the code departs from it: with a VPN configuration and no
cluster profile, and a base pod that provides the `logs` volume, the emitted
pod has the sidecar `vpn-client` with the mounts `tun`, `vpn`, `logs` and
`cluster-profile`, and no volume named `cluster-profile`, so the sidecar
mounts a volume the pod does not have; with a cluster profile configured the
same step gets the volume. -/
theorem vpn_profile_mount_without_volume :
    sampleVPNNoProfile.vpnConf ≠ none ∧ sampleVPNNoProfile.profile = "" ∧
    (generatePods sampleWithLogs sampleVPNNoProfile [{ As := "test" }] [] [] [] none).map
      (fun r => r.pods.map fun p =>
        (p.Spec.Volumes.map (fun v => v.Name),
          p.Spec.Containers.map fun k => (k.Name, k.VolumeMounts.map fun m => m.Name)))
      = some [(["logs", "home", "entrypoint-wrapper", "vpn", "tun", "e2e"],
          [("test", ["home", "entrypoint-wrapper", "vpn", "e2e"]),
           ("vpn-client", ["tun", "vpn", "logs", "cluster-profile"])])] ∧
    "cluster-profile" ∉ ["logs", "home", "entrypoint-wrapper", "vpn", "tun", "e2e"] ∧
    sampleVPNProfile.vpnConf ≠ none ∧ sampleVPNProfile.profile ≠ "" ∧
    (generatePods sampleWithLogs sampleVPNProfile [{ As := "test" }] [] [] [] none).map
      (fun r => r.pods.map fun p =>
        (p.Spec.Volumes.map (fun v => v.Name),
          p.Spec.Containers.map fun k => (k.Name, k.VolumeMounts.map fun m => m.Name)))
      = some [(["logs", "home", "entrypoint-wrapper", "vpn", "tun", "cluster-profile", "e2e"],
          [("test", ["home", "entrypoint-wrapper", "vpn", "cluster-profile", "e2e"]),
           ("vpn-client", ["tun", "vpn", "logs", "cluster-profile"])])] :=
  ⟨by decide, by decide, by decide, by decide, by decide, by decide, by decide⟩

/-- With a VPN configuration set, every pod emitted by `generatePods` has the
`vpn-client` sidecar with its image and its four mounts (`tun`, `vpn`, `logs`,
`cluster-profile`); the volumes `tun` and `vpn` are in the volume list of the
pod; every volume of the base pod is, so `logs` is when the base pod provides
it; and the volume `cluster-profile` is when a cluster profile is
configured. -/
theorem vpn_sidecar_volumes (c : Collaborators) (s : multiStageTestStep) (vpn : vpnConf)
    (hvpn : s.vpnConf = some vpn)
    (steps : List LiteralTestStep) (env : List EnvVar) (secretVolumes : List Volume)
    (secretVolumeMounts : List VolumeMount) (genPodOpts : Option generatePodOptions)
    (r : PodsResult)
    (hr : generatePods c s steps env secretVolumes secretVolumeMounts genPodOpts = some r)
    (pod : Pod) (hp : pod ∈ r.pods) :
    (∃ k ∈ pod.Spec.Containers, k.Name = vpnContainerName ∧ k.Image = vpn.Image ∧
      k.VolumeMounts =
        [ { Name := "tun", MountPath := "/dev/net/tun" },
          { Name := "vpn", MountPath := "/tmp/vpn" },
          { Name := "logs", MountPath := "/logs" },
          { Name := "cluster-profile", MountPath := "/tmp/profile" } ]) ∧
    (∃ v ∈ pod.Spec.Volumes, v.Name = "tun") ∧
    (∃ v ∈ pod.Spec.Volumes, v.Name = "vpn") ∧
    (s.profile ≠ "" → ∃ v ∈ pod.Spec.Volumes, v.Name = "cluster-profile") ∧
    ∃ step ∈ steps, ∃ res pod0,
      stepBasePod c s secretVolumeMounts (genPodOpts.getD defaultGeneratePodOptions) step res
        = Except.ok pod0 ∧
      (∀ v ∈ pod0.Spec.Volumes, v ∈ pod.Spec.Volumes) ∧
      ((∃ v ∈ pod0.Spec.Volumes, v.Name = "logs") → ∃ v ∈ pod.Spec.Volumes, v.Name = "logs") := by
  obtain ⟨step, hstep, res, errs, -, -, hb⟩ :=
    generatePods_pod_origin c s steps env secretVolumes secretVolumeMounts genPodOpts r hr pod hp
  obtain ⟨pod0, k0, ks0, p6, k6, ks6, hbase, -, hk6, -, -, -, hside, -, -, hvol, hvv, hprof,
    hpod⟩ := stepBuild_shape _ _ _ _ _ _ _ _ _ _ hb
  simp only [hvpn] at hpod
  subst hpod
  have hmem : vpnSidecar vpn ∈ p6.Spec.Containers := by
    rw [hk6]; exact List.mem_cons_of_mem _ (hside vpn hvpn)
  obtain ⟨k1, hk1, hn1, hi1, hm1⟩ := setSecurityContextsOn_mounts vpnContainerName
    vpn.namespaceUID (some vpnCapabilities) (some vpnSELinuxOptions) _ _ hmem
  obtain ⟨hv1, hv2⟩ := hvv vpn hvpn
  exact ⟨⟨k1, hk1, hn1, hi1, hm1⟩, hv2, hv1, hprof, step, hstep, res, pod0, hbase, hvol,
    fun ⟨v, hv, hn⟩ => ⟨v, hvol v hv, hn⟩⟩

theorem vpn_sidecar_volumes_witness :
    sampleVPNProfile.vpnConf = some { Image := "vpn", namespaceUID := 1000 } ∧
    ∃ r pod,
      generatePods sampleWithLogs sampleVPNProfile [{ As := "test" }] [] [] [] none = some r ∧
      pod ∈ r.pods ∧
      (sampleVPNProfile.profile ≠ "" → ∃ v ∈ pod.Spec.Volumes, v.Name = "cluster-profile") ∧
      (generatePods sampleWithLogs sampleVPNProfile [{ As := "test" }] [] [] [] none).map
        (fun r => r.pods.map fun p => p.Spec.Volumes.map (fun v => v.Name))
        = some [["logs", "home", "entrypoint-wrapper", "vpn", "tun", "cluster-profile", "e2e"]] := by
  have hsome : (generatePods sampleWithLogs sampleVPNProfile [{ As := "test" }] [] [] []
      none).map (fun r => r.pods.map fun p => p.Spec.Volumes.map (fun v => v.Name))
      = some [["logs", "home", "entrypoint-wrapper", "vpn", "tun", "cluster-profile", "e2e"]] := by
    decide
  obtain ⟨r, hr, hpods⟩ := Option.map_eq_some'.mp hsome
  obtain ⟨pod, hp, -⟩ : ∃ pod, pod ∈ r.pods ∧ True := by
    cases hrp : r.pods with
    | nil => rw [hrp] at hpods; simp at hpods
    | cons x xs => exact ⟨x, by simp, trivial⟩
  exact ⟨rfl, r, pod, hr, hp,
    (vpn_sidecar_volumes sampleWithLogs sampleVPNProfile { Image := "vpn", namespaceUID := 1000 }
      rfl _ _ _ _ _ r hr pod hp).2.2.2.1, hsome⟩

/-! ### Mode flags -/

theorem modeFlags_cases (step : LiteralTestStep) (o : generatePodOptions) :
    modeFlags (!isKubeconfigNeeded step o) o
      = (if o.IsObserver then ["--mode=observer"]
         else if step.NoKubeconfig = some true then ["--mode=skip-kubeconfig"] else []) := by
  unfold modeFlags isKubeconfigNeeded
  cases hobs : o.IsObserver <;> cases hn : step.NoKubeconfig with
  | none => simp
  | some b => cases b <;> simp

/-- C26: the mode flags `generatePods` has `addSecretWrapper` prepend for a
step are `--mode=observer` alone in observer mode, otherwise
`--mode=skip-kubeconfig` alone when the step opts out of the kubeconfig, and
otherwise none, so they never contain both; and the arguments of the primary
container of every emitted pod are the wait flags, these mode flags, and the
command and the arguments of the primary container of the base pod. -/
theorem mode_flags_never_both (c : Collaborators) (s : multiStageTestStep)
    (steps : List LiteralTestStep) (env : List EnvVar) (secretVolumes : List Volume)
    (secretVolumeMounts : List VolumeMount) (genPodOpts : Option generatePodOptions)
    (r : PodsResult)
    (hr : generatePods c s steps env secretVolumes secretVolumeMounts genPodOpts = some r)
    (pod : Pod) (hp : pod ∈ r.pods) :
    (∀ (step : LiteralTestStep) (o : generatePodOptions),
      modeFlags (!isKubeconfigNeeded step o) o
        = (if o.IsObserver then ["--mode=observer"]
           else if step.NoKubeconfig = some true then ["--mode=skip-kubeconfig"] else []) ∧
      ¬ ("--mode=skip-kubeconfig" ∈ modeFlags (!isKubeconfigNeeded step o) o ∧
          "--mode=observer" ∈ modeFlags (!isKubeconfigNeeded step o) o)) ∧
    ∃ step ∈ steps, ∃ res pod0 k0 ks0 k1 ks1,
      stepBasePod c s secretVolumeMounts (genPodOpts.getD defaultGeneratePodOptions) step res
        = Except.ok pod0 ∧
      pod0.Spec.Containers = k0 :: ks0 ∧ pod.Spec.Containers = k1 :: ks1 ∧
      k1.Command = [c.filepathJoin "/tmp/entrypoint-wrapper" "entrypoint-wrapper"] ∧
      k1.Args = waitFlags s.vpnConf
        ++ modeFlags (!isKubeconfigNeeded step (genPodOpts.getD defaultGeneratePodOptions))
            (genPodOpts.getD defaultGeneratePodOptions)
        ++ k0.Command ++ k0.Args := by
  refine ⟨?_, ?_⟩
  · intro step o
    refine ⟨modeFlags_cases step o, ?_⟩
    rw [modeFlags_cases]
    cases hobs : o.IsObserver <;> by_cases hn : step.NoKubeconfig = some true <;> simp [hn]
  · obtain ⟨step, hstep, res, errs, -, -, hb⟩ :=
      generatePods_pod_origin c s steps env secretVolumes secretVolumeMounts genPodOpts r hr pod hp
    obtain ⟨pod0, k0, ks0, p6, k6, ks6, hbase, hk0, hk6, -, hc6, ha6, -, -, -, -, -, -, hpod⟩ :=
      stepBuild_shape _ _ _ _ _ _ _ _ _ _ hb
    cases hv : s.vpnConf with
    | none =>
      simp only [hv] at hpod
      subst hpod
      exact ⟨step, hstep, res, pod0, k0, ks0, k6, ks6, hbase, hk0, hk6, hc6, by rw [ha6, hv]⟩
    | some vpn =>
      simp only [hv] at hpod
      subst hpod
      have hcs : (setSecurityContexts p6 vpnContainerName vpn.namespaceUID (some vpnCapabilities)
          (some vpnSELinuxOptions)).Spec.Containers
          = setSecurityContextsOn vpnContainerName vpn.namespaceUID (some vpnCapabilities)
              (some vpnSELinuxOptions) (k6 :: ks6) := by
        simp [setSecurityContexts, hk6]
      simp only [setSecurityContextsOn, List.map_cons] at hcs
      refine ⟨step, hstep, res, pod0, k0, ks0, _, _, hbase, hk0, hcs, ?_, ?_⟩
      · split <;> exact hc6
      · rw [← hv, ← ha6]
        split <;> rfl

theorem mode_flags_never_both_witness :
    ∃ r pod,
      generatePods sampleCollaborators { name := "e2e" }
        [{ As := "test", NoKubeconfig := some true }] [] [] []
        (some { IsObserver := true }) = some r ∧
      pod ∈ r.pods ∧
      ¬ ("--mode=skip-kubeconfig" ∈ modeFlags
            (!isKubeconfigNeeded { As := "test", NoKubeconfig := some true } { IsObserver := true })
            { IsObserver := true } ∧
          "--mode=observer" ∈ modeFlags
            (!isKubeconfigNeeded { As := "test", NoKubeconfig := some true } { IsObserver := true })
            { IsObserver := true }) ∧
      (generatePods sampleCollaborators { name := "e2e" }
        [{ As := "test", NoKubeconfig := some true }] [] [] []
        (some { IsObserver := true })).map
        (fun r => r.pods.map fun p => p.Spec.Containers.map fun k => k.Args)
        = some [[["--mode=observer", "/bin/bash", "-c", "#!/bin/bash\n"]]] := by
  have hsome : (generatePods sampleCollaborators { name := "e2e" }
      [{ As := "test", NoKubeconfig := some true }] [] [] []
      (some { IsObserver := true })).map
      (fun r => r.pods.map fun p => p.Spec.Containers.map fun k => k.Args)
      = some [[["--mode=observer", "/bin/bash", "-c", "#!/bin/bash\n"]]] := by
    decide
  obtain ⟨r, hr, hpods⟩ := Option.map_eq_some'.mp hsome
  obtain ⟨pod, hp⟩ : ∃ pod, pod ∈ r.pods := by
    cases hrp : r.pods with
    | nil => rw [hrp] at hpods; simp at hpods
    | cons x xs => exact ⟨x, by simp⟩
  exact ⟨r, pod, hr, hp,
    ((mode_flags_never_both sampleCollaborators { name := "e2e" }
      [{ As := "test", NoKubeconfig := some true }] [] [] [] (some { IsObserver := true })
      r hr pod hp).1 { As := "test", NoKubeconfig := some true } { IsObserver := true }).2,
    hsome⟩

/-! ### Names of secret provider classes -/

set_option maxRecDepth 100000 in
/-- C14, as stated, fails: at collection `colours` and mount path `/tmp/path`
the list with the one credential `blue-red` and the list with the two
credentials `blue` and `red` differ in membership and have the same canonical
string (`colours`, `/tmp/path`, `blue` and `red` joined by hyphens), so
`getSPCName` returns the same name for both:
`ci-op-test123-be61d046e5948a87-spc` in namespace `ci-op-test123` with SHA-256,
and equal names in every namespace with every digest. -/
theorem getSPCName_collision_counterexample :
    (∃ credential ∈
        [({ Name := "blue-red", Collection := "colours", MountPath := "/tmp/path" } :
          CredentialReference)],
      credential ∉
        [({ Name := "blue", Collection := "colours", MountPath := "/tmp/path" } :
          CredentialReference),
         { Name := "red", Collection := "colours", MountPath := "/tmp/path" }]) ∧
    getSPCName sha256 "ci-op-test123" "colours" "/tmp/path"
        [{ Name := "blue-red", Collection := "colours", MountPath := "/tmp/path" }]
      = "ci-op-test123-be61d046e5948a87-spc" ∧
    getSPCName sha256 "ci-op-test123" "colours" "/tmp/path"
        [{ Name := "blue", Collection := "colours", MountPath := "/tmp/path" },
         { Name := "red", Collection := "colours", MountPath := "/tmp/path" }]
      = "ci-op-test123-be61d046e5948a87-spc" ∧
    ∀ (digest : String → Nat) (ns : String),
      getSPCName digest ns "colours" "/tmp/path"
          [{ Name := "blue-red", Collection := "colours", MountPath := "/tmp/path" }]
        = getSPCName digest ns "colours" "/tmp/path"
          [{ Name := "blue", Collection := "colours", MountPath := "/tmp/path" },
           { Name := "red", Collection := "colours", MountPath := "/tmp/path" }] :=
  ⟨by decide, by decide, by decide, fun _ _ => rfl⟩

set_option maxRecDepth 100000 in
/-- C14, amended: the name `getSPCName` returns depends on the credential list
only through its canonical string, so calling it again with the same list, or
with any list that has the same canonical string, returns the same name. Two
lists get the same name exactly when the retained digits of the digests of
their canonical strings coincide: the first sixteen hexadecimal digits when
the namespace has at most 42 characters, and the first thirty-two otherwise.
With SHA-256 the lists `red, blue` and `red` at collection `colours` and mount
path `/tmp/path` get different names in every namespace. -/
theorem getSPCName_same_name_iff (digest : String → Nat) (ns collection mountPath : String)
    (l1 l2 : List CredentialReference) :
    (spcKey collection mountPath l1 = spcKey collection mountPath l2 →
      getSPCName digest ns collection mountPath l1
        = getSPCName digest ns collection mountPath l2) ∧
    (getSPCName digest ns collection mountPath l1
        = getSPCName digest ns collection mountPath l2 ↔
      if ns.length ≤ 42 then
        digest (spcKey collection mountPath l1) / 16 ^ 48 % 16 ^ 16
          = digest (spcKey collection mountPath l2) / 16 ^ 48 % 16 ^ 16
      else
        digest (spcKey collection mountPath l1) / 16 ^ 32 % 16 ^ 32
          = digest (spcKey collection mountPath l2) / 16 ^ 32 % 16 ^ 32) ∧
    (∀ anyNs : String,
      getSPCName sha256 anyNs "colours" "/tmp/path"
          [{ Name := "red", Collection := "colours", MountPath := "/tmp/path" },
           { Name := "blue", Collection := "colours", MountPath := "/tmp/path" }]
        ≠ getSPCName sha256 anyNs "colours" "/tmp/path"
          [{ Name := "red", Collection := "colours", MountPath := "/tmp/path" }]) := by
  have hsuffix : ("-spc" : String).length = 4 := rfl
  refine ⟨?_, ?_, ?_⟩
  · intro h
    simp only [getSPCName, h]
  · unfold getSPCName
    rcases generatedName_cases digest "-spc" ns (spcKey collection mountPath l1) with
        ⟨h1, e1⟩ | ⟨h1, e1⟩ <;>
      rcases generatedName_cases digest "-spc" ns (spcKey collection mountPath l2) with
        ⟨h2, e2⟩ | ⟨h2, e2⟩
    · have hns : ns.length ≤ 42 := by omega
      rw [if_pos hns]
      constructor
      · intro heq
        by_contra hne
        exact generatedName_ne_of_digits digest "-spc" ns _ _ hne heq
      · intro hd
        rw [e1, e2]
        simp only [hexDigits, Nat.reduceSub, hd]
    · omega
    · omega
    · have hns : ¬ ns.length ≤ 42 := by omega
      rw [if_neg hns, e1, e2]
      constructor
      · intro heq
        have := hexDigits_inj 32 _ _ heq
        simpa only [Nat.reduceSub] using this
      · intro hd
        simp only [hexDigits, Nat.reduceSub, hd]
  · intro anyNs
    exact generatedName_ne_of_digits sha256 "-spc" anyNs _ _ (by decide)

set_option maxRecDepth 100000 in
theorem getSPCName_same_name_iff_witness :
    spcKey "colours" "/tmp/path"
        [{ Name := "blue-red", Collection := "colours", MountPath := "/tmp/path" }]
      = spcKey "colours" "/tmp/path"
        [{ Name := "blue", Collection := "colours", MountPath := "/tmp/path" },
         { Name := "red", Collection := "colours", MountPath := "/tmp/path" }] ∧
    getSPCName sha256 "ci-op-test123" "colours" "/tmp/path"
        [{ Name := "blue-red", Collection := "colours", MountPath := "/tmp/path" }]
      = getSPCName sha256 "ci-op-test123" "colours" "/tmp/path"
        [{ Name := "blue", Collection := "colours", MountPath := "/tmp/path" },
         { Name := "red", Collection := "colours", MountPath := "/tmp/path" }] ∧
    getSPCName sha256 "ci-op-test123" "colours" "/tmp/path"
        [{ Name := "red", Collection := "colours", MountPath := "/tmp/path" },
         { Name := "blue", Collection := "colours", MountPath := "/tmp/path" }]
      ≠ getSPCName sha256 "ci-op-test123" "colours" "/tmp/path"
        [{ Name := "red", Collection := "colours", MountPath := "/tmp/path" }] ∧
    getSPCName sha256 "ci-op-test123" "colours" "/tmp/path"
        [{ Name := "red", Collection := "colours", MountPath := "/tmp/path" },
         { Name := "blue", Collection := "colours", MountPath := "/tmp/path" }]
      = "ci-op-test123-89369b79c638ce6a-spc" ∧
    getSPCName sha256 "ci-op-test123" "colours" "/tmp/path"
        [{ Name := "red", Collection := "colours", MountPath := "/tmp/path" }]
      = "ci-op-test123-6bdd7873a5c3264b-spc" :=
  ⟨by decide,
   (getSPCName_same_name_iff sha256 "ci-op-test123" "colours" "/tmp/path"
      [{ Name := "blue-red", Collection := "colours", MountPath := "/tmp/path" }]
      [{ Name := "blue", Collection := "colours", MountPath := "/tmp/path" },
       { Name := "red", Collection := "colours", MountPath := "/tmp/path" }]).1 (by decide),
   (getSPCName_same_name_iff sha256 "ci-op-test123" "colours" "/tmp/path" [] []).2.2
      "ci-op-test123",
   by decide, by decide⟩

/-! ### Names as DNS labels -/

/-- C15, amended: for every digest, namespace, collection, mount path and
credential list, the names returned by `getCSIVolumeName` and `getSPCName` are
at most 63 characters long; and when the namespace is made of ASCII letters,
digits and hyphens and starts with a letter or a digit, the names moreover
consist only of lower-case letters, digits and hyphens, and neither start nor
end with a hyphen. -/
theorem generated_names_are_dns_labels (digest : String → Nat)
    (ns collection mountPath : String) (credentials : List CredentialReference) :
    (getCSIVolumeName digest ns collection mountPath).length ≤ 63 ∧
    (getSPCName digest ns collection mountPath credentials).length ≤ 63 ∧
    ((∀ ch ∈ ns.toList, ch ∈ namespaceChars) →
      (∃ ch rest, ns.toList = ch :: rest ∧ ch ≠ '-') →
      IsDNSLabel (getCSIVolumeName digest ns collection mountPath) ∧
      IsDNSLabel (getSPCName digest ns collection mountPath credentials)) :=
  ⟨generatedName_length_le digest "" ns _, generatedName_length_le digest "-spc" ns _,
   fun hchars hhead =>
    ⟨generatedName_isDNSLabel digest "" ns _ (Or.inl rfl) hchars hhead,
     generatedName_isDNSLabel digest "-spc" ns _ (Or.inr rfl) hchars hhead⟩⟩

set_option maxRecDepth 100000 in
theorem generated_names_are_dns_labels_witness :
    (getCSIVolumeName sha256 "test_ns" "coll1" "/tmp/cred1").length ≤ 63 ∧
    (getSPCName sha256 "test_ns" "coll1" "/tmp/cred1"
      [{ Name := "cred1", Collection := "coll1", MountPath := "/tmp/cred1" }]).length ≤ 63 ∧
    (∀ ch ∈ "CI-op-Test123".toList, ch ∈ namespaceChars) ∧
    (∃ ch rest, "CI-op-Test123".toList = ch :: rest ∧ ch ≠ '-') ∧
    IsDNSLabel (getCSIVolumeName sha256 "CI-op-Test123" "colours" "/tmp/path") ∧
    IsDNSLabel (getSPCName sha256 "CI-op-Test123" "colours" "/tmp/path"
      [{ Name := "red", Collection := "colours", MountPath := "/tmp/path" }]) :=
  ⟨(generated_names_are_dns_labels sha256 "test_ns" "coll1" "/tmp/cred1"
      [{ Name := "cred1", Collection := "coll1", MountPath := "/tmp/cred1" }]).1,
   (generated_names_are_dns_labels sha256 "test_ns" "coll1" "/tmp/cred1"
      [{ Name := "cred1", Collection := "coll1", MountPath := "/tmp/cred1" }]).2.1,
   by decide, ⟨'C', "I-op-Test123".toList, rfl, by decide⟩,
   (generated_names_are_dns_labels sha256 "CI-op-Test123" "colours" "/tmp/path"
      [{ Name := "red", Collection := "colours", MountPath := "/tmp/path" }]).2.2
     (by decide) ⟨'C', "I-op-Test123".toList, rfl, by decide⟩⟩

/-! ### The aggregated error, by source -/

theorem dependencies_resolve_iff (c : Collaborators) (s : multiStageTestStep)
    (step : LiteralTestStep) :
    (envForDependencies c s step).2 = [] ↔
      ∀ d ∈ step.Dependencies,
        d.PullSpec ≠ "" ∨ ∃ ref, digestLookup c s d = Except.ok ref := by
  rw [envForDependencies_eq]
  simp only [List.filterMap_eq_nil_iff]
  constructor
  · intro h d hd
    have hnone := h d hd
    by_cases hp : d.PullSpec = ""
    · right
      cases hl : digestLookup c s d with
      | ok ref => exact ⟨ref, rfl⟩
      | error err => simp [dependencyError, hp, hl] at hnone
    · exact Or.inl hp
  · intro h d hd
    rcases h d hd with hp | ⟨ref, hl⟩
    · simp [dependencyError, hp]
    · by_cases hp : d.PullSpec = ""
      · simp [dependencyError, hp, hl]
      · simp [dependencyError, hp]

theorem clusterErrors_nil_iff (c : Collaborators) (s : multiStageTestStep)
    (svm : List VolumeMount) :
    clusterErrors c s svm = [] ↔
      ¬ (s.profile ≠ "" ∧ s.clusterClaim.isSome = true) ∧
      (s.clusterClaim.isSome = true → ∃ v, getClusterClaimPodParams c svm s.name = Except.ok v) := by
  unfold clusterErrors
  by_cases hcl : s.clusterClaim.isSome = true
  · cases hget : getClusterClaimPodParams c svm s.name with
    | error err => simp [hcl]
    | ok v => by_cases hp : s.profile = "" <;> simp [hcl, hp]
  · simp [hcl]

theorem stepContribution_errs_nil_iff (c : Collaborators) (hc : c.WellBehaved)
    (s : multiStageTestStep) (env : List EnvVar) (sv : List Volume) (svm : List VolumeMount)
    (o : generatePodOptions) (step : LiteralTestStep) :
    (∃ d, stepContribution c s env sv svm o step = some d ∧ d.2.1 = []) ↔
      (skipsStep c s step = false →
        (∃ res pod0, c.ResourcesFor step.Resources = Except.ok res ∧
          stepBasePod c s svm o step res = Except.ok pod0) ∧
        (∀ d ∈ step.Dependencies,
          d.PullSpec ≠ "" ∨ ∃ ref, digestLookup c s d = Except.ok ref) ∧
        ¬ (s.profile ≠ "" ∧ s.clusterClaim.isSome = true) ∧
        (s.clusterClaim.isSome = true →
          ∃ v, getClusterClaimPodParams c svm s.name = Except.ok v)) := by
  rcases stepContribution_cases c hc s env sv svm o step with
    ⟨hskip, h⟩ | ⟨hskip, hnot, errs, be, hne, h⟩ | ⟨hskip, hreach, pod, h⟩
  · constructor
    · intro _ hns
      rw [hskip] at hns
      cases hns
    · intro _
      exact ⟨_, h, rfl⟩
  · constructor
    · rintro ⟨d, hd, hnil⟩
      rw [h] at hd
      cases hd
      exact absurd hnil hne
    · intro hall
      obtain ⟨hbase, hdeps, -, -⟩ := hall hskip
      exact absurd ⟨hskip, hbase, (dependencies_resolve_iff c s step).mpr hdeps⟩ hnot
  · constructor
    · rintro ⟨d, hd, hnil⟩ _
      rw [h] at hd
      cases hd
      obtain ⟨h1, h2⟩ := (clusterErrors_nil_iff c s svm).mp hnil
      exact ⟨hreach.basePod, (dependencies_resolve_iff c s step).mp hreach.dependencies, h1, h2⟩
    · intro hall
      obtain ⟨-, -, h1, h2⟩ := hall hskip
      exact ⟨_, h, (clusterErrors_nil_iff c s svm).mpr ⟨h1, h2⟩⟩

/-- C6: with collaborators that cannot make it panic, `generatePods` returns,
and the error it returns is nil if and only if every step of the list that is
not skipped passes every source of error: its resources parse and the base pod
generator succeeds on them, each of its dependencies has a pull spec or a
successful digest lookup, the test does not have both a cluster profile and a
cluster claim, and with a cluster claim the claim parameters are found. When
the error is nil the returned list has exactly one manifest per input step
that is not skipped. -/
theorem generatePods_error_nil_iff (c : Collaborators) (hc : c.WellBehaved)
    (s : multiStageTestStep) (steps : List LiteralTestStep) (env : List EnvVar)
    (secretVolumes : List Volume) (secretVolumeMounts : List VolumeMount)
    (genPodOpts : Option generatePodOptions) :
    ∃ r, generatePods c s steps env secretVolumes secretVolumeMounts genPodOpts = some r ∧
      (r.err = none ↔ ∀ step ∈ steps, skipsStep c s step = false →
        (∃ res pod0, c.ResourcesFor step.Resources = Except.ok res ∧
          stepBasePod c s secretVolumeMounts (genPodOpts.getD defaultGeneratePodOptions) step res
            = Except.ok pod0) ∧
        (∀ d ∈ step.Dependencies,
          d.PullSpec ≠ "" ∨ ∃ ref, digestLookup c s d = Except.ok ref) ∧
        ¬ (s.profile ≠ "" ∧ s.clusterClaim.isSome = true) ∧
        (s.clusterClaim.isSome = true →
          ∃ v, getClusterClaimPodParams c secretVolumeMounts s.name = Except.ok v)) ∧
      (r.err = none →
        r.pods.length = (steps.filter fun step => !skipsStep c s step).length) := by
  obtain ⟨d, hd⟩ := contributions_total c hc s env secretVolumes secretVolumeMounts
    (genPodOpts.getD defaultGeneratePodOptions) steps
  obtain ⟨h1, h2⟩ := contributions_errs_nil c hc s env secretVolumes secretVolumeMounts
    (genPodOpts.getD defaultGeneratePodOptions) steps d hd
  refine ⟨_, by rw [generatePods_eq, hd]; rfl, ?_, ?_⟩
  · simp only [NewAggregate_eq_none, h1]
    constructor
    · intro h step hstep
      exact (stepContribution_errs_nil_iff c hc s env secretVolumes secretVolumeMounts
        (genPodOpts.getD defaultGeneratePodOptions) step).mp (h step hstep)
    · intro h step hstep
      exact (stepContribution_errs_nil_iff c hc s env secretVolumes secretVolumeMounts
        (genPodOpts.getD defaultGeneratePodOptions) step).mpr (h step hstep)
  · intro hnil
    exact h2 (by simpa [NewAggregate_eq_none] using hnil)

theorem generatePods_error_nil_iff_witness :
    sampleCollaborators.WellBehaved ∧
    (∃ r, generatePods sampleCollaborators { name := "e2e" }
        [{ As := "setup" }, { As := "gather", OptionalOnSuccess := some true },
          sampleFailingPostStep] [] [] [] none = some r ∧
      r.err ≠ none ∧ r.pods.length = 2) ∧
    (∃ r, generatePods sampleCollaborators { name := "e2e", flags := 1 }
        [{ As := "setup" }, { As := "gather", OptionalOnSuccess := some true }] [] [] [] none
        = some r ∧
      r.err = none ∧ r.pods.length = 1) := by
  refine ⟨sampleCollaborators_wellBehaved, ?_, ?_⟩
  · obtain ⟨r, hr, hiff, -⟩ := generatePods_error_nil_iff sampleCollaborators
      sampleCollaborators_wellBehaved { name := "e2e" }
      [{ As := "setup" }, { As := "gather", OptionalOnSuccess := some true },
        sampleFailingPostStep] [] [] [] none
    refine ⟨r, hr, ?_, ?_⟩
    · intro hnil
      obtain ⟨-, hdeps, -⟩ := hiff.mp hnil sampleFailingPostStep (by simp) (by decide)
      rcases hdeps { Name := "x", Env := "X" } (List.mem_singleton.mpr rfl) with hp | ⟨ref, hl⟩
      · exact hp rfl
      · cases hl
    · have hlen : (generatePods sampleCollaborators { name := "e2e" }
          [{ As := "setup" }, { As := "gather", OptionalOnSuccess := some true },
            sampleFailingPostStep] [] [] [] none).map (fun r => r.pods.length) = some 2 := by
        decide
      rw [hr] at hlen
      exact Option.some.inj hlen
  · obtain ⟨r, hr, hiff, hlen⟩ := generatePods_error_nil_iff sampleCollaborators
      sampleCollaborators_wellBehaved { name := "e2e", flags := 1 }
      [{ As := "setup" }, { As := "gather", OptionalOnSuccess := some true }] [] [] [] none
    have hnil : r.err = none := by
      refine hiff.mpr ?_
      intro step hstep hns
      simp only [List.mem_cons, List.mem_singleton, List.not_mem_nil, or_false] at hstep
      rcases hstep with rfl | rfl
      · exact ⟨⟨_, _, rfl, rfl⟩, fun d hd => absurd hd (List.not_mem_nil d), by decide,
          fun h => absurd h (by decide)⟩
      · exact absurd hns (by decide)
    exact ⟨r, hr, hnil, hlen hnil⟩

/-! ### Kubeconfig and the service account -/

/-- C20: `isKubeconfigNeeded` returns false exactly when `NoKubeconfig` of the
step is set to true and the options are not in observer mode. For every step
that is not skipped, whose resources parse, whose base pod is generated and
whose dependencies resolve, `generatePods` returns and the pod list holds the
pod of the step between the pods of the steps before and after it; that pod
has `ServiceAccountName` equal to the test name when a kubeconfig is needed
for the step, and otherwise the empty string together with
`AutomountServiceAccountToken = false`. -/
theorem kubeconfig_decides_service_account (c : Collaborators) (hc : c.WellBehaved)
    (s : multiStageTestStep) (before after : List LiteralTestStep) (step : LiteralTestStep)
    (env : List EnvVar) (secretVolumes : List Volume) (secretVolumeMounts : List VolumeMount)
    (genPodOpts : Option generatePodOptions)
    (hreach : ReachesClusterAccess c s secretVolumeMounts
      (genPodOpts.getD defaultGeneratePodOptions) step) :
    (∀ (anyStep : LiteralTestStep) (opts : generatePodOptions),
      isKubeconfigNeeded anyStep opts = false ↔
        anyStep.NoKubeconfig = some true ∧ opts.IsObserver = false) ∧
    ∃ r ra rb r1 pod,
      generatePods c s (before ++ step :: after) env secretVolumes secretVolumeMounts genPodOpts
        = some r ∧
      generatePods c s before env secretVolumes secretVolumeMounts genPodOpts = some ra ∧
      generatePods c s after env secretVolumes secretVolumeMounts genPodOpts = some rb ∧
      generatePods c s [step] env secretVolumes secretVolumeMounts genPodOpts = some r1 ∧
      r1.pods = [pod] ∧
      r.pods = ra.pods ++ pod :: rb.pods ∧
      (isKubeconfigNeeded step (genPodOpts.getD defaultGeneratePodOptions) = true →
        pod.Spec.ServiceAccountName = s.name) ∧
      (isKubeconfigNeeded step (genPodOpts.getD defaultGeneratePodOptions) = false →
        pod.Spec.ServiceAccountName = "" ∧
        pod.Spec.AutomountServiceAccountToken = some false) := by
  refine ⟨isKubeconfigNeeded_false_iff, ?_⟩
  obtain ⟨r, ra, rb, r1, pod, hr, hra, hrb, hr1, hp1, hpods, -⟩ :=
    generatePods_reaching_step c hc s before after step env secretVolumes secretVolumeMounts
      genPodOpts hreach
  obtain ⟨step1, hstep1, res, errs, -, -, hb⟩ :=
    generatePods_pod_origin c s [step] env secretVolumes secretVolumeMounts genPodOpts r1 hr1
      pod (by simp [hp1])
  simp only [List.mem_singleton] at hstep1
  subst hstep1
  obtain ⟨-, -, h1, h2, -⟩ := stepBuild_pod_facts _ _ _ _ _ _ _ _ _ _ hb
  exact ⟨r, ra, rb, r1, pod, hr, hra, hrb, hr1, hp1, hpods, h1, h2⟩

theorem kubeconfig_decides_service_account_witness :
    sampleCollaborators.WellBehaved ∧
    ReachesClusterAccess sampleCollaborators { name := "e2e" } []
      ((none : Option generatePodOptions).getD defaultGeneratePodOptions)
      { As := "test", NoKubeconfig := some true } ∧
    (∃ r pod,
      generatePods sampleCollaborators { name := "e2e" }
        ([{ As := "pre" }] ++ { As := "test", NoKubeconfig := some true } :: [{ As := "post" }])
        [] [] [] none = some r ∧
      pod ∈ r.pods ∧
      pod.Spec.ServiceAccountName = "" ∧ pod.Spec.AutomountServiceAccountToken = some false) ∧
    (generatePods sampleCollaborators { name := "e2e" }
        ([{ As := "pre" }] ++ { As := "test", NoKubeconfig := some true } :: [{ As := "post" }])
        [] [] [] none).map
      (fun r => r.pods.map fun p =>
        (p.Name, p.Spec.ServiceAccountName, p.Spec.AutomountServiceAccountToken))
      = some [("e2e-pre", "e2e", none), ("e2e-test", "", some false), ("e2e-post", "e2e", none)] := by
  have hreach := sample_reaches { name := "e2e" } []
    ((none : Option generatePodOptions).getD defaultGeneratePodOptions)
    { As := "test", NoKubeconfig := some true } (by decide) rfl
  refine ⟨sampleCollaborators_wellBehaved, hreach, ?_, by decide⟩
  obtain ⟨r, ra, rb, r1, pod, hr, -, -, -, -, hpods, -, hno⟩ :=
    (kubeconfig_decides_service_account sampleCollaborators sampleCollaborators_wellBehaved
      { name := "e2e" } [{ As := "pre" }] [{ As := "post" }]
      { As := "test", NoKubeconfig := some true } [] [] [] none hreach).2
  exact ⟨r, pod, hr, by rw [hpods]; simp, hno (by decide)⟩

/-! ### Shared memory -/

theorem addVolumes_lacksDshm (pod : Pod) (vs : List Volume) (h : pod.LacksDshm)
    (hvs : ∀ v ∈ vs, v.Name ≠ "dshm") : (addVolumes pod vs).LacksDshm := by
  refine ⟨?_, h.2⟩
  intro v hv
  simp only [addVolumes, List.mem_append] at hv
  rcases hv with hv | hv
  · exact h.1 v hv
  · exact hvs v hv

theorem addInitContainer_lacksDshm (pod : Pod) (k : Container) (h : pod.LacksDshm) :
    (addInitContainer pod k).LacksDshm :=
  ⟨h.1, h.2⟩

theorem appendContainer_lacksDshm (pod : Pod) (k0 : Container) (h : pod.LacksDshm)
    (hk0 : ∀ m ∈ k0.VolumeMounts, m.Name ≠ "dshm") :
    Pod.LacksDshm
      { pod with Spec := { pod.Spec with Containers := pod.Spec.Containers ++ [k0] } } := by
  refine ⟨h.1, ?_⟩
  intro k hk m hm
  simp only [List.mem_append, List.mem_singleton] at hk
  rcases hk with hk | hk
  · exact h.2 k hk m hm
  · rw [hk] at hm
    exact hk0 m hm

theorem updateContainer0_lacksDshm (pod p : Pod) (f : Container → Container)
    (ms : List VolumeMount) (h : pod.LacksDshm)
    (hf : ∀ k : Container, (f k).VolumeMounts = k.VolumeMounts ++ ms)
    (hms : ∀ m ∈ ms, m.Name ≠ "dshm")
    (hu : updateContainer0 pod f = some p) : p.LacksDshm := by
  unfold updateContainer0 at hu
  split at hu
  · cases hu
  · rename_i k ks hk
    cases hu
    refine ⟨h.1, ?_⟩
    intro k1 hk1 m hm
    simp only [List.mem_cons] at hk1
    rcases hk1 with hk1 | hk1
    · rw [hk1, hf k, List.mem_append] at hm
      rcases hm with hm | hm
      · exact h.2 k (by rw [hk]; simp) m hm
      · exact hms m hm
    · exact h.2 k1 (by rw [hk]; simp [hk1]) m hm

theorem mountHome_lacksDshm (home : String) (hhome : home ≠ "dshm") (l : List Container)
    (h : ∀ k ∈ l, ∀ m ∈ k.VolumeMounts, m.Name ≠ "dshm") :
    ∀ k ∈ mountHome home l, ∀ m ∈ k.VolumeMounts, m.Name ≠ "dshm" := by
  induction l with
  | nil =>
    intro k hk
    simp [mountHome] at hk
  | cons x xs ih =>
    intro k hk m hm
    simp only [mountHome] at hk
    split at hk
    · simp only [List.mem_cons] at hk
      rcases hk with hk | hk
      · rw [hk] at hm
        simp only [List.mem_append, List.mem_singleton] at hm
        rcases hm with hm | hm
        · exact h x (by simp) m hm
        · rw [hm]; exact hhome
      · exact h k (by simp [hk]) m hm
    · simp only [List.mem_cons] at hk
      rcases hk with hk | hk
      · rw [hk] at hm
        exact h x (by simp) m hm
      · exact ih (fun k hk => h k (by simp [hk])) k hk m hm

theorem preparePod_lacksDshm (c : Collaborators) (s : multiStageTestStep)
    (sv : List Volume) (o : generatePodOptions) (step : LiteralTestStep) (grace : Int)
    (pod : Pod) (h : pod.LacksDshm) (hhome : c.homeVolumeName ≠ "dshm")
    (hsv : ∀ v ∈ sv, v.Name ≠ "dshm") :
    (preparePod c s sv o step grace pod).LacksDshm := by
  obtain ⟨hC, -, hV⟩ := preparePod_spec c s sv o step grace pod
  refine ⟨?_, ?_⟩
  · intro v hv
    rw [hV] at hv
    simp only [List.mem_append, List.mem_singleton] at hv
    rcases hv with (hv | hv) | hv
    · exact h.1 v hv
    · rw [hv]; exact hhome
    · exact hsv v hv
  · rw [hC]
    exact mountHome_lacksDshm _ hhome _ h.2

theorem addSecretWrapper_lacksDshm (c : Collaborators) (vpn : Option vpnConf) (skip : Bool)
    (o : generatePodOptions) (pod p : Pod) (h : pod.LacksDshm)
    (hu : addSecretWrapper c pod vpn skip o = some p) : p.LacksDshm := by
  unfold addSecretWrapper at hu
  exact updateContainer0_lacksDshm _ _ _
    [{ Name := "entrypoint-wrapper", MountPath := "/tmp/entrypoint-wrapper" }]
    (addInitContainer_lacksDshm _ _ (addVolumes_lacksDshm pod _ h (by simp)))
    (fun _ => rfl) (by simp) hu

theorem addVPNClient_lacksDshm (vpn : vpnConf) (pod p : Pod) (h : pod.LacksDshm)
    (hu : addVPNClient vpn pod = some p) : p.LacksDshm := by
  unfold addVPNClient at hu
  exact updateContainer0_lacksDshm _ _ _ [{ Name := "vpn", MountPath := "/tmp/vpn" }]
    (addVolumes_lacksDshm _ _ (addVolumes_lacksDshm _ _
      (appendContainer_lacksDshm pod _ h (by simp [profileVolumeName])) (by simp)) (by simp))
    (fun _ => rfl) (by simp) hu

theorem decoratePod_lacksDshm (c : Collaborators) (s : multiStageTestStep) (env : List EnvVar)
    (sv : List Volume) (o : generatePodOptions) (step : LiteralTestStep) (grace : Int)
    (pod0 p : Pod) (h0 : pod0.LacksDshm) (hhome : c.homeVolumeName ≠ "dshm")
    (hsv : ∀ v ∈ sv, v.Name ≠ "dshm")
    (h : decoratePod c s env sv o step grace pod0 = some p) : p.LacksDshm := by
  unfold decoratePod at h
  obtain ⟨pa, h1, h⟩ := Option.bind_eq_some.mp h
  obtain ⟨pb, h2, h⟩ := Option.bind_eq_some.mp h
  obtain ⟨pc, h3, h⟩ := Option.bind_eq_some.mp h
  obtain ⟨pd, h4, h⟩ := Option.bind_eq_some.mp h
  have h1 : addSecretWrapper c (preparePod c s sv o step grace pod0) s.vpnConf
      (!isKubeconfigNeeded step o) o = some pa := h1
  have la := addSecretWrapper_lacksDshm c _ _ _ _ _
    (preparePod_lacksDshm c s sv o step grace pod0 h0 hhome hsv) h1
  have lb : pb.LacksDshm := by
    cases hv : s.vpnConf with
    | none => rw [hv] at h2; cases h2; exact la
    | some vpn => simp only [hv] at h2; exact addVPNClient_lacksDshm vpn _ _ la h2
  have lc := updateContainer0_lacksDshm _ _ _ [] lb (fun _ => by simp) (by simp) h3
  have ld := updateContainer0_lacksDshm _ _ _ [] lc (fun _ => by simp) (by simp) h4
  exact updateContainer0_lacksDshm _ _ _ [] ld (fun _ => by simp) (by simp) h

theorem getClusterClaimPodParams_mounts (c : Collaborators) (svm : List VolumeMount)
    (testName : String) (v : List EnvVar × List VolumeMount)
    (h : getClusterClaimPodParams c svm testName = Except.ok v) : ∀ m ∈ v.2, m ∈ svm := by
  unfold getClusterClaimPodParams at h
  simp only [List.foldl_cons, List.foldl_nil] at h
  cases hk : svm.find? (fun m => m.MountPath ==
      c.getMountPath (c.NamePerTest c.HiveAdminKubeconfigSecret testName)) with
  | none =>
    cases hp : svm.find? (fun m => m.MountPath ==
      c.getMountPath (c.NamePerTest c.HiveAdminPasswordSecret testName)) <;>
      simp [hk, hp] at h
  | some a =>
    cases hp : svm.find? (fun m => m.MountPath ==
      c.getMountPath (c.NamePerTest c.HiveAdminPasswordSecret testName)) with
    | none => simp [hk, hp] at h
    | some b =>
      simp only [hk, hp] at h
      split at h
      · cases h
      · cases h
        intro m hm
        simp only [List.nil_append, List.cons_append, List.mem_cons, List.mem_singleton,
          List.not_mem_nil, or_false] at hm
        rcases hm with hm | hm
        · rw [hm]; exact List.mem_of_find?_eq_some hk
        · rw [hm]; exact List.mem_of_find?_eq_some hp

theorem clusterAccess_lacksDshm (c : Collaborators) (s : multiStageTestStep)
    (mounts : List VolumeMount) (needs : Bool) (pod p : Pod) (errs : List Error)
    (hl : pod.LacksDshm) (hm : ∀ m ∈ mounts, m.Name ≠ "dshm")
    (h : clusterAccess c s mounts needs pod = some (p, errs)) : p.LacksDshm := by
  unfold clusterAccess at h
  by_cases hcl : s.clusterClaim.isSome = true
  · cases hget : getClusterClaimPodParams c mounts s.name with
    | error err =>
      simp only [hcl, hget, if_true, Option.some.injEq, Prod.mk.injEq] at h
      rw [← h.1]
      exact hl
    | ok v =>
      simp only [hcl, hget, if_true] at h
      obtain ⟨q, hq, hqp⟩ := Option.map_eq_some'.mp h
      simp only [Prod.mk.injEq] at hqp
      rw [← hqp.1]
      exact updateContainer0_lacksDshm _ _ _ v.2 hl (fun _ => rfl)
        (fun m hmem => hm m (getClusterClaimPodParams_mounts c mounts s.name v hget m hmem)) hq
  · by_cases hn : needs = true
    · simp only [hcl, hn, if_true, Bool.false_eq_true, if_false] at h
      obtain ⟨q, hq, hqp⟩ := Option.map_eq_some'.mp h
      simp only [Prod.mk.injEq] at hqp
      rw [← hqp.1]
      exact updateContainer0_lacksDshm _ _ _ [] hl (fun _ => by simp) (by simp) hq
    · simp only [hcl, hn, Bool.false_eq_true, if_false, Option.some.injEq, Prod.mk.injEq] at h
      rw [← h.1]
      exact hl

theorem addProfile_lacksDshm (c : Collaborators) (name profile : String) (pod p : Pod)
    (hl : pod.LacksDshm) (h : addProfile c name profile pod = some p) : p.LacksDshm := by
  unfold addProfile at h
  exact updateContainer0_lacksDshm _ _ _
    [{ Name := profileVolumeName, MountPath := c.ClusterProfileMountPath }]
    (addVolumes_lacksDshm pod _ hl (by simp [profileVolumeName])) (fun _ => rfl)
    (by simp [profileVolumeName]) h

theorem addCliInjector_lacksDshm (c : Collaborators) (imagestream : String) (pod p : Pod)
    (hl : pod.LacksDshm) (h : addCliInjector c imagestream pod = some p) : p.LacksDshm := by
  unfold addCliInjector at h
  exact updateContainer0_lacksDshm _ _ _ [{ Name := "cli", MountPath := c.CliMountPath }]
    (addInitContainer_lacksDshm _ _ (addVolumes_lacksDshm pod _ hl (by simp))) (fun _ => rfl)
    (by simp) h

theorem addSharedDirSecret_lacksDshm (c : Collaborators) (secret : String) (pod p : Pod)
    (hl : pod.LacksDshm) (hs : secret ≠ "dshm")
    (h : addSharedDirSecret c secret pod = some p) : p.LacksDshm := by
  unfold addSharedDirSecret at h
  exact updateContainer0_lacksDshm _ _ _ [{ Name := secret, MountPath := c.SecretMountPath }]
    (addVolumes_lacksDshm pod _ hl (by simpa using hs)) (fun _ => rfl) (by simpa using hs) h

theorem addCommandScript_lacksDshm (c : Collaborators) (name : String) (pod p : Pod)
    (hl : pod.LacksDshm) (h : addCommandScript c name pod = some p) : p.LacksDshm := by
  unfold addCommandScript at h
  exact updateContainer0_lacksDshm _ _ _
    [{ Name := "commands-script", MountPath := c.CommandScriptMountPath }]
    (addVolumes_lacksDshm pod _ hl (by simp)) (fun _ => rfl) (by simp) h

theorem addLegacyCredential_lacksDshm (c : Collaborators) (credential : CredentialReference)
    (pod p : Pod) (hl : pod.LacksDshm)
    (hn : c.volumeName credential.Namespace credential.Name ≠ "dshm")
    (h : addLegacyCredential c pod credential = some p) : p.LacksDshm := by
  unfold addLegacyCredential at h
  exact updateContainer0_lacksDshm _ _ _
    [{ Name := c.volumeName credential.Namespace credential.Name,
       MountPath := credential.MountPath }]
    (addVolumes_lacksDshm pod _ hl (by simpa using hn)) (fun _ => rfl) (by simpa using hn) h

theorem addCSICredentialGroup_lacksDshm (c : Collaborators) (group : List CredentialReference)
    (pod p : Pod) (hl : pod.LacksDshm)
    (hn : ∀ credential ∈ group, ∀ ns,
      c.getCSIVolumeName ns credential.Collection credential.MountPath ≠ "dshm")
    (h : addCSICredentialGroup c pod group = some p) : p.LacksDshm := by
  unfold addCSICredentialGroup at h
  split at h
  · cases h
  · rename_i first rest
    have hf := hn first (by simp) pod.Namespace
    exact updateContainer0_lacksDshm _ _ _
      [{ Name := c.getCSIVolumeName pod.Namespace first.Collection first.MountPath,
         MountPath := first.MountPath }]
      (addVolumes_lacksDshm pod _ hl (by simpa using hf)) (fun _ => rfl) (by simpa using hf) h

theorem foldlM_lacksDshm {α : Type} (f : Pod → α → Option Pod) (good : α → Prop)
    (hf : ∀ a pod p, good a → pod.LacksDshm → f pod a = some p → p.LacksDshm) (l : List α)
    (hgood : ∀ a ∈ l, good a) (pod p : Pod) (hl : pod.LacksDshm)
    (h : l.foldlM f pod = some p) : p.LacksDshm := by
  induction l generalizing pod with
  | nil =>
    simp only [List.foldlM_nil] at h
    cases h
    exact hl
  | cons a as ih =>
    rw [List.foldlM_cons] at h
    obtain ⟨p1, h1, h2⟩ := Option.bind_eq_some.mp h
    exact ih (fun b hb => hgood b (by simp [hb])) p1
      (hf a pod p1 (hgood a (by simp)) hl h1) h2

theorem expectedGroups_members (credentials : List CredentialReference)
    (entry : String × List CredentialReference) (h : entry ∈ expectedGroups credentials) :
    ∀ credential ∈ entry.2, credential ∈ credentials := by
  unfold expectedGroups at h
  obtain ⟨k, -, rfl⟩ := List.mem_map.mp h
  intro credential hc
  exact (List.mem_filter.mp hc).1

theorem addCredentials_lacksDshm (c : Collaborators) (hrange : ∀ m, (c.rangeMap m).Perm m)
    (credentials : List CredentialReference) (useCSI : Bool) (pod p : Pod)
    (hl : pod.LacksDshm)
    (hlegacy : ∀ credential ∈ credentials,
      c.volumeName credential.Namespace credential.Name ≠ "dshm")
    (hcsi : ∀ credential ∈ credentials, ∀ ns,
      c.getCSIVolumeName ns credential.Collection credential.MountPath ≠ "dshm")
    (h : addCredentials c credentials pod useCSI = some p) : p.LacksDshm := by
  unfold addCredentials at h
  split at h
  · refine foldlM_lacksDshm _
      (fun entry => ∀ credential ∈ entry.2, credential ∈ credentials)
      (fun e q q1 he hq hq1 => addCSICredentialGroup_lacksDshm c e.2 q q1 hq
        (fun credential hc ns => hcsi credential (he credential hc) ns) hq1) _ ?_ _ _ hl h
    intro entry hentry
    have hmem := (hrange _).mem_iff.mp hentry
    rw [groupCredentials_eq_expected] at hmem
    exact expectedGroups_members credentials entry hmem
  · exact foldlM_lacksDshm _ (fun credential => credential ∈ credentials)
      (fun e q q1 he hq hq1 => addLegacyCredential_lacksDshm c e q q1 hq (hlegacy e he) hq1)
      _ (fun a ha => ha) _ _ hl h

theorem setSecurityContexts_lacksDshm (pod : Pod) (root : String) (uid : Int)
    (caps : Option Capabilities) (se : Option SELinuxOptions) (hl : pod.LacksDshm) :
    (setSecurityContexts pod root uid caps se).LacksDshm := by
  refine ⟨hl.1, ?_⟩
  intro k hk m hm
  simp only [setSecurityContexts, setSecurityContextsOn, List.mem_map] at hk
  obtain ⟨k0, hk0, rfl⟩ := hk
  have hm0 : m ∈ k0.VolumeMounts := by
    by_cases hn : k0.Name = root <;> simpa [hn] using hm
  exact hl.2 k0 hk0 m hm0

theorem attachResources_noShm_lacksDshm (c : Collaborators)
    (hrange : ∀ m, (c.rangeMap m).Perm m) (s : multiStageTestStep)
    (o : generatePodOptions) (step : LiteralTestStep) (cr : Option ClaimRelease) (pod p : Pod)
    (hl : pod.LacksDshm) (hs : s.name ≠ "dshm")
    (hlegacy : ∀ credential ∈ step.Credentials,
      c.volumeName credential.Namespace credential.Name ≠ "dshm")
    (hcsi : ∀ credential ∈ step.Credentials, ∀ ns,
      c.getCSIVolumeName ns credential.Collection credential.MountPath ≠ "dshm")
    (h : attachResources c s o step {} cr pod = some p) : p.LacksDshm := by
  unfold attachResources at h
  simp only [ResourceList.Name, List.lookup, Option.getD_none, ne_eq, not_true_eq_false,
    if_false] at h
  obtain ⟨p1, h1, h⟩ := Option.bind_eq_some.mp h
  obtain ⟨p2, h2, h⟩ := Option.bind_eq_some.mp h
  obtain ⟨p3, h3, h⟩ := Option.bind_eq_some.mp h
  obtain ⟨p4, h4, h⟩ := Option.bind_eq_some.mp h
  obtain ⟨p5, h5, h⟩ := Option.bind_eq_some.mp h
  obtain ⟨p6, h6, h⟩ := Option.bind_eq_some.mp h
  have l1 : p1.LacksDshm := by cases h1; exact hl
  have l2 : p2.LacksDshm := by
    split at h2
    · exact addProfile_lacksDshm c _ _ _ _ l1 h2
    · cases h2; exact l1
  have l3 : p3.LacksDshm := by
    split at h3
    · exact addCliInjector_lacksDshm c _ _ _ l2 h3
    · cases h3; exact l2
  have l4 : p4.LacksDshm := addSharedDirSecret_lacksDshm c _ _ _ l3 hs h4
  have l5 : p5.LacksDshm := addCredentials_lacksDshm c hrange _ _ _ _ l4 hlegacy hcsi h5
  have l6 : p6.LacksDshm := by
    split at h6
    · exact addCommandScript_lacksDshm c _ _ _ l5 h6
    · cases h6; exact l5
  split at h
  · cases h; exact setSecurityContexts_lacksDshm _ _ _ _ _ l6
  · cases h; exact l6

theorem finishPod_noShm_lacksDshm (c : Collaborators) (hrange : ∀ m, (c.rangeMap m).Perm m)
    (s : multiStageTestStep) (svm : List VolumeMount) (o : generatePodOptions)
    (cr : Option ClaimRelease) (step : LiteralTestStep) (res : ResourceRequirements)
    (depEnv : List EnvVar) (pod p : Pod) (errs : List Error)
    (hshm : res.Requests.Name c.ShmResource = 0)
    (hl : pod.LacksDshm) (hs : s.name ≠ "dshm") (hsvm : ∀ m ∈ svm, m.Name ≠ "dshm")
    (hlegacy : ∀ credential ∈ step.Credentials,
      c.volumeName credential.Namespace credential.Name ≠ "dshm")
    (hcsi : ∀ credential ∈ step.Credentials, ∀ ns,
      c.getCSIVolumeName ns credential.Collection credential.MountPath ≠ "dshm")
    (h : finishPod c s svm o cr step res depEnv pod = some (p, errs)) : p.LacksDshm := by
  unfold finishPod at h
  cases hu : updateContainer0 pod (fun container =>
      { container with Env := container.Env ++ depEnv }) with
  | none => simp [hu] at h
  | some q =>
    simp only [hu] at h
    have lq : q.LacksDshm :=
      updateContainer0_lacksDshm _ _ _ [] hl (fun _ => by simp) (by simp) hu
    cases hown : s.jobSpec.Owner with
    | none =>
      simp only [hown] at h
      cases hca : clusterAccess c s svm (isKubeconfigNeeded step o) q with
      | none => simp [hca] at h
      | some r =>
        obtain ⟨p2, errs2⟩ := r
        simp only [hca] at h
        cases hat : attachResources c s o step res cr p2 with
        | none => simp [hat] at h
        | some p3 =>
          simp only [hat, Option.some.injEq, Prod.mk.injEq] at h
          rw [← h.1]
          have l2 := clusterAccess_lacksDshm c s svm _ _ _ _ lq hsvm hca
          rw [attachResources_shm, if_neg (by simpa using hshm)] at hat
          exact attachResources_noShm_lacksDshm c hrange s o step cr p2 p3 l2 hs hlegacy hcsi hat
    | some owner =>
      simp only [hown] at h
      have lo : Pod.LacksDshm { q with OwnerReferences := q.OwnerReferences ++ [owner] } :=
        ⟨lq.1, lq.2⟩
      cases hca : clusterAccess c s svm (isKubeconfigNeeded step o)
          { q with OwnerReferences := q.OwnerReferences ++ [owner] } with
      | none => simp [hca] at h
      | some r =>
        obtain ⟨p2, errs2⟩ := r
        simp only [hca] at h
        cases hat : attachResources c s o step res cr p2 with
        | none => simp [hat] at h
        | some p3 =>
          simp only [hat, Option.some.injEq, Prod.mk.injEq] at h
          rw [← h.1]
          have l2 := clusterAccess_lacksDshm c s svm _ _ _ _ lo hsvm hca
          rw [attachResources_shm, if_neg (by simpa using hshm)] at hat
          exact attachResources_noShm_lacksDshm c hrange s o step cr p2 p3 l2 hs hlegacy hcsi hat

theorem stepBuild_base_volumes (c : Collaborators) (s : multiStageTestStep) (env : List EnvVar)
    (sv : List Volume) (svm : List VolumeMount) (o : generatePodOptions)
    (step : LiteralTestStep) (res : ResourceRequirements) (pod : Pod) (errs : List Error)
    (h : stepBuild c s env sv svm o step res = some (some pod, errs)) :
    ∃ pod0, stepBasePod c s svm o step res = Except.ok pod0 ∧
      (∀ v ∈ pod0.Spec.Volumes, v ∈ pod.Spec.Volumes) ∧
      (res.Requests.Name c.ShmResource = 0 → (∀ m, (c.rangeMap m).Perm m) →
        NoOtherDshm c s sv svm step pod0 → pod.LacksDshm) := by
  unfold stepBuild at h
  obtain ⟨pod0, p1, hbase, hdec, hfin⟩ := buildStepPod_some _ _ _ _ _ _ _ _ _ _ _ _ _ _ _ _ h
  refine ⟨pod0, hbase, ?_, ?_⟩
  · obtain ⟨-, -, -, -, -, -, -, -, -, -, -, hvol, -⟩ := decoratePod_shape _ _ _ _ _ _ _ _ _ hdec
    obtain ⟨pa, p2, ka, kb, hat⟩ := finishPod_keeps _ _ _ _ _ _ _ _ _ _ _ hfin
    have kc := attachResources_keeps _ _ _ _ _ _ _ _ hat
    intro v hv
    exact kc.volumes v (kb.volumes v (ka.volumes v (hvol v hv)))
  · intro hshm hrange hno
    have l1 := decoratePod_lacksDshm _ _ _ _ _ _ _ _ _ hno.basePod hno.home hno.secretVolumes hdec
    exact finishPod_noShm_lacksDshm c hrange (stepContext c s step) svm o _ step res _ p1 pod
      errs hshm l1 hno.test hno.secretMounts hno.legacy hno.csi hfin

/-- C17: for every step that is not skipped, whose resources parse, whose base
pod is generated and whose dependencies resolve, `generatePods` returns and
the pod list holds the pod of the step between the pods of the steps before
and after it. The base pod generator was called with the parsed resources
stripped by `stripShm`, and every volume of the base pod is in the pod. When
the requests hold a non-zero shared memory quantity, the stripped resources
hold the shared memory resource in neither requests nor limits, and the pod
has the volume `dshm`, a memory-medium empty-dir whose size limit is the
requested quantity, mounted at `/dev/shm` on the primary container. When they
do not, the resources are handed on unchanged, and the pod has no volume and
no mount named `dshm` unless the base pod, the home volume, the test name, the
secret volumes or mounts, or a credential volume of the step brings one. -/
theorem shm_request_becomes_dshm_volume (c : Collaborators) (hc : c.WellBehaved)
    (s : multiStageTestStep) (before after : List LiteralTestStep) (step : LiteralTestStep)
    (env : List EnvVar) (secretVolumes : List Volume) (secretVolumeMounts : List VolumeMount)
    (genPodOpts : Option generatePodOptions)
    (hreach : ReachesClusterAccess c s secretVolumeMounts
      (genPodOpts.getD defaultGeneratePodOptions) step) :
    ∃ r ra rb r1 pod res pod0,
      generatePods c s (before ++ step :: after) env secretVolumes secretVolumeMounts genPodOpts
        = some r ∧
      generatePods c s before env secretVolumes secretVolumeMounts genPodOpts = some ra ∧
      generatePods c s after env secretVolumes secretVolumeMounts genPodOpts = some rb ∧
      generatePods c s [step] env secretVolumes secretVolumeMounts genPodOpts = some r1 ∧
      r1.pods = [pod] ∧
      r.pods = ra.pods ++ pod :: rb.pods ∧
      c.ResourcesFor step.Resources = Except.ok res ∧
      basePodFor c (stepContext c s step) secretVolumeMounts
        (genPodOpts.getD defaultGeneratePodOptions) step (s.name ++ "-" ++ step.As)
        (stepImage c (claimReleaseOf c s) step) (s.name ++ "/" ++ step.As) (stripShm c res)
        = Except.ok pod0 ∧
      (∀ v ∈ pod0.Spec.Volumes, v ∈ pod.Spec.Volumes) ∧
      (res.Requests.Name c.ShmResource ≠ 0 →
        (∀ e ∈ (stripShm c res).Requests, e.1 ≠ c.ShmResource) ∧
        (∀ e ∈ (stripShm c res).Limits, e.1 ≠ c.ShmResource) ∧
        dshmVolume (res.Requests.Name c.ShmResource) ∈ pod.Spec.Volumes ∧
        ∃ k ks, pod.Spec.Containers = k :: ks ∧ dshmMount ∈ k.VolumeMounts) ∧
      (res.Requests.Name c.ShmResource = 0 →
        stripShm c res = res ∧
        (NoOtherDshm c s secretVolumes secretVolumeMounts step pod0 → pod.LacksDshm)) := by
  obtain ⟨r, ra, rb, r1, pod, hr, hra, hrb, hr1, hp1, hpods, -⟩ :=
    generatePods_reaching_step c hc s before after step env secretVolumes secretVolumeMounts
      genPodOpts hreach
  obtain ⟨step1, hstep1, res, errs, -, hres, hb⟩ :=
    generatePods_pod_origin c s [step] env secretVolumes secretVolumeMounts genPodOpts r1 hr1
      pod (by simp [hp1])
  simp only [List.mem_singleton] at hstep1
  subst hstep1
  obtain ⟨pod0, hbase, hvol, hlacks⟩ := stepBuild_base_volumes _ _ _ _ _ _ _ _ _ _ hb
  obtain ⟨-, -, -, -, hshm⟩ := stepBuild_pod_facts _ _ _ _ _ _ _ _ _ _ hb
  refine ⟨r, ra, rb, r1, pod, res, pod0, hr, hra, hrb, hr1, hp1, hpods, hres, hbase, hvol, ?_, ?_⟩
  · intro hne
    obtain ⟨h1, h2⟩ := (stripShm_spec c res).1 hne
    obtain ⟨h3, h4⟩ := hshm hne
    exact ⟨h1, h2, h3, h4⟩
  · intro hz
    exact ⟨(stripShm_spec c res).2 hz, hlacks hz hc.rangeMapPerm⟩

theorem sampleParsesResources_wellBehaved : sampleParsesResources.WellBehaved where
  basePodHasContainer := by
    intro js labels name nodeName cn cmds image res dir dc raw mounts obs pod h
    simp only [sampleParsesResources, sampleCollaborators, Except.ok.injEq] at h
    rw [← h]
    simp
  rangeMapPerm := fun m => List.Perm.refl m

theorem sampleParsesResources_reaches (s : multiStageTestStep) (svm : List VolumeMount)
    (o : generatePodOptions) (step : LiteralTestStep)
    (hskip : skipsStep sampleParsesResources s step = false) (hdeps : step.Dependencies = []) :
    ReachesClusterAccess sampleParsesResources s svm o step where
  notSkipped := hskip
  basePod := ⟨_, _, rfl, rfl⟩
  dependencies := by simp [envForDependencies, hdeps]

theorem shm_request_becomes_dshm_volume_witness :
    sampleParsesResources.WellBehaved ∧
    ReachesClusterAccess sampleParsesResources { name := "e2e" } []
      ((none : Option generatePodOptions).getD defaultGeneratePodOptions) sampleShmStep ∧
    (∃ r pod,
      generatePods sampleParsesResources { name := "e2e" }
        ([{ As := "pre" }] ++ sampleShmStep :: [{ As := "post" }]) [] [] [] none = some r ∧
      pod ∈ r.pods ∧
      dshmVolume 2 ∈ pod.Spec.Volumes ∧
      ∃ k ks, pod.Spec.Containers = k :: ks ∧ dshmMount ∈ k.VolumeMounts) ∧
    (∃ r pod,
      generatePods sampleParsesResources { name := "e2e" }
        ([] ++ { As := "pre" } :: [sampleShmStep, { As := "post" }]) [] [] [] none = some r ∧
      r.pods.head? = some pod ∧ pod.LacksDshm) ∧
    (generatePods sampleParsesResources { name := "e2e" }
        ([{ As := "pre" }] ++ sampleShmStep :: [{ As := "post" }]) [] [] [] none).map
      (fun r => r.pods.map fun p =>
        (p.Name, p.Spec.Volumes.map (fun v => v.Name),
          p.Spec.Containers.map fun k => (k.Resources, k.VolumeMounts.map fun m => m.Name)))
      = some
        [ ("e2e-pre", ["home", "entrypoint-wrapper", "e2e"],
            [({}, ["home", "entrypoint-wrapper", "e2e"])]),
          ("e2e-browser", ["home", "entrypoint-wrapper", "dshm", "e2e"],
            [({ Requests := [("cpu", 1)], Limits := [] },
              ["home", "entrypoint-wrapper", "dshm", "e2e"])]),
          ("e2e-post", ["home", "entrypoint-wrapper", "e2e"],
            [({}, ["home", "entrypoint-wrapper", "e2e"])]) ] := by
  have hreach := sampleParsesResources_reaches { name := "e2e" } []
    ((none : Option generatePodOptions).getD defaultGeneratePodOptions) sampleShmStep
    (by decide) rfl
  have hreach0 := sampleParsesResources_reaches { name := "e2e" } []
    ((none : Option generatePodOptions).getD defaultGeneratePodOptions) { As := "pre" }
    (by decide) rfl
  refine ⟨sampleParsesResources_wellBehaved, hreach, ?_, ?_, by decide⟩
  · obtain ⟨r, ra, rb, r1, pod, res, pod0, hr, -, -, -, -, hpods, hres, -, -, hshm, -⟩ :=
      shm_request_becomes_dshm_volume sampleParsesResources sampleParsesResources_wellBehaved
        { name := "e2e" } [{ As := "pre" }] [{ As := "post" }] sampleShmStep [] [] [] none hreach
    have hres2 : res = { Requests := [("cpu", 1), ("ci-operator.openshift.io/shm", 2)],
                         Limits := [("ci-operator.openshift.io/shm", 2)] } := by
      have h0 : sampleParsesResources.ResourcesFor sampleShmStep.Resources
          = Except.ok { Requests := [("cpu", 1), ("ci-operator.openshift.io/shm", 2)],
                        Limits := [("ci-operator.openshift.io/shm", 2)] } := rfl
      rw [h0] at hres
      exact (Except.ok.inj hres).symm
    subst hres2
    obtain ⟨-, -, hv, hm⟩ := hshm (by decide)
    exact ⟨r, pod, hr, by rw [hpods]; simp, hv, hm⟩
  · obtain ⟨r, ra, rb, r1, pod, res, pod0, hr, hra, -, -, -, hpods, hres, hbase, -, -, hzero⟩ :=
      shm_request_becomes_dshm_volume sampleParsesResources sampleParsesResources_wellBehaved
        { name := "e2e" } [] [sampleShmStep, { As := "post" }] { As := "pre" } [] [] [] none
        hreach0
    rw [generatePods_nil] at hra
    cases hra
    have hres2 : res = {} := (Except.ok.inj hres).symm
    subst hres2
    have hpod0 := (Except.ok.inj hbase).symm
    have hbp : pod0.LacksDshm := by
      rw [hpod0]
      constructor
      · intro v hv
        exact absurd hv (List.not_mem_nil v)
      · intro k hk m hm
        have hk1 := List.mem_singleton.mp hk
        rw [hk1] at hm
        exact absurd hm (List.not_mem_nil m)
    refine ⟨r, pod, hr, by rw [hpods]; rfl, (hzero (by decide)).2 ?_⟩
    exact ⟨hbp, by decide, by decide, fun v hv => absurd hv (List.not_mem_nil v),
      fun m hm => absurd hm (List.not_mem_nil m),
      fun credential hcr => absurd hcr (List.not_mem_nil credential),
      fun credential hcr => absurd hcr (List.not_mem_nil credential)⟩

end MultiStage
